import Mathlib

/-!
# translatechat: the translation relay (`nsq_translate/nsq_translate.go`)

A shallow embedding of the relay worker of the repository and, of the HTTP
server (`tcpBoltDB/volantmq.go`), of the sibling translator and of the
handlers that keep accounts and friendships.

Conventions of the embedding.

* A Go `error` is an `Option Err`: `none` is `nil`.
* A Go function that can panic returns an `Outcome`: either it returns a
  value or it panics (index out of range).
* Everything outside the process (clock, file system calls, child processes,
  HTTP, the NSQ producer) and the library functions the code calls
  (`packet.Decode`, `packet.Encode`, `json.Marshal`, the JSON scanner,
  `base64`, `url.QueryEscape`, `md5`) are fields of an environment `Env`.
  Every effectful field receives the world as it is at the moment of the call,
  so a collaborator may answer differently on every call.
* The world carries the file system, the global variable `token` and the
  trace of the calls made so far, oldest first.
* The account handlers of the HTTP server run on a `Site`: the database, the
  number of readings of the clock, and the MQTT messages sent. Their
  collaborators are the fields of `SiteEnv`.
-/

set_option maxRecDepth 100000

namespace TranslateChat

/-! ## Values -/

/-- Go `[]byte`. -/
abbrev Bytes := List UInt8

/-- Go `[]byte(s)`: the UTF-8 bytes of a string. -/
def bytesOf (s : String) : Bytes :=
  s.data.flatMap String.utf8EncodeChar

/-- Go error values. `ErrUnexpectedObjectType` is the sentinel of
`topics/types`; `errorf` is a value built by `fmt.Errorf`; `unmarshalType` is
`*json.UnmarshalTypeError` (it names the kind of JSON value met);
`invalidJSON` is `*json.SyntaxError`; `notExist` is the error of `os.Open` on
a missing file; `upstream` is any error handed back by a collaborator. -/
inductive Err where
  | ErrUnexpectedObjectType
  | errorf (msg : String)
  | unmarshalType (value : String)
  | invalidJSON
  | notExist (path : String)
  | upstream (msg : String)
deriving DecidableEq, Repr

/-- Result of a Go call that may panic instead of returning. -/
inductive Outcome (α : Type) where
  | ret (a : α)
  | panic (msg : String)
deriving DecidableEq, Repr

/-- The struct `ChatMsgJson` of `nsq_translate.go`. The zero value has every
field empty. -/
structure ChatMsgJson where
  Catalog : String := ""
  Time : String := ""
  FromUser : String := ""
  ToUser : String := ""
  FromLang : String := ""
  ToLang : String := ""
  FromText : String := ""
  FromAudio : String := ""
  ToText : String := ""
  ToAudioUrl : String := ""
deriving DecidableEq, Repr

/-- One element of `TransResp.TransResult`. -/
structure TransSegment where
  Src : String := ""
  Dst : String := ""
deriving DecidableEq, Repr

/-- The struct `TransResp`. -/
structure TransResp where
  From : String := ""
  To : String := ""
  TransResult : List TransSegment := []
deriving DecidableEq, Repr

/-- The struct `Audio2TextResult`. -/
structure Audio2TextResult where
  ErrNo : Int := 0
  ErrMsg : String := ""
  Result : List String := []
deriving DecidableEq, Repr

/-- A parsed JSON text. Object members are kept in the order of the text,
duplicates included; a number keeps its literal. -/
inductive Json where
  | null
  | bool (b : Bool)
  | number (lit : String)
  | str (s : String)
  | array (elems : List Json)
  | object (members : List (String × Json))

/-- An MQTT PUBLISH packet as the relay sees it: topic, payload, and the
QoS/flag metadata (dup, qos, retain, packet id) which the relay never reads. -/
structure Publish where
  topic : String
  payload : Bytes
  dup : Bool := false
  qos : Nat := 0
  retain : Bool := false
  packetId : Nat := 0
deriving DecidableEq, Repr

/-- What `packet.Decode` hands back: a PUBLISH packet or a packet of another
type (CONNECT, SUBSCRIBE, ...): its MQTT type number and its content. -/
inductive Packet where
  | publish (p : Publish)
  | other (kind : Nat) (content : Bytes)
deriving DecidableEq, Repr

/-- The method `pubPkt.SetPayload(ret)`. -/
def Publish.SetPayload (p : Publish) (data : Bytes) : Publish :=
  { p with payload := data }

/-- An `*http.Response`: the value of `Header.Get("Content-type")` and the
result of `ioutil.ReadAll(res.Body)`. -/
structure HttpResponse where
  contentType : String
  body : Except Err Bytes

/-! ## The world -/

/-- A call that leaves the process, or a call of `json.Unmarshal`. -/
inductive Event where
  | now
  | mkdirAll (dir : String)
  | writeFile (path : String) (data : Bytes)
  | remove (path : String)
  | openFile (path : String)
  | exec (cmd : String)
  | httpGet (url : String)
  | httpPost (url : String) (contentType : String) (body : Bytes)
  | jsonUnmarshal (data : Bytes)
  | publish (topic : String) (body : Bytes)
deriving DecidableEq, Repr

/-- The file system: path and content of every regular file. -/
abbrev Files := List (String × Bytes)

/-- State of the process and of its surroundings. -/
structure World where
  files : Files := []
  token : String := ""
  trace : List Event := []
deriving DecidableEq, Repr

/-- Append one call to the trace. -/
def World.log (w : World) (e : Event) : World :=
  { w with trace := w.trace ++ [e] }

/-- Whether a call is a Publish on the NSQ producer. -/
def Event.isPublish : Event → Bool
  | Event.publish _ _ => true
  | _ => false

/-- The relation `Calls w w2 evs`: the world `w2` is `w` after the calls
`evs`, none of them a Publish on the NSQ producer, and with the same token. -/
def Calls (w w2 : World) (evs : List Event) : Prop :=
  w2.trace = w.trace ++ evs ∧ w2.token = w.token ∧ ∀ e ∈ evs, e.isPublish = false

/-- Content of a file, if the file exists. -/
def Files.read (fs : Files) (path : String) : Option Bytes :=
  fs.lookup path

/-- The file system after `path` has been (re)written with `data`. -/
def Files.write (fs : Files) (path : String) (data : Bytes) : Files :=
  (path, data) :: fs.filter (fun f => f.1 != path)

/-- The file system after `path` has been unlinked. -/
def Files.delete (fs : Files) (path : String) : Files :=
  fs.filter (fun f => f.1 != path)

/-- The collaborators and library functions of the relay. -/
structure Env where
  /-- Reading of `time.Now().Unix()`. -/
  now : World → Int
  /-- Error of `os.MkdirAll(dir, os.ModePerm)`. -/
  mkdirAll : World → String → Option Err
  /-- Error of `ioutil.WriteFile(path, data, 0644)`. -/
  writeFile : World → String → Bytes → Option Err
  /-- Error of `os.Remove(path)` on a file that exists. -/
  remove : World → String → Option Err
  /-- Error of `os.Open(path)` on a file that exists. -/
  openFile : World → String → Option Err
  /-- Error of `exec.Command("bash", "-c", cmd).Output()` and the file system
  the child process leaves behind. -/
  exec : World → String → Option Err × Files
  /-- Result of `http.Get(url)`. -/
  httpGet : World → String → Except Err HttpResponse
  /-- Result of `http.Post(url, contentType, body)`. -/
  httpPost : World → String → String → Bytes → Except Err HttpResponse
  /-- Error of `p.Publish(topic, body)` on the NSQ producer. -/
  publish : World → String → Bytes → Option Err
  /-- Result of `packet.Decode(packet.ProtocolV311, body)`. -/
  packetDecode : Bytes → Except Err Packet
  /-- Result of `packet.Encode(pkt)`. -/
  packetEncode : Publish → Except Err Bytes
  /-- The JSON scanner: the value a text denotes, `none` on a text that is not
  valid JSON. -/
  jsonParse : Bytes → Option Json
  /-- Result of `json.Marshal(chatMsg)`. -/
  jsonMarshal : ChatMsgJson → Except Err Bytes
  /-- Outcome of `json.Unmarshal(body, &transResp)` on a zero `TransResp`: the
  struct as left by the decoder, and the error. -/
  unmarshalTransResp : Bytes → TransResp × Option Err
  /-- Outcome of `json.Unmarshal(body, &a2tRet)` on a zero
  `Audio2TextResult`. -/
  unmarshalAudio2Text : Bytes → Audio2TextResult × Option Err
  /-- Result of `base64.StdEncoding.DecodeString(s)`. -/
  base64Decode : String → Except Err Bytes
  /-- Result of `url.QueryEscape(s)`. -/
  queryEscape : String → String
  /-- Result of `fmt.Sprintf("%x", md5.Sum([]byte(s)))`. -/
  md5hex : String → String

/-! ## Primitive calls -/

/-- Call of `time.Now().Unix()`. -/
def timeNowUnix (env : Env) (w : World) : Int × World :=
  (env.now w, w.log Event.now)

/-- The function `strconv.FormatInt(n, 10)`. -/
def formatInt (n : Int) : String :=
  toString n

/-- Call of `os.MkdirAll(dir, os.ModePerm)`. Directories are not part of `Files`. -/
def osMkdirAll (env : Env) (dir : String) (w : World) : Option Err × World :=
  (env.mkdirAll w dir, w.log (Event.mkdirAll dir))

/-- Call of `ioutil.WriteFile(path, data, 0644)`: on success the file holds `data`;
on failure the file system is taken as unchanged. -/
def ioutilWriteFile (env : Env) (path : String) (data : Bytes) (w : World) :
    Option Err × World :=
  match env.writeFile w path data with
  | some err => (some err, w.log (Event.writeFile path data))
  | none =>
    (none, { w.log (Event.writeFile path data) with files := w.files.write path data })

/-- Call of `os.Remove(path)`: fails on a missing file; on success the file is gone. -/
def osRemove (env : Env) (path : String) (w : World) : Option Err × World :=
  match w.files.read path with
  | none => (some (Err.notExist path), w.log (Event.remove path))
  | some _ =>
    match env.remove w path with
    | some err => (some err, w.log (Event.remove path))
    | none => (none, { w.log (Event.remove path) with files := w.files.delete path })

/-- Call of `os.Open(path)`: fails on a missing file; the handle stands for the
content of the file. -/
def osOpen (env : Env) (path : String) (w : World) : Except Err Bytes × World :=
  match w.files.read path with
  | none => (Except.error (Err.notExist path), w.log (Event.openFile path))
  | some data =>
    match env.openFile w path with
    | some err => (Except.error err, w.log (Event.openFile path))
    | none => (Except.ok data, w.log (Event.openFile path))

/-- Call of `exec.Command("bash", "-c", cmd).Output()`, the output discarded. -/
def execBash (env : Env) (cmd : String) (w : World) : Option Err × World :=
  ((env.exec w cmd).1, { w.log (Event.exec cmd) with files := (env.exec w cmd).2 })

/-- Call of `http.Get(url)`. -/
def httpGet (env : Env) (url : String) (w : World) : Except Err HttpResponse × World :=
  (env.httpGet w url, w.log (Event.httpGet url))

/-- Call of `http.Post(url, contentType, body)`. -/
def httpPost (env : Env) (url contentType : String) (body : Bytes) (w : World) :
    Except Err HttpResponse × World :=
  (env.httpPost w url contentType body, w.log (Event.httpPost url contentType body))

/-- Call of `p.Publish(topic, body)`. -/
def nsqPublish (env : Env) (topic : String) (body : Bytes) (w : World) :
    Option Err × World :=
  (env.publish w topic body, w.log (Event.publish topic body))

/-! ## The relay: `nsq_translate/nsq_translate.go` -/

namespace NsqTranslate

/-- The function `translateText` of `nsq_translate.go`. The three error
branches return `"", nil`; the result is indexed at 0 without a length
check. -/
def translateText (env : Env) (FromLang ToLang FromText : String) (w : World) :
    Outcome (String × Option Err) × World :=
  let appId := "20170714000064493"
  let SecretKey := "1F0H8Oh1YZX2U9pqdIMP"
  let queryText := FromText
  let queryTextEncoded := env.queryEscape queryText
  let srcLang := FromLang
  let dstLang := ToLang
  let (t, w1) := timeNowUnix env w
  let salt := formatInt t
  let signStr := appId ++ queryText ++ salt ++ SecretKey
  let sign := env.md5hex signStr
  let translateUrl := "http://api.fanyi.baidu.com/api/trans/vip/translate?q=" ++
    queryTextEncoded ++ "&from=" ++ srcLang ++ "&to=" ++ dstLang ++ "&appid=" ++ appId ++
    "&salt=" ++ salt ++ "&sign=" ++ sign
  match httpGet env translateUrl w1 with
  | (Except.error _, w2) => (Outcome.ret ("", none), w2)
  | (Except.ok res, w2) =>
    match res.body with
    | Except.error _ => (Outcome.ret ("", none), w2)
    | Except.ok body =>
      let w3 := w2.log (Event.jsonUnmarshal body)
      match env.unmarshalTransResp body with
      | (_, some _) => (Outcome.ret ("", none), w3)
      | (transResp, none) =>
        match transResp.TransResult with
        | [] => (Outcome.panic "index out of range [0] with length 0", w3)
        | r :: _ => (Outcome.ret (r.Dst, none), w3)

/-- The function `convertAudioFile`. -/
def convertAudioFile (env : Env) (beforeFile afterAmrFile : String) (w : World) :
    Option Err × World :=
  let cmdStr := "ffmpeg -y -i " ++ beforeFile ++ " -acodec amr_wb -ac 1 -ar 16000 -ab 23850 " ++
    afterAmrFile
  match execBash env cmdStr w with
  | (some err, w1) => (some err, w1)
  | (none, w1) =>
    match osRemove env beforeFile w1 with
    | (some err, w2) => (some err, w2)
    | (none, w2) => (none, w2)

/-- The function `audio2text`; it reads the global `token`. The result list is
indexed at 0 without a length check. -/
def audio2text (env : Env) (audioAmrFile : String) (w : World) :
    Outcome (String × Option Err) × World :=
  let cuid := "TranslateChat"
  match osOpen env audioAmrFile w with
  | (Except.error err, w1) => (Outcome.ret ("", some err), w1)
  | (Except.ok file, w1) =>
    let urlAudio2Text := "http://vop.baidu.com/server_api?lan=zh&cuid=" ++ cuid ++ "&token=" ++
      w1.token
    match httpPost env urlAudio2Text "audio/amr;rate=16000" file w1 with
    | (Except.error err, w2) => (Outcome.ret ("", some err), w2)
    | (Except.ok resp, w2) =>
      match resp.body with
      | Except.error err => (Outcome.ret ("", some err), w2)
      | Except.ok body =>
        let w3 := w2.log (Event.jsonUnmarshal body)
        match env.unmarshalAudio2Text body with
        | (_, some err) => (Outcome.ret ("", some err), w3)
        | (a2tRet, none) =>
          if a2tRet.ErrNo ≠ 0 then
            (Outcome.ret ("", some (Err.errorf ("Audio2Text failed, " ++ a2tRet.ErrMsg))), w3)
          else
            match a2tRet.Result with
            | [] => (Outcome.panic "index out of range [0] with length 0", w3)
            | r :: _ => (Outcome.ret (r, none), w3)

/-- The function `text2audio`; it reads the global `token`. On a response
that is not `audio/mp3` it returns the variable `err`, which holds the `nil`
left by the successful `ioutil.ReadAll`. The error of the final `os.Remove`
is logged and dropped. -/
def text2audio (env : Env) (text mp3File saveAudioFile : String) (w : World) :
    Option Err × World :=
  let cuid := "TranslateChat"
  let message := text
  let urlMsg := env.queryEscape message
  let urlText2Audio := "http://tsn.baidu.com/text2audio?tex=" ++ urlMsg ++ "&lan=zh&cuid=" ++
    cuid ++ "&ctp=1&tok=" ++ w.token
  match httpGet env urlText2Audio w with
  | (Except.error err, w1) => (some err, w1)
  | (Except.ok res, w1) =>
    match res.body with
    | Except.error err => (some err, w1)
    | Except.ok body =>
      let err : Option Err := none
      if res.contentType ≠ "audio/mp3" then
        (err, w1)
      else
        match ioutilWriteFile env mp3File body w1 with
        | (some err, w2) => (some err, w2)
        | (none, w2) =>
          let cmdStr := "lame " ++ mp3File ++ " " ++ saveAudioFile
          match execBash env cmdStr w2 with
          | (some err, w3) => (some err, w3)
          | (none, w3) => (none, (osRemove env mp3File w3).2)

/-- The function `translate`: the first component is the returned error, the
second the envelope `*msg` as the call leaves it. -/
def translate (env : Env) (msg : ChatMsgJson) (w : World) :
    Outcome (Option Err) × ChatMsgJson × World :=
  if msg.Catalog = "text" then
    let dir := "../tcpBoltDB/" ++ "upload/" ++ msg.FromUser ++ "/" ++ msg.ToUser ++ "/"
    match osMkdirAll env dir w with
    | (some err, w1) => (Outcome.ret (some err), msg, w1)
    | (none, w1) =>
      match translateText env msg.FromLang msg.ToLang msg.FromText w1 with
      | (Outcome.panic p, w2) => (Outcome.panic p, msg, w2)
      | (Outcome.ret (_, some err), w2) => (Outcome.ret (some err), msg, w2)
      | (Outcome.ret (to_, none), w2) =>
        let msg1 := { msg with ToText := to_ }
        let (t, w3) := timeNowUnix env w2
        let nowStr := formatInt t
        let audioResultMp3File := dir ++ nowStr ++ "_result.mp3"
        let audioResultAmrFile := dir ++ nowStr ++ "_result.amr"
        let audioDownloadAmrFile := "download/" ++ msg1.FromUser ++ "/" ++ msg1.ToUser ++ "/" ++
          nowStr ++ "_result.amr"
        match text2audio env msg1.ToText audioResultMp3File audioResultAmrFile w3 with
        | (some err, w4) => (Outcome.ret (some err), msg1, w4)
        | (none, w4) =>
          (Outcome.ret none, { msg1 with ToAudioUrl := audioDownloadAmrFile }, w4)
  else
    let dir := "../tcpBoltDB/" ++ "upload/" ++ msg.FromUser ++ "/" ++ msg.ToUser ++ "/"
    match osMkdirAll env dir w with
    | (some err, w1) => (Outcome.ret (some err), msg, w1)
    | (none, w1) =>
      match env.base64Decode msg.FromAudio with
      | Except.error err => (Outcome.ret (some err), msg, w1)
      | Except.ok decoded =>
        let (t, w2) := timeNowUnix env w1
        let nowStr := formatInt t
        let audioCvtBefFile := dir ++ nowStr ++ "_cvtbef.amr"
        let audioAmrFile := dir ++ nowStr ++ ".amr"
        match ioutilWriteFile env audioCvtBefFile decoded w2 with
        | (some err, w3) => (Outcome.ret (some err), msg, w3)
        | (none, w3) =>
          match convertAudioFile env audioCvtBefFile audioAmrFile w3 with
          | (some err, w4) => (Outcome.ret (some err), msg, w4)
          | (none, w4) =>
            match audio2text env audioAmrFile w4 with
            | (Outcome.panic p, w5) => (Outcome.panic p, msg, w5)
            | (Outcome.ret (_, some err), w5) => (Outcome.ret (some err), msg, w5)
            | (Outcome.ret (text, none), w5) =>
              let msg1 := { msg with FromText := text }
              match translateText env msg1.FromLang msg1.ToLang msg1.FromText w5 with
              | (Outcome.panic p, w6) => (Outcome.panic p, msg1, w6)
              | (Outcome.ret (_, some err), w6) => (Outcome.ret (some err), msg1, w6)
              | (Outcome.ret (to_, none), w6) =>
                let msg2 := { msg1 with ToText := to_ }
                let audioResultMp3File := dir ++ nowStr ++ "_result.mp3"
                let audioResultAmrFile := dir ++ nowStr ++ "_result.amr"
                let audioDownloadAmrFile := "download/" ++ msg2.FromUser ++ "/" ++
                  msg2.ToUser ++ "/" ++ nowStr ++ "_result.amr"
                match text2audio env msg2.ToText audioResultMp3File audioResultAmrFile w6 with
                | (some err, w7) => (Outcome.ret (some err), msg2, w7)
                | (none, w7) =>
                  (Outcome.ret none,
                    { msg2 with ToAudioUrl := audioDownloadAmrFile, FromAudio := "" }, w7)

/-- Kind of a JSON value, as `json.UnmarshalTypeError.Value` names it. -/
def jsonKind : Json → String
  | Json.null => "null"
  | Json.bool _ => "bool"
  | Json.number _ => "number"
  | Json.str _ => "string"
  | Json.array _ => "array"
  | Json.object _ => "object"

/-- Case folding of one rune of an object key. `encoding/json` matches a key
against a field name exactly or case-insensitively; for a field name made of
ASCII letters the only runes outside ASCII that fold onto it are U+017F
(long s) and U+212A (Kelvin sign). -/
def foldRune (c : Char) : Char :=
  if c = Char.ofNat 0x17F then 'S'
  else if c = Char.ofNat 0x212A then 'K'
  else c.toUpper

/-- Folded form of an object key. -/
def foldName (key : String) : List Char :=
  key.data.map foldRune

/-- The names of the ten fields of `ChatMsgJson`, folded. No two are equal, so
a key matches at most one field. -/
def envelopeFields : List (List Char) :=
  ["CATALOG".data, "TIME".data, "FROMUSER".data, "TOUSER".data, "FROMLANG".data,
   "TOLANG".data, "FROMTEXT".data, "FROMAUDIO".data, "TOTEXT".data, "TOAUDIOURL".data]

/-- Whether an object key names a field of `ChatMsgJson`. -/
def isEnvelopeField (key : String) : Bool :=
  envelopeFields.contains (foldName key)

/-- Store a string into the field of `ChatMsgJson` that the key names. -/
def setField (m : ChatMsgJson) (key : String) (s : String) : ChatMsgJson :=
  let k := foldName key
  if k = "CATALOG".data then { m with Catalog := s }
  else if k = "TIME".data then { m with Time := s }
  else if k = "FROMUSER".data then { m with FromUser := s }
  else if k = "TOUSER".data then { m with ToUser := s }
  else if k = "FROMLANG".data then { m with FromLang := s }
  else if k = "TOLANG".data then { m with ToLang := s }
  else if k = "FROMTEXT".data then { m with FromText := s }
  else if k = "FROMAUDIO".data then { m with FromAudio := s }
  else if k = "TOTEXT".data then { m with ToText := s }
  else if k = "TOAUDIOURL".data then { m with ToAudioUrl := s }
  else m

/-- Decoding of one object member into a `ChatMsgJson`. A key that names no
field is skipped. A string is stored; `null` has no effect and is no error;
any other value is an `UnmarshalTypeError`, of which the decoder keeps the
first and goes on. -/
def decodeMember (st : ChatMsgJson × Option Err) (kv : String × Json) :
    ChatMsgJson × Option Err :=
  if isEnvelopeField kv.1 then
    match kv.2 with
    | Json.str s => (setField st.1 kv.1 s, st.2)
    | Json.null => st
    | v =>
      match st.2 with
      | some err => (st.1, some err)
      | none => (st.1, some (Err.unmarshalType (jsonKind v)))
  else st

/-- Decoding of a JSON value into a `ChatMsgJson` (all of whose fields are
strings). An object is decoded member by member; `null` has no effect and is
no error; an array, string, number or boolean is an `UnmarshalTypeError`. -/
def decodeChatMsg (v : Json) (m : ChatMsgJson) : ChatMsgJson × Option Err :=
  match v with
  | Json.null => (m, none)
  | Json.object members => members.foldl decodeMember (m, none)
  | v => (m, some (Err.unmarshalType (jsonKind v)))

/-- Call of `json.Unmarshal(data, &chatMsg)`: a text that is not valid JSON is a
`SyntaxError` and nothing is decoded. -/
def jsonUnmarshalChatMsg (env : Env) (data : Bytes) (m : ChatMsgJson) :
    ChatMsgJson × Option Err :=
  match env.jsonParse data with
  | none => (m, some Err.invalidJSON)
  | some v => decodeChatMsg v m

/-- Whether a member value can be stored in a string field without error: a
string or `null`. -/
def storable : Json → Bool
  | Json.str _ => true
  | Json.null => true
  | _ => false

/-- The JSON values that do not decode into a `ChatMsgJson`: an array, a
string, a number, a boolean, and an object in which a member named like a
field of the envelope holds a value that is neither a string nor `null`. -/
def refused : Json → Bool
  | Json.null => false
  | Json.object members => members.any (fun kv => isEnvelopeField kv.1 && !storable kv.2)
  | _ => true

/-- The NSQ handler `hand` of `main`, applied to `msg.Body`. -/
def hand (env : Env) (body : Bytes) (w : World) : Outcome (Option Err) × World :=
  match env.packetDecode body with
  | Except.error _ => (Outcome.ret (some Err.ErrUnexpectedObjectType), w)
  | Except.ok m =>
    match m with
    | Packet.other _ _ => (Outcome.ret (some Err.ErrUnexpectedObjectType), w)
    | Packet.publish pubPkt =>
      let w1 := w.log (Event.jsonUnmarshal pubPkt.payload)
      match jsonUnmarshalChatMsg env pubPkt.payload {} with
      | (_, some err) => (Outcome.ret (some err), w1)
      | (chatMsg, none) =>
        match translate env chatMsg w1 with
        | (Outcome.panic p, _, w2) => (Outcome.panic p, w2)
        | (Outcome.ret (some err), _, w2) => (Outcome.ret (some err), w2)
        | (Outcome.ret none, chatMsg1, w2) =>
          match env.jsonMarshal chatMsg1 with
          | Except.error err => (Outcome.ret (some err), w2)
          | Except.ok ret =>
            let pubPkt1 := pubPkt.SetPayload ret
            match env.packetEncode pubPkt1 with
            | Except.error err => (Outcome.ret (some err), w2)
            | Except.ok buff =>
              match nsqPublish env "translateAfter" buff w2 with
              | (some err, w3) => (Outcome.ret (some err), w3)
              | (none, w3) => (Outcome.ret none, w3)

end NsqTranslate

/-! ## The HTTP server: `tcpBoltDB/volantmq.go` -/

namespace TcpBoltDB

/-- The function `translateText` of `volantmq.go`: as that of the relay, with
a length check before the result is indexed. -/
def translateText (env : Env) (FromLang ToLang FromText : String) (w : World) :
    Outcome (String × Option Err) × World :=
  let appId := "20170714000064493"
  let SecretKey := "1F0H8Oh1YZX2U9pqdIMP"
  let queryText := FromText
  let queryTextEncoded := env.queryEscape queryText
  let srcLang := FromLang
  let dstLang := ToLang
  let (t, w1) := timeNowUnix env w
  let salt := formatInt t
  let signStr := appId ++ queryText ++ salt ++ SecretKey
  let sign := env.md5hex signStr
  let translateUrl := "http://api.fanyi.baidu.com/api/trans/vip/translate?q=" ++
    queryTextEncoded ++ "&from=" ++ srcLang ++ "&to=" ++ dstLang ++ "&appid=" ++ appId ++
    "&salt=" ++ salt ++ "&sign=" ++ sign
  match httpGet env translateUrl w1 with
  | (Except.error _, w2) => (Outcome.ret ("", none), w2)
  | (Except.ok res, w2) =>
    match res.body with
    | Except.error _ => (Outcome.ret ("", none), w2)
    | Except.ok body =>
      let w3 := w2.log (Event.jsonUnmarshal body)
      match env.unmarshalTransResp body with
      | (_, some _) => (Outcome.ret ("", none), w3)
      | (transResp, none) =>
        if transResp.TransResult.length < 1 then
          (Outcome.ret ("", some (Err.errorf "no result from translate server!")), w3)
        else
          match transResp.TransResult with
          | [] => (Outcome.panic "index out of range [0] with length 0", w3)
          | r :: _ => (Outcome.ret (r.Dst, none), w3)

end TcpBoltDB

/-! ## The relay: the credential refresh loop -/

/-- The struct `TokenResult`. -/
structure TokenResult where
  AccessToken : String := ""
deriving DecidableEq, Repr

/-- The collaborators of the relay together with the decoder of the answer of
the credential endpoint. -/
structure AuthEnv extends Env where
  /-- Outcome of `json.Unmarshal(body, &t)` on a zero `TokenResult`. -/
  unmarshalTokenResult : Bytes → TokenResult × Option Err

/-- How one pass through the body of the `for` loop of `UpdateToken` ends:
`log.Fatal` ends the process, or `time.Sleep` returns after the given number
of seconds and the next pass begins. -/
inductive Pass where
  | fatal (err : Err) (w : World)
  | slept (seconds : Nat) (w : World)
deriving DecidableEq, Repr

/-- State of the refresh loop: the process has exited through `log.Fatal`, or
the loop is still running. -/
inductive Loop where
  | exited (err : Err) (w : World)
  | running (w : World)
deriving DecidableEq, Repr

namespace NsqTranslate

/-- The function `getToken`. -/
def getToken (env : AuthEnv) (w : World) : (String × Option Err) × World :=
  let apiKey := "WHdlotz6Il2bnGPtHvtDw3Wa"
  let secretKey := "LwjawyMjWD15oHgKCgcWhH4kI6PCHXxe"
  let urlToken :=
    "https://openapi.baidu.com/oauth/2.0/token?grant_type=client_credentials&client_id=" ++
      apiKey ++ "&client_secret=" ++ secretKey
  match httpGet env.toEnv urlToken w with
  | (Except.error err, w1) => (("", some err), w1)
  | (Except.ok res, w1) =>
    match res.body with
    | Except.error err => (("", some err), w1)
    | Except.ok body =>
      let w2 := w1.log (Event.jsonUnmarshal body)
      match env.unmarshalTokenResult body with
      | (_, some err) => (("", some err), w2)
      | (t, none) => ((t.AccessToken, none), w2)

/-- One pass through the body of the `for` loop of `UpdateToken`. On a fetch
error `log.Fatal` ends the process, so the `time.Sleep` of 20 seconds that
follows it is never reached. Otherwise the global `token` is assigned, the
token is written to `dir ++ "token"`, and the pass sleeps for 20 days. -/
def updateTokenPass (env : AuthEnv) (dir : String) (w : World) : Pass :=
  match getToken env w with
  | ((_, some err), w1) => Pass.fatal err w1
  | ((t, none), w1) =>
    let w2 := { w1 with token := t }
    match ioutilWriteFile env.toEnv (dir ++ "token") (bytesOf w2.token) w2 with
    | (some err, w3) => Pass.fatal err w3
    | (none, w3) => Pass.slept (3600 * 24 * 20) w3

/-- The `for` loop of `UpdateToken`, followed for at most `n` passes. -/
def updateTokenLoop (env : AuthEnv) (dir : String) : Nat → World → Loop
  | 0, w => Loop.running w
  | n + 1, w =>
    match updateTokenPass env dir w with
    | Pass.fatal err w1 => Loop.exited err w1
    | Pass.slept _ w1 => updateTokenLoop env dir n w1

/-- The function `UpdateToken`, followed for at most `n` passes of its loop. -/
def UpdateToken (env : AuthEnv) (n : Nat) (w : World) : Loop :=
  let dir := "/tmp/translatechat/"
  match osMkdirAll env.toEnv dir w with
  | (some err, w1) => Loop.exited err w1
  | (none, w1) => updateTokenLoop env dir n w1

end NsqTranslate

/-! ## The HTTP server: the translation pipeline of `volantmq.go` -/

/-- Result of a call in the HTTP server: it returns, it panics, or it ends the
process through `log.Fatal`. -/
inductive Run (α : Type) where
  | ret (a : α)
  | panic (msg : String)
  | fatal (err : Err)
deriving DecidableEq, Repr

/-- The collaborators of the HTTP server together with the conversion
`string(buff)` of bytes read from a file. -/
structure ServerEnv extends Env where
  /-- The string whose bytes are `buff`. -/
  stringOf : Bytes → String

/-- Call of `ioutil.ReadFile(path)`: fails on a missing file. -/
def ioutilReadFile (env : Env) (path : String) (w : World) : Except Err Bytes × World :=
  match w.files.read path with
  | none => (Except.error (Err.notExist path), w.log (Event.openFile path))
  | some data =>
    match env.openFile w path with
    | some err => (Except.error err, w.log (Event.openFile path))
    | none => (Except.ok data, w.log (Event.openFile path))

namespace TcpBoltDB

/-- The struct `TransMsgJson` of `volantmq.go`. -/
structure TransMsgJson where
  Catalog : String := ""
  Time : String := ""
  FromLang : String := ""
  ToLang : String := ""
  FromText : String := ""
  FromAudio : String := ""
  ToText : String := ""
  ToAudioUrl : String := ""
deriving DecidableEq, Repr

/-- The function `getBaiduToken`: the content of the credential file; when the
file cannot be read, `log.Fatal` ends the process. -/
def getBaiduToken (env : ServerEnv) (w : World) : Run String × World :=
  match ioutilReadFile env.toEnv "/tmp/translatechat/token" w with
  | (Except.error err, w1) => (Run.fatal err, w1)
  | (Except.ok buff, w1) => (Run.ret (env.stringOf buff), w1)

/-- The function `convertAudioFile` of `volantmq.go`. -/
def convertAudioFile (env : ServerEnv) (beforeFile afterAmrFile : String) (w : World) :
    Option Err × World :=
  let cmdStr := "ffmpeg -y -i " ++ beforeFile ++ " -acodec amr_wb -ac 1 -ar 16000 -ab 23850 " ++
    afterAmrFile
  match execBash env.toEnv cmdStr w with
  | (some err, w1) => (some err, w1)
  | (none, w1) =>
    match osRemove env.toEnv beforeFile w1 with
    | (some err, w2) => (some err, w2)
    | (none, w2) => (none, w2)

/-- The function `audio2text` of `volantmq.go`: as that of the relay, with the
token read from the credential file. -/
def audio2text (env : ServerEnv) (audioAmrFile : String) (w : World) :
    Run (String × Option Err) × World :=
  let cuid := "TranslateChat"
  match getBaiduToken env w with
  | (Run.fatal err, w0) => (Run.fatal err, w0)
  | (Run.panic p, w0) => (Run.panic p, w0)
  | (Run.ret token, w0) =>
    match osOpen env.toEnv audioAmrFile w0 with
    | (Except.error err, w1) => (Run.ret ("", some err), w1)
    | (Except.ok file, w1) =>
      let urlAudio2Text := "http://vop.baidu.com/server_api?lan=zh&cuid=" ++ cuid ++
        "&token=" ++ token
      match httpPost env.toEnv urlAudio2Text "audio/amr;rate=16000" file w1 with
      | (Except.error err, w2) => (Run.ret ("", some err), w2)
      | (Except.ok resp, w2) =>
        match resp.body with
        | Except.error err => (Run.ret ("", some err), w2)
        | Except.ok body =>
          let w3 := w2.log (Event.jsonUnmarshal body)
          match env.unmarshalAudio2Text body with
          | (_, some err) => (Run.ret ("", some err), w3)
          | (a2tRet, none) =>
            if a2tRet.ErrNo ≠ 0 then
              (Run.ret ("", some (Err.errorf ("Audio2Text failed, " ++ a2tRet.ErrMsg))), w3)
            else
              match a2tRet.Result with
              | [] => (Run.panic "index out of range [0] with length 0", w3)
              | r :: _ => (Run.ret (r, none), w3)

/-- The function `text2audio` of `volantmq.go`: as that of the relay, with the
token read from the credential file. -/
def text2audio (env : ServerEnv) (text mp3File saveAudioFile : String) (w : World) :
    Run (Option Err) × World :=
  let cuid := "TranslateChat"
  match getBaiduToken env w with
  | (Run.fatal err, w0) => (Run.fatal err, w0)
  | (Run.panic p, w0) => (Run.panic p, w0)
  | (Run.ret token, w0) =>
    let message := text
    let urlMsg := env.queryEscape message
    let urlText2Audio := "http://tsn.baidu.com/text2audio?tex=" ++ urlMsg ++ "&lan=zh&cuid=" ++
      cuid ++ "&ctp=1&tok=" ++ token
    match httpGet env.toEnv urlText2Audio w0 with
    | (Except.error err, w1) => (Run.ret (some err), w1)
    | (Except.ok res, w1) =>
      match res.body with
      | Except.error err => (Run.ret (some err), w1)
      | Except.ok body =>
        let err : Option Err := none
        if res.contentType ≠ "audio/mp3" then
          (Run.ret err, w1)
        else
          match ioutilWriteFile env.toEnv mp3File body w1 with
          | (some err, w2) => (Run.ret (some err), w2)
          | (none, w2) =>
            let cmdStr := "lame " ++ mp3File ++ " " ++ saveAudioFile
            match execBash env.toEnv cmdStr w2 with
            | (some err, w3) => (Run.ret (some err), w3)
            | (none, w3) => (Run.ret none, (osRemove env.toEnv mp3File w3).2)

/-- The function `translate` of `volantmq.go`: the first component is the
returned error, the second the message `*msg` as the call leaves it. -/
def translate (env : ServerEnv) (msg : TransMsgJson) (w : World) :
    Run (Option Err) × TransMsgJson × World :=
  if msg.Catalog = "text" then
    let dir := "upload/translate/"
    match osMkdirAll env.toEnv dir w with
    | (some err, w1) => (Run.ret (some err), msg, w1)
    | (none, w1) =>
      match translateText env.toEnv msg.FromLang msg.ToLang msg.FromText w1 with
      | (Outcome.panic p, w2) => (Run.panic p, msg, w2)
      | (Outcome.ret (_, some err), w2) => (Run.ret (some err), msg, w2)
      | (Outcome.ret (to_, none), w2) =>
        let msg1 := { msg with ToText := to_ }
        let (t, w3) := timeNowUnix env.toEnv w2
        let nowStr := formatInt t
        let audioResultMp3File := dir ++ nowStr ++ "_result.mp3"
        let audioResultAmrFile := dir ++ nowStr ++ "_result.amr"
        let audioDownloadAmrFile := "download/translate/" ++ nowStr ++ "_result.amr"
        match text2audio env msg1.ToText audioResultMp3File audioResultAmrFile w3 with
        | (Run.fatal err, w4) => (Run.fatal err, msg1, w4)
        | (Run.panic p, w4) => (Run.panic p, msg1, w4)
        | (Run.ret (some err), w4) => (Run.ret (some err), msg1, w4)
        | (Run.ret none, w4) =>
          (Run.ret none, { msg1 with ToAudioUrl := audioDownloadAmrFile }, w4)
  else
    let dir := "upload/translate/"
    match osMkdirAll env.toEnv dir w with
    | (some err, w1) => (Run.ret (some err), msg, w1)
    | (none, w1) =>
      match env.base64Decode msg.FromAudio with
      | Except.error err => (Run.ret (some err), msg, w1)
      | Except.ok decoded =>
        let (t, w2) := timeNowUnix env.toEnv w1
        let nowStr := formatInt t
        let audioCvtBefFile := dir ++ nowStr ++ "_cvtbef.amr"
        let audioAmrFile := dir ++ nowStr ++ ".amr"
        match ioutilWriteFile env.toEnv audioCvtBefFile decoded w2 with
        | (some err, w3) => (Run.ret (some err), msg, w3)
        | (none, w3) =>
          match convertAudioFile env audioCvtBefFile audioAmrFile w3 with
          | (some err, w4) => (Run.ret (some err), msg, w4)
          | (none, w4) =>
            match audio2text env audioAmrFile w4 with
            | (Run.fatal err, w5) => (Run.fatal err, msg, w5)
            | (Run.panic p, w5) => (Run.panic p, msg, w5)
            | (Run.ret (_, some err), w5) => (Run.ret (some err), msg, w5)
            | (Run.ret (text, none), w5) =>
              let msg1 := { msg with FromText := text }
              match translateText env.toEnv msg1.FromLang msg1.ToLang msg1.FromText w5 with
              | (Outcome.panic p, w6) => (Run.panic p, msg1, w6)
              | (Outcome.ret (_, some err), w6) => (Run.ret (some err), msg1, w6)
              | (Outcome.ret (to_, none), w6) =>
                let msg2 := { msg1 with ToText := to_ }
                let audioResultMp3File := dir ++ nowStr ++ "_result.mp3"
                let audioResultAmrFile := dir ++ nowStr ++ "_result.amr"
                let audioDownloadAmrFile := "download/translate/" ++ nowStr ++ "_result.amr"
                match text2audio env msg2.ToText audioResultMp3File audioResultAmrFile w6 with
                | (Run.fatal err, w7) => (Run.fatal err, msg2, w7)
                | (Run.panic p, w7) => (Run.panic p, msg2, w7)
                | (Run.ret (some err), w7) => (Run.ret (some err), msg2, w7)
                | (Run.ret none, w7) =>
                  (Run.ret none,
                    { msg2 with ToAudioUrl := audioDownloadAmrFile, FromAudio := "" }, w7)

end TcpBoltDB

/-! ## Query strings -/

/-- Value of a hexadecimal digit. -/
def hexVal (c : Char) : Option Nat :=
  if 48 ≤ c.toNat ∧ c.toNat ≤ 57 then some (c.toNat - 48)
  else if 97 ≤ c.toNat ∧ c.toNat ≤ 102 then some (c.toNat - 87)
  else if 65 ≤ c.toNat ∧ c.toNat ≤ 70 then some (c.toNat - 55)
  else none

/-- The function `url.QueryUnescape`, giving the bytes of the result: `%XX` is
the byte `XX`, `+` is a blank, a `%` not followed by two hexadecimal digits is
an error. -/
def queryUnescape : List Char → Option Bytes
  | [] => some []
  | '%' :: h :: l :: rest =>
    match hexVal h, hexVal l, queryUnescape rest with
    | some a, some b, some bs => some (UInt8.ofNat (16 * a + b) :: bs)
    | _, _, _ => none
  | '%' :: _ => none
  | '+' :: rest => (queryUnescape rest).map (fun bs => 0x20 :: bs)
  | c :: rest => (queryUnescape rest).map (fun bs => String.utf8EncodeChar c ++ bs)

/-- The pieces of a text between the occurrences of a separator. -/
def splitOn (sep : Char) : List Char → List (List Char)
  | [] => [[]]
  | c :: rest =>
    if c = sep then [] :: splitOn sep rest
    else
      match splitOn sep rest with
      | [] => [[c]]
      | s :: ss => (c :: s) :: ss

/-- The function `url.ParseQuery`: the query is cut at every `&`, an empty
piece is skipped, a piece is cut at its first `=` into key and value (the
value is empty without `=`), both are unescaped; a piece with a bad escape is
dropped. The parameters are listed in the order of the query, as bytes. -/
def parseQuery (query : List Char) : List (Bytes × Bytes) :=
  (splitOn '&' query).filterMap (fun piece =>
    if piece = [] then none
    else
      match queryUnescape (piece.takeWhile (fun c => c != '=')),
        queryUnescape ((piece.dropWhile (fun c => c != '=')).drop 1) with
      | some key, some value => some (key, value)
      | _, _ => none)

/-- The raw query of a URL: what stands between the first `?` and the first
`#` after it. -/
def rawQuery (url : String) : List Char :=
  ((url.data.dropWhile (fun c => c != '?')).drop 1).takeWhile (fun c => c != '#')

/-! ## JSON text: `json.Marshal` and the scanner of `encoding/json`

A JSON text is handled as the sequence of its characters; the passage between
bytes and characters is UTF-8. -/

/-- Lower-case hexadecimal digit, as `encoding/json` writes it. -/
def hexLower (n : Nat) : Char :=
  "0123456789abcdef".data.getD n '0'

/-- What `json.Marshal` writes for one character of a string: `"` and `\` get
a backslash; line feed, carriage return and tab are `\n`, `\r`, `\t`; the
other control characters and `<`, `>`, `&` are `\u00XX`; U+2028 and U+2029 are
`\u2028` and `\u2029`; every other character is written as it is. -/
def escapeRune (c : Char) : List Char :=
  if c = '"' then ['\\', '"']
  else if c = '\\' then ['\\', '\\']
  else if c = '\n' then ['\\', 'n']
  else if c = '\r' then ['\\', 'r']
  else if c = '\t' then ['\\', 't']
  else if c.toNat < 0x20 ∨ c = '<' ∨ c = '>' ∨ c = '&' then
    ['\\', 'u', '0', '0', hexLower (c.toNat / 16), hexLower (c.toNat % 16)]
  else if c.toNat = 0x2028 ∨ c.toNat = 0x2029 then
    ['\\', 'u', '2', '0', '2', hexLower (c.toNat % 16)]
  else [c]

/-- The JSON string literal `json.Marshal` writes for a string. -/
def quoteText (s : String) : List Char :=
  '"' :: (s.data.flatMap escapeRune ++ ['"'])

/-- The text `json.Marshal(chatMsg)` writes: the ten fields in the order of
the struct, under their Go names, without blanks. -/
def marshalText (m : ChatMsgJson) : List Char :=
  '{' :: (quoteText "Catalog" ++ ':' :: (quoteText m.Catalog ++ ',' ::
    (quoteText "Time" ++ ':' :: (quoteText m.Time ++ ',' ::
    (quoteText "FromUser" ++ ':' :: (quoteText m.FromUser ++ ',' ::
    (quoteText "ToUser" ++ ':' :: (quoteText m.ToUser ++ ',' ::
    (quoteText "FromLang" ++ ':' :: (quoteText m.FromLang ++ ',' ::
    (quoteText "ToLang" ++ ':' :: (quoteText m.ToLang ++ ',' ::
    (quoteText "FromText" ++ ':' :: (quoteText m.FromText ++ ',' ::
    (quoteText "FromAudio" ++ ':' :: (quoteText m.FromAudio ++ ',' ::
    (quoteText "ToText" ++ ':' :: (quoteText m.ToText ++ ',' ::
    (quoteText "ToAudioUrl" ++ ':' :: (quoteText m.ToAudioUrl ++ ['}']))))))))))))))))))))

/-- The bytes `json.Marshal(chatMsg)` returns. -/
def jsonMarshalChatMsg (m : ChatMsgJson) : Bytes :=
  bytesOf (String.mk (marshalText m))

/-- Whether a character is JSON white space. -/
def isSpace (c : Char) : Bool :=
  c = ' ' || c = '\t' || c = '\r' || c = '\n'

/-- Drop leading white space. -/
def skipSpace : List Char → List Char
  | [] => []
  | c :: cs => if isSpace c then skipSpace cs else c :: cs

/-- Four hexadecimal digits of a `\u` escape: their value and the rest. -/
def hex4 : List Char → Option (Nat × List Char)
  | a :: b :: c :: d :: rest =>
    match hexVal a, hexVal b, hexVal c, hexVal d with
    | some x, some y, some z, some t => some (((x * 16 + y) * 16 + z) * 16 + t, rest)
    | _, _, _, _ => none
  | _ => none

/-- The character of a simple escape `\"`, `\\`, `\/`, `\b`, `\f`, `\n`, `\r`,
`\t`. -/
def simpleEscape (e : Char) : Option Char :=
  if e = '"' then some '"'
  else if e = '\\' then some '\\'
  else if e = '/' then some '/'
  else if e = 'b' then some (Char.ofNat 8)
  else if e = 'f' then some (Char.ofNat 12)
  else if e = 'n' then some '\n'
  else if e = 'r' then some '\r'
  else if e = 't' then some '\t'
  else none

/-- The second half of a surrogate pair, when the text goes on with one: a
`\u` escape with a value from DC00 to DFFF. -/
def lowSurrogate (cs : List Char) : Option (Nat × List Char) :=
  match cs with
  | '\\' :: 'u' :: rest =>
    match hex4 rest with
    | some (v, rest1) => if 0xDC00 ≤ v ∧ v < 0xE000 then some (v, rest1) else none
    | none => none
  | _ => none

/-- The body of a string literal, after the opening quote, up to and including
the closing quote: the string it denotes and the rest of the text. A control
character is an error. A `\u` escape that is half of a surrogate pair denotes
U+FFFD unless it is a high half followed by a low half. The first argument
bounds the number of steps; the length of the text plus one is enough. -/
def scanString : Nat → List Char → List Char → Option (String × List Char)
  | 0, _, _ => none
  | _ + 1, [], _ => none
  | n + 1, c :: rest, acc =>
    if c = '"' then some (String.mk acc, rest)
    else if c = '\\' then
      match rest with
      | [] => none
      | e :: rest1 =>
        if e = 'u' then
          match hex4 rest1 with
          | none => none
          | some (v, rest2) =>
            if 0xD800 ≤ v ∧ v < 0xE000 then
              match (if v < 0xDC00 then lowSurrogate rest2 else none) with
              | some (v2, rest3) =>
                scanString n rest3
                  (acc ++ [Char.ofNat (0x10000 + (v - 0xD800) * 0x400 + (v2 - 0xDC00))])
              | none => scanString n rest2 (acc ++ [Char.ofNat 0xFFFD])
            else scanString n rest2 (acc ++ [Char.ofNat v])
        else
          match simpleEscape e with
          | some x => scanString n rest1 (acc ++ [x])
          | none => none
    else if c.toNat < 0x20 then none
    else scanString n rest (acc ++ [c])

/-- Whether a character is a decimal digit. -/
def isDigit (c : Char) : Bool :=
  decide (48 ≤ c.toNat ∧ c.toNat ≤ 57)

/-- The digits at the head of a text, and the rest. -/
def spanDigits (cs : List Char) : List Char × List Char :=
  (cs.takeWhile isDigit, cs.dropWhile isDigit)

/-- A number literal at the head of a text, and the rest: an optional `-`, the
integer part (`0` alone, or digits not starting with `0`), an optional
fraction, an optional exponent. -/
def scanNumber (cs : List Char) : Option (List Char × List Char) :=
  let (sign, cs1) := match cs with
    | '-' :: r => (['-'], r)
    | r => ([], r)
  let (int, cs2) := match cs1 with
    | '0' :: r => (['0'], r)
    | r => spanDigits r
  if int = [] then none
  else
    match (match cs2 with
      | '.' :: r =>
        let (frac, r1) := spanDigits r
        if frac = [] then none else some ('.' :: frac, r1)
      | r => some ([], r)) with
    | none => none
    | some (frac, cs3) =>
      match (match cs3 with
        | e :: r =>
          if e = 'e' ∨ e = 'E' then
            let (esign, r1) := match r with
              | '+' :: r0 => (['+'], r0)
              | '-' :: r0 => (['-'], r0)
              | r0 => ([], r0)
            let (digits, r2) := spanDigits r1
            if digits = [] then none else some (e :: (esign ++ digits), r2)
          else some ([], cs3)
        | [] => some ([], [])) with
      | none => none
      | some (exp, cs4) => some (sign ++ int ++ frac ++ exp, cs4)

mutual

/-- A JSON value at the head of a text (after optional white space), and the
rest. The first argument bounds the depth of the recursion; the length of the
text plus one is enough. -/
def parseValue : Nat → List Char → Option (Json × List Char)
  | 0, _ => none
  | n + 1, cs =>
    match skipSpace cs with
    | [] => none
    | c :: rest =>
      if c = '"' then
        match scanString (rest.length + 1) rest [] with
        | some (s, rest1) => some (Json.str s, rest1)
        | none => none
      else if c = '{' then
        match skipSpace rest with
        | '}' :: rest1 => some (Json.object [], rest1)
        | _ => parseMembers n rest []
      else if c = '[' then
        match skipSpace rest with
        | ']' :: rest1 => some (Json.array [], rest1)
        | _ => parseElements n rest []
      else if c = 'n' then
        match rest with
        | 'u' :: 'l' :: 'l' :: rest1 => some (Json.null, rest1)
        | _ => none
      else if c = 't' then
        match rest with
        | 'r' :: 'u' :: 'e' :: rest1 => some (Json.bool true, rest1)
        | _ => none
      else if c = 'f' then
        match rest with
        | 'a' :: 'l' :: 's' :: 'e' :: rest1 => some (Json.bool false, rest1)
        | _ => none
      else
        match scanNumber (c :: rest) with
        | some (lit, rest1) => some (Json.number (String.mk lit), rest1)
        | none => none

/-- The members of an object after `{`, up to and including `}`. -/
def parseMembers : Nat → List Char → List (String × Json) → Option (Json × List Char)
  | 0, _, _ => none
  | n + 1, cs, acc =>
    match skipSpace cs with
    | [] => none
    | q :: rest =>
      if q = '"' then
        match scanString (rest.length + 1) rest [] with
        | none => none
        | some (key, rest1) =>
          match skipSpace rest1 with
          | [] => none
          | colon :: rest2 =>
            if colon = ':' then
              match parseValue n rest2 with
              | none => none
              | some (v, rest3) =>
                match skipSpace rest3 with
                | [] => none
                | d :: rest4 =>
                  if d = ',' then parseMembers n rest4 (acc ++ [(key, v)])
                  else if d = '}' then some (Json.object (acc ++ [(key, v)]), rest4)
                  else none
            else none
      else none

/-- The elements of an array after `[`, up to and including `]`. -/
def parseElements : Nat → List Char → List Json → Option (Json × List Char)
  | 0, _, _ => none
  | n + 1, cs, acc =>
    match parseValue n cs with
    | none => none
    | some (v, rest) =>
      match skipSpace rest with
      | [] => none
      | d :: rest1 =>
        if d = ',' then parseElements n rest1 (acc ++ [v])
        else if d = ']' then some (Json.array (acc ++ [v]), rest1)
        else none

end

/-- The value a JSON text denotes: one value, with nothing but white space
after it. -/
def parseText (cs : List Char) : Option Json :=
  match parseValue (cs.length + 1) cs with
  | some (v, rest) => if skipSpace rest = [] then some v else none
  | none => none

/-- The scanner of `encoding/json` on bytes, given the conversion of the bytes
to a string. -/
def jsonParseBytes (stringOf : Bytes → String) (data : Bytes) : Option Json :=
  parseText (stringOf data).data

/-- The JSON value of the text `json.Marshal(chatMsg)` writes. -/
def jsonOfChatMsg (m : ChatMsgJson) : Json :=
  Json.object [("Catalog", Json.str m.Catalog), ("Time", Json.str m.Time),
    ("FromUser", Json.str m.FromUser), ("ToUser", Json.str m.ToUser),
    ("FromLang", Json.str m.FromLang), ("ToLang", Json.str m.ToLang),
    ("FromText", Json.str m.FromText), ("FromAudio", Json.str m.FromAudio),
    ("ToText", Json.str m.ToText), ("ToAudioUrl", Json.str m.ToAudioUrl)]

/-- Printable ASCII (U+0020 to U+007E) and CJK: the blocks from the CJK
radicals to the unified ideographs (U+2E80 to U+9FFF, with the CJK
punctuation and the kana), the Hangul syllables, the compatibility ideographs
and forms, the half-width and full-width forms, and the ideographs of the
supplementary planes. -/
def plainRune (c : Char) : Bool :=
  decide ((0x20 ≤ c.toNat ∧ c.toNat ≤ 0x7E) ∨ (0x2E80 ≤ c.toNat ∧ c.toNat ≤ 0x9FFF) ∨
    (0xAC00 ≤ c.toNat ∧ c.toNat ≤ 0xD7AF) ∨ (0xF900 ≤ c.toNat ∧ c.toNat ≤ 0xFAFF) ∨
    (0xFE30 ≤ c.toNat ∧ c.toNat ≤ 0xFE4F) ∨ (0xFF00 ≤ c.toNat ∧ c.toNat ≤ 0xFFEF) ∨
    (0x20000 ≤ c.toNat ∧ c.toNat ≤ 0x2FA1F))

/-- A string of printable-ASCII and CJK characters. -/
def plainText (s : String) : Bool :=
  s.data.all plainRune

/-- An envelope whose ten fields are strings of printable-ASCII and CJK
characters. -/
def plainEnvelope (m : ChatMsgJson) : Bool :=
  plainText m.Catalog && plainText m.Time && plainText m.FromUser && plainText m.ToUser &&
    plainText m.FromLang && plainText m.ToLang && plainText m.FromText &&
    plainText m.FromAudio && plainText m.ToText && plainText m.ToAudioUrl

/-! ## UTF-8

A Go string is a sequence of bytes; a string of the embedding is a sequence
of characters. The passage between the two is UTF-8. -/

/-- The first character of a byte sequence in UTF-8 and the bytes after it;
`none` on an empty or truncated sequence. -/
def utf8Head : List UInt8 → Option (Char × List UInt8)
  | [] => none
  | b0 :: rest =>
    if b0.toNat < 0x80 then some (Char.ofNat b0.toNat, rest)
    else if b0.toNat < 0xE0 then
      match rest with
      | b1 :: r => some (Char.ofNat ((b0.toNat - 0xC0) * 64 + (b1.toNat - 0x80)), r)
      | _ => none
    else if b0.toNat < 0xF0 then
      match rest with
      | b1 :: b2 :: r =>
        some (Char.ofNat (((b0.toNat - 0xE0) * 64 + (b1.toNat - 0x80)) * 64 +
          (b2.toNat - 0x80)), r)
      | _ => none
    else
      match rest with
      | b1 :: b2 :: b3 :: r =>
        some (Char.ofNat ((((b0.toNat - 0xF0) * 64 + (b1.toNat - 0x80)) * 64 +
          (b2.toNat - 0x80)) * 64 + (b3.toNat - 0x80)), r)
      | _ => none

/-- The characters of a byte sequence in UTF-8, at most `n` of them; decoding
stops at a truncated sequence. -/
def utf8CharsUpTo : Nat → List UInt8 → List Char
  | 0, _ => []
  | n + 1, buff =>
    match utf8Head buff with
    | none => []
    | some (c, rest) => c :: utf8CharsUpTo n rest

/-- The characters of a byte sequence that is valid UTF-8. -/
def utf8Chars (buff : List UInt8) : List Char :=
  utf8CharsUpTo buff.length buff

/-- The string of bytes that are valid UTF-8: Go `string(buff)`. -/
def utf8String (buff : Bytes) : String :=
  String.mk (utf8Chars buff)

/-! ## The packet codec

The library `github.com/VolantMQ/volantmq/packet` is not in the repository.
`Packet.Encode` and `Packet.Decode` follow the format of protocol version
3.1.1, which `packet.ProtocolV311` selects: a fixed header (packet type and
flags in one byte, then the remaining length), and for a PUBLISH packet the
topic name with its length in two bytes, the packet identifier when the QoS is
1 or 2, and the payload. A packet that the format cannot carry or the protocol
forbids is refused by both functions. -/

/-- A number below 65536 in two bytes, the most significant first. -/
def be16 (n : Nat) : Bytes :=
  [UInt8.ofNat (n / 256), UInt8.ofNat (n % 256)]

/-- The remaining length of a fixed header: seven bits to a byte, the least
significant first, the top bit set on every byte but the last; at most four
bytes. -/
def encodeLength (n : Nat) : Bytes :=
  if n < 128 then [UInt8.ofNat n]
  else if n < 16384 then [UInt8.ofNat (n % 128 + 128), UInt8.ofNat (n / 128)]
  else if n < 2097152 then
    [UInt8.ofNat (n % 128 + 128), UInt8.ofNat (n / 128 % 128 + 128), UInt8.ofNat (n / 16384)]
  else
    [UInt8.ofNat (n % 128 + 128), UInt8.ofNat (n / 128 % 128 + 128),
      UInt8.ofNat (n / 16384 % 128 + 128), UInt8.ofNat (n / 2097152)]

/-- Reading of a remaining length: the number and the bytes after it. -/
def decodeLength : Bytes → Option (Nat × Bytes)
  | [] => none
  | b0 :: rest =>
    if b0.toNat < 128 then some (b0.toNat, rest)
    else
      match rest with
      | [] => none
      | b1 :: rest1 =>
        if b1.toNat < 128 then some (b0.toNat - 128 + 128 * b1.toNat, rest1)
        else
          match rest1 with
          | [] => none
          | b2 :: rest2 =>
            if b2.toNat < 128 then
              some (b0.toNat - 128 + 128 * (b1.toNat - 128) + 16384 * b2.toNat, rest2)
            else
              match rest2 with
              | [] => none
              | b3 :: rest3 =>
                if b3.toNat < 128 then
                  some (b0.toNat - 128 + 128 * (b1.toNat - 128) + 16384 * (b2.toNat - 128) +
                    2097152 * b3.toNat, rest3)
                else none

/-- Whether a topic name may stand in a PUBLISH packet: it is not empty and
holds no wildcard (`#`, `+`) and no U+0000. -/
def validTopic (topic : String) : Bool :=
  topic.data ≠ [] && topic.data.all (fun c => c != '#' && c != '+' && c != Char.ofNat 0)

/-- The function `packet.Encode` on a PUBLISH packet. -/
def Packet.Encode (p : Publish) : Except Err Bytes :=
  let topic := bytesOf p.topic
  if !validTopic p.topic || decide (65535 < topic.length) then
    Except.error (Err.upstream "invalid topic")
  else if decide (2 < p.qos) || (decide (p.qos = 0) && p.dup) then
    Except.error (Err.upstream "invalid QoS")
  else if decide (0 < p.qos) && (decide (p.packetId = 0) || decide (65535 < p.packetId)) then
    Except.error (Err.upstream "invalid packet id")
  else
    let body := be16 topic.length ++
      (topic ++ ((if p.qos = 0 then [] else be16 p.packetId) ++ p.payload))
    if 268435455 < body.length then Except.error (Err.upstream "packet too large")
    else
      Except.ok (UInt8.ofNat (48 + 8 * p.dup.toNat + 2 * p.qos + p.retain.toNat) ::
        (encodeLength body.length ++ body))

/-- Decoding of what follows the fixed header of a PUBLISH packet with the
given flags. -/
def decodePublish (flags : Nat) (body : Bytes) : Except Err Packet :=
  let dup := decide (flags / 8 % 2 = 1)
  let qos := flags / 2 % 4
  let retain := decide (flags % 2 = 1)
  if decide (2 < qos) || (decide (qos = 0) && dup) then
    Except.error (Err.upstream "invalid QoS")
  else
    match body with
    | l1 :: l2 :: rest =>
      let n := 256 * l1.toNat + l2.toNat
      if rest.length < n then Except.error (Err.upstream "insufficient data size")
      else
        let topic := utf8String (rest.take n)
        if decide (bytesOf topic ≠ rest.take n) || !validTopic topic then
          Except.error (Err.upstream "invalid topic")
        else if qos = 0 then
          Except.ok (Packet.publish
            { topic := topic, payload := rest.drop n, dup := dup, qos := qos, retain := retain })
        else
          match rest.drop n with
          | i1 :: i2 :: payload =>
            if 256 * i1.toNat + i2.toNat = 0 then Except.error (Err.upstream "invalid packet id")
            else
              Except.ok (Packet.publish
                { topic := topic, payload := payload, dup := dup, qos := qos, retain := retain,
                  packetId := 256 * i1.toNat + i2.toNat })
          | _ => Except.error (Err.upstream "insufficient data size")
    | _ => Except.error (Err.upstream "insufficient data size")

/-- The function `packet.Decode(packet.ProtocolV311, buf)`: the first packet
of the buffer. The content of a packet of another type is not looked at. -/
def Packet.Decode (buf : Bytes) : Except Err Packet :=
  match buf with
  | [] => Except.error (Err.upstream "insufficient buffer size")
  | b0 :: rest =>
    match decodeLength rest with
    | none => Except.error (Err.upstream "insufficient buffer size")
    | some (n, data) =>
      if data.length < n then Except.error (Err.upstream "insufficient data size")
      else if b0.toNat / 16 = 3 then decodePublish (b0.toNat % 16) (data.take n)
      else if b0.toNat / 16 = 0 ∨ b0.toNat / 16 = 15 then
        Except.error (Err.upstream "invalid packet type")
      else Except.ok (Packet.other (b0.toNat / 16) (data.take n))

/-! ## The envelope codec

The two halves of the handler that pass between bytes and envelope. -/

namespace NsqTranslate

/-- The encoding steps of `hand`: `json.Marshal` of the envelope,
`SetPayload` on the PUBLISH packet, `packet.Encode`. -/
def encodeEnvelope (env : Env) (pubPkt : Publish) (chatMsg : ChatMsgJson) : Except Err Bytes :=
  match env.jsonMarshal chatMsg with
  | Except.error err => Except.error err
  | Except.ok ret => env.packetEncode (pubPkt.SetPayload ret)

/-- The decoding steps of `hand`: `packet.Decode`, the assertion that the
packet is a PUBLISH packet, `json.Unmarshal` of its payload into a zero
envelope. The result is the topic of the packet and the envelope. -/
def decodeEnvelope (env : Env) (body : Bytes) : Except Err (String × ChatMsgJson) :=
  match env.packetDecode body with
  | Except.error _ => Except.error Err.ErrUnexpectedObjectType
  | Except.ok m =>
    match m with
    | Packet.other _ _ => Except.error Err.ErrUnexpectedObjectType
    | Packet.publish pubPkt =>
      match jsonUnmarshalChatMsg env pubPkt.payload {} with
      | (_, some err) => Except.error err
      | (chatMsg, none) => Except.ok (pubPkt.topic, chatMsg)

end NsqTranslate

/-! ## The calls of the relay pipeline -/

/-- The relation `Made P w w2`: the world `w2` is `w` after some calls, each
of which satisfies `P`, and with the same token. -/
def Made (P : Event → Prop) (w w2 : World) : Prop :=
  ∃ evs, w2.trace = w.trace ++ evs ∧ w2.token = w.token ∧ ∀ e ∈ evs, P e

namespace NsqTranslate

/-- The calls `translate` can make for the envelope `msg` while the global
token is `token`, when `ts` is the reading of the clock that names the staged
files and `text` is the text handed to text-to-speech: the clock, `MkdirAll`
on the conversation directory, the staged files written, removed and opened,
the two tools, the request to the translation service for the languages of
the envelope, the two requests to the speech services, and `json.Unmarshal`.
No Publish. -/
def pipelineCall (env : Env) (msg : ChatMsgJson) (token ts text : String) : Event → Prop
  | Event.now => True
  | Event.mkdirAll dir =>
    dir = "../tcpBoltDB/" ++ "upload/" ++ msg.FromUser ++ "/" ++ msg.ToUser ++ "/"
  | Event.writeFile path _ =>
    path = "../tcpBoltDB/" ++ "upload/" ++ msg.FromUser ++ "/" ++ msg.ToUser ++ "/" ++ ts ++
        "_cvtbef.amr" ∨
      path = "../tcpBoltDB/" ++ "upload/" ++ msg.FromUser ++ "/" ++ msg.ToUser ++ "/" ++ ts ++
        "_result.mp3"
  | Event.remove path =>
    path = "../tcpBoltDB/" ++ "upload/" ++ msg.FromUser ++ "/" ++ msg.ToUser ++ "/" ++ ts ++
        "_cvtbef.amr" ∨
      path = "../tcpBoltDB/" ++ "upload/" ++ msg.FromUser ++ "/" ++ msg.ToUser ++ "/" ++ ts ++
        "_result.mp3"
  | Event.openFile path =>
    path = "../tcpBoltDB/" ++ "upload/" ++ msg.FromUser ++ "/" ++ msg.ToUser ++ "/" ++ ts ++ ".amr"
  | Event.exec cmd =>
    cmd = "ffmpeg -y -i " ++
        ("../tcpBoltDB/" ++ "upload/" ++ msg.FromUser ++ "/" ++ msg.ToUser ++ "/" ++ ts ++
          "_cvtbef.amr") ++
        " -acodec amr_wb -ac 1 -ar 16000 -ab 23850 " ++
        ("../tcpBoltDB/" ++ "upload/" ++ msg.FromUser ++ "/" ++ msg.ToUser ++ "/" ++ ts ++
          ".amr") ∨
      cmd = "lame " ++
        ("../tcpBoltDB/" ++ "upload/" ++ msg.FromUser ++ "/" ++ msg.ToUser ++ "/" ++ ts ++
          "_result.mp3") ++ " " ++
        ("../tcpBoltDB/" ++ "upload/" ++ msg.FromUser ++ "/" ++ msg.ToUser ++ "/" ++ ts ++
          "_result.amr")
  | Event.httpGet url =>
    (∃ fromText salt, url = "http://api.fanyi.baidu.com/api/trans/vip/translate?q=" ++
        env.queryEscape fromText ++ "&from=" ++ msg.FromLang ++ "&to=" ++ msg.ToLang ++
        "&appid=" ++ "20170714000064493" ++ "&salt=" ++ salt ++ "&sign=" ++
        env.md5hex ("20170714000064493" ++ fromText ++ salt ++ "1F0H8Oh1YZX2U9pqdIMP")) ∨
      url = "http://tsn.baidu.com/text2audio?tex=" ++ env.queryEscape text ++ "&lan=zh&cuid=" ++
        "TranslateChat" ++ "&ctp=1&tok=" ++ token
  | Event.httpPost url contentType _ =>
    url = "http://vop.baidu.com/server_api?lan=zh&cuid=" ++ "TranslateChat" ++ "&token=" ++
        token ∧ contentType = "audio/amr;rate=16000"
  | Event.jsonUnmarshal _ => True
  | Event.publish _ _ => False

end NsqTranslate

/-! ## The HTTP server: accounts and friends

The handlers of `volantmq.go` that keep accounts and friendships. The
database is a value `Db`; a statement of a transaction acts on a working copy,
which `Transact` installs on commit and drops on rollback. The clock, the
random source, `bcrypt`, the driver errors of the database and the codecs are
fields of `SiteEnv`. -/

/-- A `time.Time`: nanoseconds since the Unix epoch. -/
abbrev Instant := Int

/-- The duration `time.Hour`, in nanoseconds. -/
def timeHour : Int := 3600 * 1000000000

/-- A row of the table `user_auth`. -/
structure AuthRow where
  phoneno : String
  token : String
  token_modified_time : String := ""
  token_expire_time : String
deriving DecidableEq, Repr

/-- A row of the table `users`, with the columns the handlers below touch. -/
structure UserRow where
  phoneno : String
  nickname : String
  qrcode_url : String
  avatar : String
  register_time : String
  last_login_time : String
  add_friend_auth : Bool := false
deriving DecidableEq, Repr

/-- A row of the table `friendship`. -/
structure FriendRow where
  phoneno_a : String
  phoneno_b : String
  create_time : String
deriving DecidableEq, Repr

/-- The database. -/
structure Db where
  user_auth : List AuthRow := []
  users : List UserRow := []
  friendship : List FriendRow := []
deriving DecidableEq, Repr

/-- The statements the handlers run through `tx.Exec`. -/
inductive Stmt where
  /-- The statement `INSERT INTO user_auth(phoneno, token, token_expire_time)
  VALUES(?, ?, ?)`. -/
  | insertAuth (phoneno token expireTime : String)
  /-- The statement `INSERT INTO users(phoneno, nickname, qrcode_url, avatar,
  register_time, last_login_time) VALUES(?, ?, ?, ?, ?, ?)`. -/
  | insertUser (phoneno nickname qrcodeUrl avatar registerTime lastLoginTime : String)
  /-- The statement `UPDATE user_auth set token=?, token_modified_time=?,
  token_expire_time=? WHERE phoneno=?`. -/
  | updateToken (token modified expireTime phoneno : String)
  /-- The statement `UPDATE user_auth set token_expire_time=? WHERE phoneno=?`. -/
  | updateExpire (expireTime phoneno : String)
  /-- The statement `UPDATE users set last_login_time=? where phoneno=?`. -/
  | updateLastLogin (lastLoginTime phoneno : String)
  /-- The statement `INSERT INTO friendship(phoneno_a, phoneno_b, create_time)
  VALUES(?, ?, ?)`. -/
  | insertFriend (a b createTime : String)
  /-- The statement `DELETE FROM friendship WHERE phoneno_a=? AND phoneno_b=?`. -/
  | deleteFriend (a b : String)
deriving DecidableEq, Repr

/-- The database after a statement that the driver accepted. -/
def Db.run (db : Db) : Stmt → Db
  | Stmt.insertAuth phoneno token expireTime =>
    { db with
      user_auth := db.user_auth ++
        [{ phoneno := phoneno, token := token, token_expire_time := expireTime }] }
  | Stmt.insertUser phoneno nickname qrcodeUrl avatar registerTime lastLoginTime =>
    { db with
      users := db.users ++
        [{ phoneno := phoneno, nickname := nickname, qrcode_url := qrcodeUrl, avatar := avatar,
           register_time := registerTime, last_login_time := lastLoginTime }] }
  | Stmt.updateToken token modified expireTime phoneno =>
    { db with
      user_auth := db.user_auth.map (fun r =>
        if r.phoneno = phoneno then
          { r with token := token, token_modified_time := modified,
                   token_expire_time := expireTime }
        else r) }
  | Stmt.updateExpire expireTime phoneno =>
    { db with
      user_auth := db.user_auth.map (fun r =>
        if r.phoneno = phoneno then { r with token_expire_time := expireTime } else r) }
  | Stmt.updateLastLogin lastLoginTime phoneno =>
    { db with
      users := db.users.map (fun r =>
        if r.phoneno = phoneno then { r with last_login_time := lastLoginTime } else r) }
  | Stmt.insertFriend a b createTime =>
    { db with
      friendship := db.friendship ++
        [{ phoneno_a := a, phoneno_b := b, create_time := createTime }] }
  | Stmt.deleteFriend a b =>
    { db with
      friendship := db.friendship.filter (fun r => !(r.phoneno_a = a && r.phoneno_b = b)) }

/-- The friendship table as ordered pairs. -/
def Db.friends (db : Db) : List (String × String) :=
  db.friendship.map (fun r => (r.phoneno_a, r.phoneno_b))

/-- A friendship table is symmetric when it holds `(b, a)` with every `(a, b)`. -/
def Db.symmetric (db : Db) : Prop :=
  ∀ a b, (a, b) ∈ db.friends → (b, a) ∈ db.friends

/-- State of the HTTP server and of its surroundings: the database, the number
of readings of the clock so far, and the MQTT messages published so far,
oldest first. -/
structure Site where
  db : Db := {}
  ticks : Nat := 0
  sent : List (String × Bytes) := []
deriving DecidableEq, Repr

/-- What `db.QueryRow(...).Scan(...)` gives: a row, `sql.ErrNoRows`, or another
error. -/
inductive Selected (α : Type) where
  | row (a : α)
  | noRows
  | failed (err : Err)
deriving DecidableEq, Repr

/-- The struct `RegisterInfo`. -/
structure RegisterInfo where
  PhoneNo : String := ""
  ValidateCode : String := ""
  Imei : String := ""
deriving DecidableEq, Repr

/-- The struct `LoginInfo`. -/
structure LoginInfo where
  PhoneNo : String := ""
  ValidateCode : String := ""
  Token : String := ""
  Imei : String := ""
deriving DecidableEq, Repr

/-- The struct `AddFriendSysMsg`. -/
structure AddFriendSysMsg where
  Catalog : String := ""
  Time : String := ""
  FromPhoneNo : String := ""
  ToPhoneNo : String := ""
deriving DecidableEq, Repr

/-- The anonymous struct `doUserRegister` returns. -/
structure RegisterRet where
  PhoneNo : String := ""
  NickName : String := ""
  ExpireTime : String := ""
  Token : String := ""
  QrCodeUrl : String := ""
  AvatarUrl : String := ""
deriving DecidableEq, Repr

/-- The anonymous struct `doLogin` returns. -/
structure LoginRet where
  PhoneNo : String := ""
  Token : String := ""
  ExpireTime : String := ""
deriving DecidableEq, Repr

/-- What a handler reads of an `*http.Request`: the result of
`ioutil.ReadAll(r.Body)`, the value of `r.Header.Get("Auth")`, and the value
of `r.URL.Query().Get("phoneNo")`. -/
structure Request where
  body : Except Err Bytes := Except.ok []
  auth : String := ""
  phoneNo : String := ""

/-- The collaborators and library functions of the account handlers. -/
structure SiteEnv where
  /-- The reading of `time.Now()` that follows `n` earlier readings. -/
  now : Nat → Instant
  /-- Result of `t.Format("2006-01-02 15:04:05")`. -/
  formatTime : Instant → String
  /-- Result of `time.Parse("2006-01-02 15:04:05", s)`; `none` is an error. -/
  parseTime : String → Option Instant
  /-- The generator `rand.New(rand.NewSource(seed))`: the raw number behind its
  call number `i` (from 0). -/
  randSource : Int → Nat → Nat
  /-- Result of `bcrypt.GenerateFromPassword([]byte(token), bcrypt.DefaultCost)`. -/
  bcryptGenerate : Site → String → Except Err String
  /-- Error of `bcrypt.CompareHashAndPassword([]byte(hash), []byte(token))`. -/
  bcryptCompare : String → String → Option Err
  /-- Error of a `db.QueryRow` other than `sql.ErrNoRows`, for the query text
  and its arguments. -/
  queryErr : Site → String → List String → Option Err
  /-- Error of `db.Begin()`. -/
  begin : Site → Option Err
  /-- Error of `tx.Exec` for a statement, on the working copy of the database. -/
  execErr : Site → Db → Stmt → Option Err
  /-- Error of `tx.Commit()`. -/
  commit : Site → Db → Option Err
  /-- Outcome of `json.Unmarshal(body, &regInfo)` on a zero `RegisterInfo`. -/
  unmarshalRegister : Bytes → RegisterInfo × Option Err
  /-- Outcome of `json.Unmarshal(body, &login)` on a zero `LoginInfo`. -/
  unmarshalLogin : Bytes → LoginInfo × Option Err
  /-- Result of `json.Marshal(sys)`. -/
  marshalSysMsg : AddFriendSysMsg → Except Err Bytes
  /-- Error of `os.MkdirAll(dir, os.ModePerm)`. -/
  mkdirAll : Site → String → Option Err
  /-- Error of `qrcode.WriteFile(content, qrcode.Medium, 256, path)`. -/
  qrcodeWriteFile : Site → String → String → Option Err
  /-- Result of `GenerateNickName()`. -/
  GenerateNickName : Site → String
  /-- Error of `GenerateAvatar(nickName, saveFile)`. -/
  GenerateAvatar : Site → String → String → Option Err

/-- Call of `time.Now()`. -/
def timeNow (env : SiteEnv) (s : Site) : Instant × Site :=
  (env.now s.ticks, { s with ticks := s.ticks + 1 })

/-- Call of `r.Intn(n)` for `n > 0`, number `i` on the generator `r`: a number
below `n`. -/
def randIntn (r : Nat → Nat) (i n : Nat) : Nat :=
  r i % n

/-- A transaction in progress: the state of the server and the working copy
of the database. -/
structure Tx where
  site : Site
  work : Db

/-- Call of `tx.Exec(stmt)`. -/
def txExec (env : SiteEnv) (stmt : Stmt) (tx : Tx) : Option Err × Tx :=
  match env.execErr tx.site tx.work stmt with
  | some err => (some err, tx)
  | none => (none, { tx with work := tx.work.run stmt })

namespace TcpBoltDB

/-- The variable `expireAt`, in hours. The comment on its declaration reads
"the default token timeout is 10 days". -/
def expireAt : Int := 24 * 7

/-- The function `Transact`: after `db.Begin()`, the function `txFunc` runs on
the transaction; when it returns an error the transaction is rolled back,
otherwise it is committed and the error of `tx.Commit()` is returned. A commit
that fails leaves the database as it was. None of the functions passed to
`Transact` panics. -/
def Transact (env : SiteEnv) (txFunc : Tx → Option Err × Tx) (s : Site) : Option Err × Site :=
  match env.begin s with
  | some err => (some err, s)
  | none =>
    match txFunc { site := s, work := s.db } with
    | (some err, tx) => (some err, tx.site)
    | (none, tx) =>
      match env.commit tx.site tx.work with
      | some err => (some err, tx.site)
      | none => (none, { tx.site with db := tx.work })

/-- The function `checkValidateCode`. -/
def checkValidateCode (code : String) : Bool :=
  code = "1104"

/-- The function `isExpired`: a string that does not parse is regarded as
expired. -/
def isExpired (env : SiteEnv) (t : String) (s : Site) : Bool × Site :=
  match env.parseTime t with
  | none => (true, s)
  | some expire =>
    let (now, s1) := timeNow env s
    if expire < now then (true, s1) else (false, s1)

/-- The loop of `getRandomString`: `n` more passes, the next call on the
generator being number `i`. Indexing `bytes` out of range panics. -/
def randomLoop (r : Nat → Nat) (bytes : List Char) : Nat → Nat → List Char → Outcome (List Char)
  | 0, _, result => Outcome.ret result
  | n + 1, i, result =>
    match bytes.get? (randIntn r i bytes.length) with
    | none => Outcome.panic "index out of range"
    | some b => randomLoop r bytes n (i + 1) (result ++ [b])

/-- The function `getRandomString`; the generator is seeded with the clock. -/
def getRandomString (env : SiteEnv) (length : Int) (s : Site) : Outcome String × Site :=
  let str := "0123456789abcdefghijklmnopqrstuvwxyzABCDEFGHIJKLMNOPQRSTUVWXYZ"
  let bytes := str.data
  let (seed, s1) := timeNow env s
  let r := env.randSource seed
  match randomLoop r bytes length.toNat 0 [] with
  | Outcome.panic p => (Outcome.panic p, s1)
  | Outcome.ret result => (Outcome.ret (String.mk result), s1)

/-- The function `getToken` of `volantmq.go`. -/
def getToken (env : SiteEnv) (_phoneNo _imei : String) (s : Site) : Outcome String × Site :=
  getRandomString env 15 s

/-- The function `getAuthFromReq`: the header `Auth` cut at every `_`. -/
def getAuthFromReq (r : Request) : String × String × String × Option Err :=
  let auth := r.auth
  let str := (splitOn '_' auth.data).map String.mk
  match str with
  | [a, b, c] => (a, b, c, none)
  | _ => ("", "", "", none)

/-- The query `SELECT token, token_expire_time FROM user_auth WHERE phoneno=?`. -/
def selectAuth (env : SiteEnv) (phoneNo : String) (s : Site) : Selected (String × String) :=
  match env.queryErr s "SELECT token, token_expire_time FROM user_auth WHERE phoneno=?"
      [phoneNo] with
  | some err => Selected.failed err
  | none =>
    match s.db.user_auth.find? (fun r => r.phoneno = phoneNo) with
    | none => Selected.noRows
    | some r => Selected.row (r.token, r.token_expire_time)

/-- The query `SELECT phoneno FROM user_auth WHERE phoneno=?`. -/
def selectAuthPhone (env : SiteEnv) (phoneNo : String) (s : Site) : Selected String :=
  match env.queryErr s "SELECT phoneno FROM user_auth WHERE phoneno=?" [phoneNo] with
  | some err => Selected.failed err
  | none =>
    match s.db.user_auth.find? (fun r => r.phoneno = phoneNo) with
    | none => Selected.noRows
    | some r => Selected.row r.phoneno

/-- The query `SELECT phoneno_b FROM friendship where phoneno_a=? AND phoneno_b=?`. -/
def selectFriend (env : SiteEnv) (a b : String) (s : Site) : Selected String :=
  match env.queryErr s "SELECT phoneno_b FROM friendship where phoneno_a=? AND phoneno_b=?"
      [a, b] with
  | some err => Selected.failed err
  | none =>
    match s.db.friendship.find? (fun r => r.phoneno_a = a && r.phoneno_b = b) with
    | none => Selected.noRows
    | some r => Selected.row r.phoneno_b

/-- The query `SELECT add_friend_auth FROM users where phoneno=?`. -/
def selectAddFriendAuth (env : SiteEnv) (phoneNo : String) (s : Site) : Selected Bool :=
  match env.queryErr s "SELECT add_friend_auth FROM users where phoneno=?" [phoneNo] with
  | some err => Selected.failed err
  | none =>
    match s.db.users.find? (fun r => r.phoneno = phoneNo) with
    | none => Selected.noRows
    | some r => Selected.row r.add_friend_auth

/-- The function `checkAuth`. -/
def checkAuth (env : SiteEnv) (phoneNo token : String) (s : Site) : Bool × Site :=
  match selectAuth env phoneNo s with
  | Selected.failed _ => (false, s)
  | Selected.noRows => (false, s)
  | Selected.row (dbToken, expireTime) =>
    match isExpired env expireTime s with
    | (true, s1) => (false, s1)
    | (false, s1) =>
      match env.bcryptCompare dbToken token with
      | some _ => (false, s1)
      | none => (true, s1)

/-- The function `checkAddFriendAuth`. -/
def checkAddFriendAuth (env : SiteEnv) (phoneNo : String) (s : Site) : Bool :=
  match selectAddFriendAuth env phoneNo s with
  | Selected.row tmp => tmp
  | _ => true

/-- The function `pubAddFriendSysInfo`; the token `mqttClient.Publish` returns
is dropped. -/
def pubAddFriendSysInfo (env : SiteEnv) (fromPhoneNo toPhoneNo topic : String) (s : Site) :
    Option Err × Site :=
  let (t, s1) := timeNow env s
  let sys : AddFriendSysMsg :=
    { Catalog := "AddFriendRequest", Time := env.formatTime t, FromPhoneNo := fromPhoneNo,
      ToPhoneNo := toPhoneNo }
  match env.marshalSysMsg sys with
  | Except.error err => (some err, s1)
  | Except.ok buff => (none, { s1 with sent := s1.sent ++ [(topic, buff)] })

/-- The function `doAddFriend`: the returned error. -/
def doAddFriend (env : SiteEnv) (r : Request) (s : Site) : Option Err × Site :=
  match getAuthFromReq r with
  | (phoneNo, token, _, _) =>
    match checkAuth env phoneNo token s with
    | (false, s1) => (some (Err.errorf "Invalid authorization information!"), s1)
    | (true, s1) =>
      let queryPhoneNo := r.phoneNo
      match selectFriend env phoneNo queryPhoneNo s1 with
      | Selected.noRows =>
        let _needAuth := checkAddFriendAuth env phoneNo s1
        let (t, s2) := timeNow env s1
        let now := env.formatTime t
        match Transact env (fun tx =>
            match txExec env (Stmt.insertFriend phoneNo queryPhoneNo now) tx with
            | (some err, tx1) => (some err, tx1)
            | (none, tx1) =>
              match txExec env (Stmt.insertFriend queryPhoneNo phoneNo now) tx1 with
              | (some err, tx2) => (some err, tx2)
              | (none, tx2) => (none, tx2)) s2 with
        | (some err, s3) => (some err, s3)
        | (none, s3) =>
          let sysTopic := "/sys/" ++ queryPhoneNo ++ "/message"
          match pubAddFriendSysInfo env phoneNo queryPhoneNo sysTopic s3 with
          | (some err, s4) => (some err, s4)
          | (none, s4) => (none, s4)
      | Selected.failed err => (some err, s1)
      | Selected.row _ => (some (Err.errorf "Already is friend"), s1)

/-- The function `doDelFriend`: the returned error. -/
def doDelFriend (env : SiteEnv) (r : Request) (s : Site) : Option Err × Site :=
  match getAuthFromReq r with
  | (phoneNo, token, _, _) =>
    match checkAuth env phoneNo token s with
    | (false, s1) => (some (Err.errorf "Invalid authorization information!"), s1)
    | (true, s1) =>
      let queryPhoneNo := r.phoneNo
      match selectFriend env phoneNo queryPhoneNo s1 with
      | Selected.noRows => (some (Err.errorf "Hasn\x27t been friend"), s1)
      | Selected.failed err => (some err, s1)
      | Selected.row _ =>
        match Transact env (fun tx =>
            match txExec env (Stmt.deleteFriend phoneNo queryPhoneNo) tx with
            | (some err, tx1) => (some err, tx1)
            | (none, tx1) =>
              match txExec env (Stmt.deleteFriend queryPhoneNo phoneNo) tx1 with
              | (some err, tx2) => (some err, tx2)
              | (none, tx2) => (none, tx2)) s1 with
        | (some err, s2) => (some err, s2)
        | (none, s2) => (none, s2)

/-- The function `doUserRegister`: the returned struct, or the returned
error. `GenerateNickName` and `GenerateAvatar` enter as collaborators. -/
def doUserRegister (env : SiteEnv) (r : Request) (s : Site) :
    Outcome (Except Err RegisterRet) × Site :=
  match r.body with
  | Except.error err => (Outcome.ret (Except.error err), s)
  | Except.ok body =>
    match env.unmarshalRegister body with
    | (_, some err) => (Outcome.ret (Except.error err), s)
    | (regInfo, none) =>
      if !checkValidateCode regInfo.ValidateCode then
        (Outcome.ret (Except.error (Err.errorf "Validate code is wrong")), s)
      else
        match selectAuthPhone env regInfo.PhoneNo s with
        | Selected.noRows =>
          match getToken env regInfo.PhoneNo regInfo.Imei s with
          | (Outcome.panic p, s1) => (Outcome.panic p, s1)
          | (Outcome.ret token, s1) =>
            match env.bcryptGenerate s1 token with
            | Except.error err => (Outcome.ret (Except.error err), s1)
            | Except.ok hashedPassword =>
              let dir := "./upload/" ++ regInfo.PhoneNo
              match env.mkdirAll s1 dir with
              | some err => (Outcome.ret (Except.error err), s1)
              | none =>
                match env.qrcodeWriteFile s1 regInfo.PhoneNo (dir ++ "/qrcode.png") with
                | some err => (Outcome.ret (Except.error err), s1)
                | none =>
                  let qrcodeUrl := "download/" ++ regInfo.PhoneNo ++ "/qrcode.png"
                  let nickName := env.GenerateNickName s1
                  let avatarUrl := "download/" ++ regInfo.PhoneNo ++ "/avatar.png"
                  match env.GenerateAvatar s1 nickName (dir ++ "/avatar.png") with
                  | some err => (Outcome.ret (Except.error err), s1)
                  | none =>
                    let (t0, s2) := timeNow env s1
                    let t := t0 + timeHour * expireAt
                    let expireTime := env.formatTime t
                    match Transact env (fun tx =>
                        match txExec env
                            (Stmt.insertAuth regInfo.PhoneNo hashedPassword expireTime) tx with
                        | (some err, tx1) => (some err, tx1)
                        | (none, tx1) =>
                          let (n, site2) := timeNow env tx1.site
                          let now := env.formatTime n
                          match txExec env
                              (Stmt.insertUser regInfo.PhoneNo nickName qrcodeUrl avatarUrl now now)
                              { tx1 with site := site2 } with
                          | (some err, tx2) => (some err, tx2)
                          | (none, tx2) => (none, tx2)) s2 with
                    | (some err, s3) => (Outcome.ret (Except.error err), s3)
                    | (none, s3) =>
                      (Outcome.ret (Except.ok
                        { PhoneNo := regInfo.PhoneNo, NickName := nickName, Token := token,
                          ExpireTime := expireTime, QrCodeUrl := qrcodeUrl,
                          AvatarUrl := avatarUrl }), s3)
        | _ =>
          (Outcome.ret (Except.error
            (Err.errorf ("User " ++ regInfo.PhoneNo ++ " already exists!"))), s)

/-- The function `doLogin`: the returned struct, or the returned error. With
a validate code the account gets a new token; without one the token of the
request is checked and its expiry renewed. -/
def doLogin (env : SiteEnv) (r : Request) (s : Site) : Outcome (Except Err LoginRet) × Site :=
  match r.body with
  | Except.error err => (Outcome.ret (Except.error err), s)
  | Except.ok body =>
    match env.unmarshalLogin body with
    | (_, some err) => (Outcome.ret (Except.error err), s)
    | (login, none) =>
      if login.ValidateCode ≠ "" then
        if !checkValidateCode login.ValidateCode then
          (Outcome.ret (Except.error (Err.errorf "Validate code is wrong")), s)
        else
          match selectAuthPhone env login.PhoneNo s with
          | Selected.failed err => (Outcome.ret (Except.error err), s)
          | Selected.noRows =>
            (Outcome.ret (Except.error (Err.upstream "sql: no rows in result set")), s)
          | Selected.row _ =>
            match getToken env login.PhoneNo login.Imei s with
            | (Outcome.panic p, s1) => (Outcome.panic p, s1)
            | (Outcome.ret token, s1) =>
              match env.bcryptGenerate s1 token with
              | Except.error err => (Outcome.ret (Except.error err), s1)
              | Except.ok hashedPassword =>
                let (t0, s2) := timeNow env s1
                let t := t0 + timeHour * expireAt
                let expireTime := env.formatTime t
                let (n, s3) := timeNow env s2
                let now := env.formatTime n
                match Transact env (fun tx =>
                    match txExec env
                        (Stmt.updateToken hashedPassword now expireTime login.PhoneNo) tx with
                    | (some err, tx1) => (some err, tx1)
                    | (none, tx1) =>
                      match txExec env (Stmt.updateLastLogin now login.PhoneNo) tx1 with
                      | (some err, tx2) => (some err, tx2)
                      | (none, tx2) => (none, tx2)) s3 with
                | (some err, s4) => (Outcome.ret (Except.error err), s4)
                | (none, s4) =>
                  (Outcome.ret (Except.ok
                    { PhoneNo := login.PhoneNo, Token := token, ExpireTime := expireTime }), s4)
      else
        match selectAuth env login.PhoneNo s with
        | Selected.failed err => (Outcome.ret (Except.error err), s)
        | Selected.noRows =>
          (Outcome.ret (Except.error (Err.upstream "sql: no rows in result set")), s)
        | Selected.row (dbToken, expireTime0) =>
          match isExpired env expireTime0 s with
          | (true, s1) =>
            (Outcome.ret (Except.error (Err.errorf "Token has been expired")), s1)
          | (false, s1) =>
            match env.bcryptCompare dbToken login.Token with
            | some err => (Outcome.ret (Except.error err), s1)
            | none =>
              let (t0, s2) := timeNow env s1
              let t := t0 + timeHour * expireAt
              let expireTime := env.formatTime t
              let (n, s3) := timeNow env s2
              let now := env.formatTime n
              match Transact env (fun tx =>
                  match txExec env (Stmt.updateExpire expireTime login.PhoneNo) tx with
                  | (some err, tx1) => (some err, tx1)
                  | (none, tx1) =>
                    match txExec env (Stmt.updateLastLogin now login.PhoneNo) tx1 with
                    | (some err, tx2) => (some err, tx2)
                    | (none, tx2) => (none, tx2)) s3 with
              | (some err, s4) => (Outcome.ret (Except.error err), s4)
              | (none, s4) =>
                (Outcome.ret (Except.ok
                  { PhoneNo := login.PhoneNo, Token := login.Token,
                    ExpireTime := expireTime }), s4)

end TcpBoltDB

/-! ## Test doubles

Concrete collaborators, used to run the embedding on concrete messages. -/

namespace Double

/-- Whether `url` begins with `pre`. -/
def startsWith (url pre : String) : Bool :=
  pre.data.isPrefixOf url.data

/-- The last blank-separated word of a command line: the output file of the
`ffmpeg` and `lame` invocations of the relay. -/
def lastWord (cmd : String) : String :=
  String.mk (cmd.data.reverse.takeWhile (fun c => c != ' ')).reverse

/-- Body of a translation answer with one segment,
`{"from":"zh","to":"en","trans_result":[{"src":"你好","dst":"Hello"}]}`. -/
def helloBody : Bytes :=
  bytesOf ("\x7b\"from\":\"zh\",\"to\":\"en\",\"trans_result\":" ++
    "[\x7b\"src\":\"你好\",\"dst\":\"Hello\"\x7d]\x7d")

/-- Body of a translation answer whose only segment has an empty `dst`,
`{"from":"zh","to":"en","trans_result":[{"src":" ","dst":""}]}`. -/
def blankBody : Bytes :=
  bytesOf ("\x7b\"from\":\"zh\",\"to\":\"en\",\"trans_result\":" ++
    "[\x7b\"src\":\" \",\"dst\":\"\"\x7d]\x7d")

/-- Body of a translation answer without segments,
`{"from":"zh","to":"en","trans_result":[]}`. -/
def emptyBody : Bytes :=
  bytesOf "\x7b\"from\":\"zh\",\"to\":\"en\",\"trans_result\":[]\x7d"

/-- Body of an error answer of the speech service,
`{"err_no":500,"err_msg":"server busy"}`. -/
def busyBody : Bytes :=
  bytesOf "\x7b\"err_no\":500,\"err_msg\":\"server busy\"\x7d"

/-- Body of a speech-to-text answer,
`{"err_no":0,"err_msg":"success.","result":["你好"]}`. -/
def heardBody : Bytes :=
  bytesOf "\x7b\"err_no\":0,\"err_msg\":\"success.\",\"result\":[\"你好\"]\x7d"

/-- Some MP3 bytes. -/
def mp3Bytes : Bytes := [0x49, 0x44, 0x33, 0x03]

/-- Some AMR bytes, as a tool writes them. -/
def amrBytes : Bytes := [0x23, 0x21, 0x41, 0x4d, 0x52]

/-- Decoding of the translation answers above. -/
def unmarshalTransResp (body : Bytes) : TransResp × Option Err :=
  if body = helloBody then
    ({ From := "zh", To := "en", TransResult := [{ Src := "你好", Dst := "Hello" }] }, none)
  else if body = blankBody then
    ({ From := "zh", To := "en", TransResult := [{ Src := " ", Dst := "" }] }, none)
  else if body = emptyBody then
    ({ From := "zh", To := "en", TransResult := [] }, none)
  else ({}, some Err.invalidJSON)

/-- Decoding of the speech-to-text answers above. -/
def unmarshalAudio2Text (body : Bytes) : Audio2TextResult × Option Err :=
  if body = heardBody then
    ({ ErrNo := 0, ErrMsg := "success.", Result := ["你好"] }, none)
  else if body = busyBody then
    ({ ErrNo := 500, ErrMsg := "server busy", Result := [] }, none)
  else ({}, some Err.invalidJSON)

/-- A JSON string literal without escaping: enough for the test envelopes,
whose fields hold no quote, backslash or control character. -/
def quote (s : String) : String :=
  "\"" ++ s ++ "\""

/-- The text `json.Marshal` produces for an envelope whose fields need no
escaping. -/
def marshal (m : ChatMsgJson) : Bytes :=
  bytesOf ("\x7b\"Catalog\":" ++ quote m.Catalog ++ ",\"Time\":" ++ quote m.Time ++
    ",\"FromUser\":" ++ quote m.FromUser ++ ",\"ToUser\":" ++ quote m.ToUser ++
    ",\"FromLang\":" ++ quote m.FromLang ++ ",\"ToLang\":" ++ quote m.ToLang ++
    ",\"FromText\":" ++ quote m.FromText ++ ",\"FromAudio\":" ++ quote m.FromAudio ++
    ",\"ToText\":" ++ quote m.ToText ++ ",\"ToAudioUrl\":" ++ quote m.ToAudioUrl ++ "\x7d")

/-- A text envelope from user 1 to user 2, Chinese to English. -/
def textMsg : ChatMsgJson :=
  { Catalog := "text", Time := "1500000000", FromUser := "1", ToUser := "2",
    FromLang := "zh", ToLang := "en", FromText := "你好" }

/-- An audio envelope from user 1 to user 2; `IyFBTVI=` is the base64 of
`amrBytes`. -/
def audioMsg : ChatMsgJson :=
  { Catalog := "audio", Time := "1500000000", FromUser := "1", ToUser := "2",
    FromLang := "zh", ToLang := "en", FromAudio := "IyFBTVI=" }

/-- A text envelope that also carries audio. -/
def textMsgWithAudio : ChatMsgJson :=
  { textMsg with FromAudio := "IyFBTVI=" }

/-- The JSON value of an envelope as `json.Marshal` writes it. -/
def envelopeJson (m : ChatMsgJson) : Json :=
  Json.object [("Catalog", Json.str m.Catalog), ("Time", Json.str m.Time),
    ("FromUser", Json.str m.FromUser), ("ToUser", Json.str m.ToUser),
    ("FromLang", Json.str m.FromLang), ("ToLang", Json.str m.ToLang),
    ("FromText", Json.str m.FromText), ("FromAudio", Json.str m.FromAudio),
    ("ToText", Json.str m.ToText), ("ToAudioUrl", Json.str m.ToAudioUrl)]

/-- The JSON scanner on the payloads used below. -/
def jsonParse (data : Bytes) : Option Json :=
  if data = bytesOf "null" then some Json.null
  else if data = bytesOf "[]" then some (Json.array [])
  else if data = bytesOf "\x7b\"Catalog\":7\x7d" then
    some (Json.object [("Catalog", Json.number "7")])
  else if data = marshal textMsg then some (envelopeJson textMsg)
  else if data = marshal audioMsg then some (envelopeJson audioMsg)
  else if data = marshal textMsgWithAudio then some (envelopeJson textMsgWithAudio)
  else none

/-- A packet codec: the first byte is the MQTT fixed header (`0x30` PUBLISH,
`0x10` CONNECT), the rest of a PUBLISH is taken as payload on topic `chat`. -/
def packetDecode (body : Bytes) : Except Err Packet :=
  match body with
  | 0x30 :: rest => Except.ok (Packet.publish { topic := "chat", payload := rest })
  | 0x10 :: rest => Except.ok (Packet.other 1 rest)
  | _ => Except.error (Err.upstream "insufficient buffer size")

/-- The inverse of `packetDecode` on PUBLISH packets. -/
def packetEncode (p : Publish) : Except Err Bytes :=
  Except.ok (0x30 :: p.payload)

/-- The base64 decoder on the audio used below. -/
def base64Decode (s : String) : Except Err Bytes :=
  if s = "" then Except.ok []
  else if s = "IyFBTVI=" then Except.ok amrBytes
  else Except.error (Err.upstream "illegal base64 data")

/-- Upper-case hexadecimal digit. -/
def hexDigit (n : Nat) : Char :=
  "0123456789ABCDEF".data.getD n '0'

/-- Whether `url.QueryEscape` leaves a byte as it is: letters, digits and
`-`, `_`, `.`, `~`. -/
def unreserved (b : UInt8) : Bool :=
  (0x30 ≤ b && b ≤ 0x39) || (0x41 ≤ b && b ≤ 0x5a) || (0x61 ≤ b && b ≤ 0x7a) ||
    b = 0x2d || b = 0x5f || b = 0x2e || b = 0x7e

/-- The function `url.QueryEscape`: a blank becomes `+`, any other reserved
byte `%XX`. -/
def queryEscape (s : String) : String :=
  String.mk ((bytesOf s).flatMap (fun b =>
    if b = 0x20 then ['+']
    else if unreserved b then [Char.ofNat b.toNat]
    else ['%', hexDigit (b.toNat / 16), hexDigit (b.toNat % 16)]))

/-- All collaborators healthy: the clock stands at 1500000000, every file
system call succeeds, a child process writes the file its last argument names,
the translator answers `helloBody`, the speech services answer `heardBody` and
MP3 audio. -/
def healthy : Env where
  now := fun _ => 1500000000
  mkdirAll := fun _ _ => none
  writeFile := fun _ _ _ => none
  remove := fun _ _ => none
  openFile := fun _ _ => none
  exec := fun w cmd => (none, w.files.write (lastWord cmd) amrBytes)
  httpGet := fun _ url =>
    if startsWith url "http://api.fanyi.baidu.com/" then
      Except.ok { contentType := "application/json", body := Except.ok helloBody }
    else Except.ok { contentType := "audio/mp3", body := Except.ok mp3Bytes }
  httpPost := fun _ _ _ _ =>
    Except.ok { contentType := "application/json", body := Except.ok heardBody }
  publish := fun _ _ _ => none
  packetDecode := packetDecode
  packetEncode := packetEncode
  jsonParse := jsonParse
  jsonMarshal := fun m => Except.ok (marshal m)
  unmarshalTransResp := unmarshalTransResp
  unmarshalAudio2Text := unmarshalAudio2Text
  base64Decode := base64Decode
  queryEscape := queryEscape
  md5hex := fun _ => "d41d8cd98f00b204e9800998ecf8427e"

/-- As `healthy`, but the translation service cannot be reached: `http.Get`
on its URL fails. -/
def translatorDown : Env :=
  { healthy with
    httpGet := fun w url =>
      if startsWith url "http://api.fanyi.baidu.com/" then
        Except.error (Err.upstream "dial tcp: connection refused")
      else healthy.httpGet w url }

/-- As `healthy`, but the translation service answers with a body that is not
JSON. -/
def translatorGarbled : Env :=
  { healthy with
    httpGet := fun w url =>
      if startsWith url "http://api.fanyi.baidu.com/" then
        Except.ok { contentType := "text/html", body := Except.ok (bytesOf "<html>") }
      else healthy.httpGet w url }

/-- As `healthy`, but the connection to the translation service breaks while
the body is read. -/
def translatorCut : Env :=
  { healthy with
    httpGet := fun w url =>
      if startsWith url "http://api.fanyi.baidu.com/" then
        Except.ok { contentType := "application/json",
                    body := Except.error (Err.upstream "unexpected EOF") }
      else healthy.httpGet w url }

/-- As `healthy`, but the translation service answers `emptyBody`: no
segment. -/
def translatorEmpty : Env :=
  { healthy with
    httpGet := fun w url =>
      if startsWith url "http://api.fanyi.baidu.com/" then
        Except.ok { contentType := "application/json", body := Except.ok emptyBody }
      else healthy.httpGet w url }

/-- As `healthy`, but the translation service answers `blankBody`: one
segment with an empty `dst`. -/
def translatorBlank : Env :=
  { healthy with
    httpGet := fun w url =>
      if startsWith url "http://api.fanyi.baidu.com/" then
        Except.ok { contentType := "application/json", body := Except.ok blankBody }
      else healthy.httpGet w url }

/-- As `healthy`, but the text-to-speech service answers with a JSON error
report instead of audio. -/
def speechRefused : Env :=
  { healthy with
    httpGet := fun w url =>
      if startsWith url "http://tsn.baidu.com/" then
        Except.ok { contentType := "application/json", body := Except.ok busyBody }
      else healthy.httpGet w url }

/-- The world in which the relay starts: no staged file, the token fetched. -/
def start : World :=
  { token := "24.tok" }

/-- An inbound NSQ message body: a PUBLISH packet with the given payload. -/
def inbound (payload : Bytes) : Bytes :=
  0x30 :: payload

/-- Body of an error answer of the speech-to-text service with the given
`err_no` and the `err_msg` "speech quality error.". -/
def qualityBody (code : Int) : Bytes :=
  bytesOf ("\x7b\"err_no\":" ++ toString code ++ ",\"err_msg\":\"speech quality error.\"\x7d")

/-- As `healthy`, but the speech-to-text service reports the error `code`. -/
def speechError (code : Int) : Env :=
  { healthy with
    httpPost := fun _ _ _ _ =>
      Except.ok { contentType := "application/json", body := Except.ok (qualityBody code) }
    unmarshalAudio2Text := fun body =>
      if body = qualityBody code then
        ({ ErrNo := code, ErrMsg := "speech quality error.", Result := [] }, none)
      else ({}, some Err.invalidJSON) }

/-- As `healthy`, but every child process fails and leaves the file system as
it found it. -/
def toolBroken : Env :=
  { healthy with exec := fun w _ => (some (Err.upstream "exit status 1"), w.files) }

/-- As `healthy`, but `os.Remove` is refused. -/
def removeDenied : Env :=
  { healthy with remove := fun _ _ => some (Err.upstream "permission denied") }

/-- The world with one staged file, `in.amr`. -/
def staged : World :=
  { start with files := [("in.amr", amrBytes)] }

/-- Body of an answer of the credential endpoint,
`{"access_token":"24.fresh","expires_in":2592000}`. -/
def tokenBody : Bytes :=
  bytesOf "\x7b\"access_token\":\"24.fresh\",\"expires_in\":2592000\x7d"

/-- Decoding of the answer of the credential endpoint. -/
def unmarshalTokenResult (body : Bytes) : TokenResult × Option Err :=
  if body = tokenBody then ({ AccessToken := "24.fresh" }, none)
  else ({}, some Err.invalidJSON)

/-- As `healthy`, with a credential endpoint that answers `tokenBody`. -/
def authority : AuthEnv :=
  { healthy with
    httpGet := fun w url =>
      if startsWith url "https://openapi.baidu.com/oauth/2.0/token" then
        Except.ok { contentType := "application/json", body := Except.ok tokenBody }
      else healthy.httpGet w url
    unmarshalTokenResult := unmarshalTokenResult }

/-- As `authority`, but the credential endpoint cannot be reached. -/
def authorityDown : AuthEnv :=
  { authority with
    httpGet := fun _ _ => Except.error (Err.upstream "dial tcp: i/o timeout") }

/-- As `authority`, but no file can be written. -/
def authorityReadOnly : AuthEnv :=
  { authority with
    writeFile := fun _ _ _ => some (Err.upstream "read-only file system") }

/-- The string of bytes that are all ASCII. -/
def asciiString (buff : Bytes) : String :=
  String.mk (buff.map (fun b => Char.ofNat b.toNat))

/-- The HTTP server with every collaborator healthy. -/
def server : ServerEnv :=
  { healthy with stringOf := asciiString }

/-- As `server`, but no directory can be created. -/
def serverNoDir : ServerEnv :=
  { server with mkdirAll := fun _ _ => some (Err.upstream "permission denied") }

/-- The world of the HTTP server: the credential file holds `24.tok`. -/
def serving : World :=
  { files := [("/tmp/translatechat/token", bytesOf "24.tok")], token := "" }

/-- The message of the end-to-end example. -/
def exampleMsg : TcpBoltDB.TransMsgJson :=
  { Catalog := "text", FromLang := "zh", ToLang := "en", FromText := "你好" }

/-- As `healthy`, with the library functions of the handler as modelled:
`json.Marshal` by `jsonMarshalChatMsg`, the JSON scanner by `jsonParseBytes` on
UTF-8, `packet.Encode` and `packet.Decode` by `Packet.Encode` and
`Packet.Decode`. -/
def gopher : Env :=
  { healthy with
    jsonMarshal := fun m => Except.ok (jsonMarshalChatMsg m)
    jsonParse := jsonParseBytes utf8String
    packetEncode := Packet.Encode
    packetDecode := Packet.Decode }

/-- A PUBLISH packet on a topic with a Chinese character, at QoS 1. -/
def chatPkt : Publish :=
  { topic := "chat/甲/8613800000000", payload := [], qos := 1, packetId := 7 }

/-- An envelope whose text holds CJK characters and every printable ASCII
character that `json.Marshal` escapes. -/
def markupMsg : ChatMsgJson :=
  { textMsg with FromText := "你好 <b>\"R&D\"</b> C:\\tmp", ToText := "こんにちは" }

/-- An audio envelope whose `FromAudio` is not base64. -/
def brokenAudioMsg : ChatMsgJson :=
  { audioMsg with FromAudio := "not base64!" }

/-- Body of a speech-to-text answer that reports success and holds no result,
`{"err_no":0,"err_msg":"success.","result":[]}`. -/
def silentBody : Bytes :=
  bytesOf "\x7b\"err_no\":0,\"err_msg\":\"success.\",\"result\":[]\x7d"

/-- As `healthy`, but the speech-to-text service answers `silentBody`. -/
def speechSilent : Env :=
  { healthy with
    httpPost := fun _ _ _ _ =>
      Except.ok { contentType := "application/json", body := Except.ok silentBody }
    unmarshalAudio2Text := fun body =>
      if body = silentBody then ({ ErrNo := 0, ErrMsg := "success.", Result := [] }, none)
      else unmarshalAudio2Text body }

/-- As `server`, but the speech-to-text service answers `silentBody`. -/
def serverSilent : ServerEnv :=
  { speechSilent with stringOf := asciiString }

/-- The world of the HTTP server with the converted file `in.amr` staged. -/
def stagedServing : World :=
  { serving with files := ("in.amr", amrBytes) :: serving.files }

/-- Two decimal digits. -/
def twoDigits (n : Nat) : String :=
  String.mk [Char.ofNat (48 + n / 10 % 10), Char.ofNat (48 + n % 10)]

/-- Year, month and day of the day that lies `days` days after 1970-01-01. -/
def civil (days : Nat) : Nat × Nat × Nat :=
  let z := days + 719468
  let era := z / 146097
  let doe := z % 146097
  let yoe := (doe - doe / 1460 + doe / 36524 - doe / 146096) / 365
  let doy := doe - (365 * yoe + yoe / 4 - yoe / 100)
  let mp := (5 * doy + 2) / 153
  let d := doy - (153 * mp + 2) / 5 + 1
  let m := if mp < 10 then mp + 3 else mp - 9
  let y := yoe + era * 400
  (if m ≤ 2 then y + 1 else y, m, d)

/-- Days from 1970-01-01 to the given day of a year from 1970 on. -/
def daysFromCivil (y m d : Nat) : Nat :=
  let y1 := if m ≤ 2 then y - 1 else y
  let era := y1 / 400
  let yoe := y1 % 400
  let mp := (m + 9) % 12
  let doy := (153 * mp + 2) / 5 + d - 1
  let doe := yoe * 365 + yoe / 4 - yoe / 100 + doy
  era * 146097 + doe - 719468

/-- The function `t.Format("2006-01-02 15:04:05")` in UTC, for instants from
1970 on. -/
def formatTime (t : Instant) : String :=
  let secs := (t / 1000000000).toNat
  let ymd := civil (secs / 86400)
  let rest := secs % 86400
  twoDigits (ymd.1 / 100) ++ twoDigits (ymd.1 % 100) ++ "-" ++ twoDigits ymd.2.1 ++ "-" ++
    twoDigits ymd.2.2 ++ " " ++ twoDigits (rest / 3600) ++ ":" ++ twoDigits (rest % 3600 / 60) ++
    ":" ++ twoDigits (rest % 60)

/-- Value of a run of decimal digits; `none` when a character is not a digit. -/
def digitsValue (cs : List Char) : Option Nat :=
  cs.foldl (fun acc c =>
    match acc with
    | none => none
    | some n => if c.isDigit then some (10 * n + (c.toNat - 48)) else none) (some 0)

/-- The function `time.Parse("2006-01-02 15:04:05", s)` on texts of the form
`YYYY-MM-DD hh:mm:ss` from 1970 on; any other text is an error. -/
def parseTime (s : String) : Option Instant :=
  let cs := s.data
  if cs.length = 19 ∧ cs.get? 4 = some '-' ∧ cs.get? 7 = some '-' ∧ cs.get? 10 = some ' ' ∧
      cs.get? 13 = some ':' ∧ cs.get? 16 = some ':' then
    match digitsValue (cs.take 4), digitsValue ((cs.drop 5).take 2),
      digitsValue ((cs.drop 8).take 2), digitsValue ((cs.drop 11).take 2),
      digitsValue ((cs.drop 14).take 2), digitsValue ((cs.drop 17).take 2) with
    | some y, some m, some d, some h, some n, some sec =>
      if 1970 ≤ y ∧ 1 ≤ m ∧ m ≤ 12 ∧ 1 ≤ d ∧ d ≤ 31 ∧ h < 24 ∧ n < 60 ∧ sec < 60 then
        some (((daysFromCivil y m d * 86400 + h * 3600 + n * 60 + sec : Nat) : Int) *
          1000000000)
      else none
    | _, _, _, _, _, _ => none
  else none

/-- The hash the `bcrypt` double gives a token. -/
def hashOf (token : String) : String :=
  "$2a$10$" ++ token

/-- Body of a registration request,
`{"PhoneNo":"8613800000001","ValidateCode":"1104","Imei":"imei-1"}`. -/
def registerBody : Bytes :=
  bytesOf "\x7b\"PhoneNo\":\"8613800000001\",\"ValidateCode\":\"1104\",\"Imei\":\"imei-1\"\x7d"

/-- Body of a login request with a validate code,
`{"PhoneNo":"8613800000000","ValidateCode":"1104","Imei":"imei-0"}`. -/
def codeLoginBody : Bytes :=
  bytesOf "\x7b\"PhoneNo\":\"8613800000000\",\"ValidateCode\":\"1104\",\"Imei\":\"imei-0\"\x7d"

/-- Body of a login request with a token,
`{"PhoneNo":"8613800000000","Token":"s3cr3tT0kenABCD","Imei":"imei-0"}`. -/
def tokenLoginBody : Bytes :=
  bytesOf "\x7b\"PhoneNo\":\"8613800000000\",\"Token\":\"s3cr3tT0kenABCD\",\"Imei\":\"imei-0\"\x7d"

/-- The account service with every collaborator healthy: the clock stands at
2017-07-14 02:40:00 UTC at its first reading and advances one second with
every reading. -/
def office : SiteEnv where
  now := fun n => ((1500000000 + n : Nat) : Int) * 1000000000
  formatTime := formatTime
  parseTime := parseTime
  randSource := fun seed i => seed.toNat / 1000000000 + 7 * i
  bcryptGenerate := fun _ token => Except.ok (hashOf token)
  bcryptCompare := fun hash token =>
    if hash = hashOf token then none
    else some (Err.upstream "crypto/bcrypt: hashedPassword is not the hash of the given password")
  queryErr := fun _ _ _ => none
  begin := fun _ => none
  execErr := fun _ _ _ => none
  commit := fun _ _ => none
  unmarshalRegister := fun body =>
    if body = registerBody then
      ({ PhoneNo := "8613800000001", ValidateCode := "1104", Imei := "imei-1" }, none)
    else ({}, some Err.invalidJSON)
  unmarshalLogin := fun body =>
    if body = codeLoginBody then
      ({ PhoneNo := "8613800000000", ValidateCode := "1104", Imei := "imei-0" }, none)
    else if body = tokenLoginBody then
      ({ PhoneNo := "8613800000000", Token := "s3cr3tT0kenABCD", Imei := "imei-0" }, none)
    else ({}, some Err.invalidJSON)
  marshalSysMsg := fun sys =>
    Except.ok (bytesOf ("\x7b\"Catalog\":" ++ quote sys.Catalog ++ ",\"Time\":" ++ quote sys.Time ++
      ",\"FromPhoneNo\":" ++ quote sys.FromPhoneNo ++ ",\"ToPhoneNo\":" ++
      quote sys.ToPhoneNo ++ "\x7d"))
  mkdirAll := fun _ _ => none
  qrcodeWriteFile := fun _ _ _ => none
  GenerateNickName := fun _ => "方天宇"
  GenerateAvatar := fun _ _ _ => none

/-- As `office`, but the second statement of every transaction fails. -/
def officeHalfway : SiteEnv :=
  { office with
    execErr := fun s work _ =>
      if work = s.db then none else some (Err.upstream "database is locked") }

/-- The site with the account `8613800000000`, whose token `s3cr3tT0kenABCD`
expires on 2017-07-20, the account `8613800000002` with the same token, and
the two of them friends of each other. -/
def opened : Site :=
  { db :=
    { user_auth :=
        [{ phoneno := "8613800000000", token := hashOf "s3cr3tT0kenABCD",
           token_expire_time := "2017-07-20 00:00:00" },
         { phoneno := "8613800000002", token := hashOf "s3cr3tT0kenABCD",
           token_expire_time := "2017-07-20 00:00:00" },
         { phoneno := "8613800000003", token := hashOf "s3cr3tT0kenABCD",
           token_expire_time := "next week" }]
      users :=
        [{ phoneno := "8613800000000", nickname := "方天宇", qrcode_url := "", avatar := "",
           register_time := "2017-07-01 00:00:00", last_login_time := "2017-07-01 00:00:00" }]
      friendship :=
        [{ phoneno_a := "8613800000000", phoneno_b := "8613800000002",
           create_time := "2017-07-02 00:00:00" },
         { phoneno_a := "8613800000002", phoneno_b := "8613800000000",
           create_time := "2017-07-02 00:00:00" }] } }

/-- The request of `8613800000000`, with the token above, about the account `phoneNo`. -/
def friendRequest (phoneNo : String) : Request :=
  { auth := "8613800000000_s3cr3tT0kenABCD_imei-0", phoneNo := phoneNo }

end Double

/-! ## Traces

Every function of the relay only appends to the trace and leaves the token
alone; `translate` and its helpers never call the NSQ producer. -/

theorem Calls.refl (w : World) : Calls w w [] := by
  simp [Calls]

theorem Calls.trans {w w1 w2 : World} {a b : List Event} (h1 : Calls w w1 a)
    (h2 : Calls w1 w2 b) : Calls w w2 (a ++ b) := by
  obtain ⟨t1, k1, p1⟩ := h1
  obtain ⟨t2, k2, p2⟩ := h2
  refine ⟨by rw [t2, t1, List.append_assoc], by rw [k2, k1], ?_⟩
  intro e he
  rcases List.mem_append.mp he with h | h
  · exact p1 e h
  · exact p2 e h

theorem Calls.log (w : World) (e : Event) (h : e.isPublish = false) :
    Calls w (w.log e) [e] := by
  simp [Calls, World.log, h]

theorem timeNowUnix_calls (env : Env) (w : World) :
    Calls w (timeNowUnix env w).2 [Event.now] :=
  Calls.log w _ rfl

theorem osMkdirAll_calls {env : Env} {dir : String} {w w2 : World} {r : Option Err}
    (h : osMkdirAll env dir w = (r, w2)) : Calls w w2 [Event.mkdirAll dir] := by
  have c : Calls w (osMkdirAll env dir w).2 [Event.mkdirAll dir] := Calls.log w _ rfl
  rwa [h] at c

theorem ioutilWriteFile_calls {env : Env} {path : String} {data : Bytes} {w w2 : World}
    {r : Option Err} (h : ioutilWriteFile env path data w = (r, w2)) :
    Calls w w2 [Event.writeFile path data] := by
  have c : Calls w (ioutilWriteFile env path data w).2 [Event.writeFile path data] := by
    unfold ioutilWriteFile
    split <;> simp [Calls, World.log, Event.isPublish]
  rwa [h] at c

theorem osRemove_calls {env : Env} {path : String} {w w2 : World} {r : Option Err}
    (h : osRemove env path w = (r, w2)) : Calls w w2 [Event.remove path] := by
  have c : Calls w (osRemove env path w).2 [Event.remove path] := by
    unfold osRemove
    split
    · simp [Calls, World.log, Event.isPublish]
    · split <;> simp [Calls, World.log, Event.isPublish]
  rwa [h] at c

theorem osOpen_calls {env : Env} {path : String} {w w2 : World} {r : Except Err Bytes}
    (h : osOpen env path w = (r, w2)) : Calls w w2 [Event.openFile path] := by
  have c : Calls w (osOpen env path w).2 [Event.openFile path] := by
    unfold osOpen
    split
    · simp [Calls, World.log, Event.isPublish]
    · split <;> simp [Calls, World.log, Event.isPublish]
  rwa [h] at c

theorem execBash_calls {env : Env} {cmd : String} {w w2 : World} {r : Option Err}
    (h : execBash env cmd w = (r, w2)) : Calls w w2 [Event.exec cmd] := by
  have c : Calls w (execBash env cmd w).2 [Event.exec cmd] := by
    simp [Calls, execBash, World.log, Event.isPublish]
  rwa [h] at c

theorem httpGet_calls {env : Env} {url : String} {w w2 : World} {r : Except Err HttpResponse}
    (h : httpGet env url w = (r, w2)) : Calls w w2 [Event.httpGet url] := by
  have c : Calls w (httpGet env url w).2 [Event.httpGet url] := Calls.log w _ rfl
  rwa [h] at c

theorem httpPost_calls {env : Env} {url contentType : String} {body : Bytes} {w w2 : World}
    {r : Except Err HttpResponse} (h : httpPost env url contentType body w = (r, w2)) :
    Calls w w2 [Event.httpPost url contentType body] := by
  have c : Calls w (httpPost env url contentType body w).2
      [Event.httpPost url contentType body] := Calls.log w _ rfl
  rwa [h] at c

/-- What `os.Open` hands over on success is the content of the file. -/
theorem osOpen_ok {env : Env} {path : String} {w w1 : World} {file : Bytes}
    (h : osOpen env path w = (Except.ok file, w1)) : w.files.read path = some file := by
  unfold osOpen at h
  split at h
  · simp at h
  · split at h
    · simp at h
    · simp only [Prod.mk.injEq, Except.ok.injEq] at h
      rw [← h.1]
      assumption

namespace NsqTranslate

theorem translateText_calls (env : Env) (FromLang ToLang FromText : String) (w : World) :
    ∃ evs, Calls w (translateText env FromLang ToLang FromText w).2 evs ∧
      Event.httpGet ("http://api.fanyi.baidu.com/api/trans/vip/translate?q=" ++
        env.queryEscape FromText ++ "&from=" ++ FromLang ++ "&to=" ++ ToLang ++ "&appid=" ++
        "20170714000064493" ++ "&salt=" ++ formatInt (env.now w) ++ "&sign=" ++
        env.md5hex ("20170714000064493" ++ FromText ++ formatInt (env.now w) ++
          "1F0H8Oh1YZX2U9pqdIMP")) ∈ evs := by
  have c0 := timeNowUnix_calls env w
  unfold translateText
  simp only []
  split <;> rename_i h <;> have c1 := c0.trans (httpGet_calls h)
  · exact ⟨_, c1, by simp [timeNowUnix]⟩
  · split
    · exact ⟨_, c1, by simp [timeNowUnix]⟩
    · have c2 := c1.trans (Calls.log _ (Event.jsonUnmarshal ‹Bytes›) rfl)
      split
      · exact ⟨_, c2, by simp [timeNowUnix]⟩
      · split <;> exact ⟨_, c2, by simp [timeNowUnix]⟩

theorem convertAudioFile_calls (env : Env) (beforeFile afterAmrFile : String) (w : World) :
    ∃ evs, Calls w (convertAudioFile env beforeFile afterAmrFile w).2 evs ∧
      Event.exec ("ffmpeg -y -i " ++ beforeFile ++
        " -acodec amr_wb -ac 1 -ar 16000 -ab 23850 " ++ afterAmrFile) ∈ evs := by
  unfold convertAudioFile
  simp only []
  split <;> rename_i h <;> have c := execBash_calls h
  · exact ⟨_, c, by simp⟩
  · split <;> rename_i h2 <;> exact ⟨_, c.trans (osRemove_calls h2), by simp⟩

theorem audio2text_calls (env : Env) (audioAmrFile : String) (w : World) :
    ∃ evs, Calls w (audio2text env audioAmrFile w).2 evs := by
  unfold audio2text
  simp only []
  split <;> rename_i h <;> have c := osOpen_calls h
  · exact ⟨_, c⟩
  · split <;> rename_i h2 <;> have c2 := c.trans (httpPost_calls h2)
    · exact ⟨_, c2⟩
    · split
      · exact ⟨_, c2⟩
      · have c3 := c2.trans (Calls.log _ (Event.jsonUnmarshal ‹Bytes›) rfl)
        split
        · exact ⟨_, c3⟩
        · split
          · exact ⟨_, c3⟩
          · split <;> exact ⟨_, c3⟩

/-- When `audio2text` returns a text, it has posted the content of the file
it was given to the speech service. -/
theorem audio2text_ok_calls {env : Env} {audioAmrFile : String} {w w2 : World} {text : String}
    (h : audio2text env audioAmrFile w = (Outcome.ret (text, none), w2)) :
    ∃ evs file, Calls w w2 evs ∧ w.files.read audioAmrFile = some file ∧
      Event.httpPost ("http://vop.baidu.com/server_api?lan=zh&cuid=" ++ "TranslateChat" ++
        "&token=" ++ w.token) "audio/amr;rate=16000" file ∈ evs := by
  unfold audio2text at h
  simp only [] at h
  split at h
  · simp at h
  · rename_i file w1 ho
    have c := osOpen_calls ho
    have hf := osOpen_ok ho
    rw [c.2.1] at h
    split at h
    · simp at h
    · rename_i h2
      have c2 := c.trans (httpPost_calls h2)
      split at h
      · simp at h
      · have c3 := c2.trans (Calls.log _ (Event.jsonUnmarshal ‹Bytes›) rfl)
        split at h
        · simp at h
        · split at h
          · simp at h
          · split at h
            · simp at h
            · simp only [Prod.mk.injEq] at h
              rw [← h.2]
              exact ⟨_, file, c3, hf, by simp⟩

theorem text2audio_calls (env : Env) (text mp3File saveAudioFile : String) (w : World) :
    ∃ evs, Calls w (text2audio env text mp3File saveAudioFile w).2 evs ∧
      Event.httpGet ("http://tsn.baidu.com/text2audio?tex=" ++ env.queryEscape text ++
        "&lan=zh&cuid=" ++ "TranslateChat" ++ "&ctp=1&tok=" ++ w.token) ∈ evs := by
  unfold text2audio
  simp only []
  split <;> rename_i h <;> have c := httpGet_calls h
  · exact ⟨_, c, by simp⟩
  · split
    · exact ⟨_, c, by simp⟩
    · split
      · exact ⟨_, c, by simp⟩
      · split <;> rename_i h2 <;> have c2 := c.trans (ioutilWriteFile_calls h2)
        · exact ⟨_, c2, by simp⟩
        · split <;> rename_i h3 <;> have c3 := c2.trans (execBash_calls h3)
          · exact ⟨_, c3, by simp⟩
          · exact ⟨_, c3.trans (osRemove_calls (Prod.mk.eta).symm), by simp⟩

end NsqTranslate

/-! ## The relay pipeline on success -/

namespace NsqTranslate

/-- C2. Text envelope, every step successful. Let `dir` be the conversation
directory and `ts` the decimal clock reading taken after the translation. If
`os.MkdirAll` succeeds, `translateText` returns the text `t` without error
for `(FromLang, ToLang, FromText)`, and `text2audio`, called on `t` with the
result files `dir ++ ts ++ "_result.mp3"` and `dir ++ ts ++ "_result.amr"`,
returns nil, then `translate` returns nil; the envelope it leaves differs from
the inbound one only in `ToText`, which is `t`, and in `ToAudioUrl`, which is
the path of the result file with `../tcpBoltDB/upload/` replaced by
`download/`; the world it leaves is the one `text2audio` left, and the
request for speech that was sent carries `t`. -/
theorem translate_text_success (env : Env) (msg : ChatMsgJson) (w w1 w2 w4 : World)
    (dir ts t : String)
    (hcat : msg.Catalog = "text")
    (hdir : dir = "../tcpBoltDB/" ++ "upload/" ++ msg.FromUser ++ "/" ++ msg.ToUser ++ "/")
    (hmk : osMkdirAll env dir w = (none, w1))
    (htr : translateText env msg.FromLang msg.ToLang msg.FromText w1 = (Outcome.ret (t, none), w2))
    (hts : ts = formatInt (env.now w2))
    (htts : text2audio env t (dir ++ ts ++ "_result.mp3") (dir ++ ts ++ "_result.amr")
      (timeNowUnix env w2).2 = (none, w4)) :
    translate env msg w =
        (Outcome.ret none,
          { msg with
            ToText := t
            ToAudioUrl := "download/" ++ msg.FromUser ++ "/" ++ msg.ToUser ++ "/" ++ ts ++
              "_result.amr" },
          w4) ∧
      (∃ rest, dir ++ ts ++ "_result.amr" = "../tcpBoltDB/upload/" ++ rest ∧
        "download/" ++ msg.FromUser ++ "/" ++ msg.ToUser ++ "/" ++ ts ++ "_result.amr" =
          "download/" ++ rest) ∧
      ∃ r a, w4.trace = w.trace ++ [Event.mkdirAll dir] ++ r ++ [Event.now] ++ a ∧
        Event.httpGet ("http://tsn.baidu.com/text2audio?tex=" ++ env.queryEscape t ++
          "&lan=zh&cuid=" ++ "TranslateChat" ++ "&ctp=1&tok=" ++ w.token) ∈ a := by
  subst hdir hts
  refine ⟨?_, ?_, ?_⟩
  · unfold translate
    rw [if_pos hcat]
    simp only [hmk, htr]
    simp only [timeNowUnix] at htts ⊢
    simp only [htts]
  · refine ⟨msg.FromUser ++ "/" ++ msg.ToUser ++ "/" ++ formatInt (env.now w2) ++
      "_result.amr", ?_, ?_⟩
    · simp only [String.append_assoc]
      rfl
    · simp only [String.append_assoc]
  · have c1 := osMkdirAll_calls hmk
    obtain ⟨r, c2, -⟩ := translateText_calls env msg.FromLang msg.ToLang msg.FromText w1
    rw [htr] at c2
    have c3 := timeNowUnix_calls env w2
    obtain ⟨a, c4, ha⟩ := text2audio_calls env t
      ("../tcpBoltDB/" ++ "upload/" ++ msg.FromUser ++ "/" ++ msg.ToUser ++ "/" ++
        formatInt (env.now w2) ++ "_result.mp3")
      ("../tcpBoltDB/" ++ "upload/" ++ msg.FromUser ++ "/" ++ msg.ToUser ++ "/" ++
        formatInt (env.now w2) ++ "_result.amr") (timeNowUnix env w2).2
    rw [htts] at c4
    refine ⟨r, a, ?_, ?_⟩
    · have ht := (((c1.trans c2).trans c3).trans c4).1
      simp only [List.append_assoc] at ht ⊢
      exact ht
    · rw [c3.2.1, c2.2.1, c1.2.1] at ha
      exact ha

/-- Witness of C2: the text envelope `你好` from user 1 to user 2 with every
collaborator healthy and the clock at 1500000000. -/
theorem translate_text_success_witness :
    (translate Double.healthy Double.textMsg Double.start).1 = Outcome.ret none ∧
      (translate Double.healthy Double.textMsg Double.start).2.1 =
        { Double.textMsg with
          ToText := "Hello"
          ToAudioUrl := "download/1/2/1500000000_result.amr" } :=
  have h := (translate_text_success Double.healthy Double.textMsg Double.start _ _ _
    "../tcpBoltDB/upload/1/2/" "1500000000" "Hello" rfl rfl rfl rfl rfl rfl).1
  ⟨congrArg Prod.fst h, congrArg (fun x => x.2.1) h⟩

/-- C3. Audio envelope, every step successful. Let `dir` be the conversation
directory and `ts` the decimal clock reading taken after the base64 decoding.
If `os.MkdirAll` succeeds, `FromAudio` decodes to the bytes `decoded`, these
are written to `dir ++ ts ++ "_cvtbef.amr"`, `convertAudioFile` turns that
file into `dir ++ ts ++ ".amr"`, `audio2text` returns `text` for the converted
file, `translateText` returns `t` for `(FromLang, ToLang, text)` and
`text2audio` returns nil on `t`, then `translate` returns nil with
`FromAudio = ""`, `FromText = text`, `ToText = t` and `ToAudioUrl` the
download path of the result file, every other field unchanged. The calls
appear in the trace in the order: conversion tool, speech-to-text request
(carrying the content of the converted file), translation request,
text-to-speech request (carrying `t`). -/
theorem translate_audio_success (env : Env) (msg : ChatMsgJson)
    (w w1 w3 w4 w5 w6 w7 : World) (dir ts text t : String) (decoded : Bytes)
    (hcat : msg.Catalog = "audio")
    (hdir : dir = "../tcpBoltDB/" ++ "upload/" ++ msg.FromUser ++ "/" ++ msg.ToUser ++ "/")
    (hmk : osMkdirAll env dir w = (none, w1))
    (hb64 : env.base64Decode msg.FromAudio = Except.ok decoded)
    (hts : ts = formatInt (env.now w1))
    (hwr : ioutilWriteFile env (dir ++ ts ++ "_cvtbef.amr") decoded (timeNowUnix env w1).2 =
      (none, w3))
    (hcv : convertAudioFile env (dir ++ ts ++ "_cvtbef.amr") (dir ++ ts ++ ".amr") w3 =
      (none, w4))
    (hstt : audio2text env (dir ++ ts ++ ".amr") w4 = (Outcome.ret (text, none), w5))
    (htr : translateText env msg.FromLang msg.ToLang text w5 = (Outcome.ret (t, none), w6))
    (htts : text2audio env t (dir ++ ts ++ "_result.mp3") (dir ++ ts ++ "_result.amr") w6 =
      (none, w7)) :
    translate env msg w =
        (Outcome.ret none,
          { msg with
            FromText := text
            ToText := t
            ToAudioUrl := "download/" ++ msg.FromUser ++ "/" ++ msg.ToUser ++ "/" ++ ts ++
              "_result.amr"
            FromAudio := "" },
          w7) ∧
      ∃ c s r a converted,
        w7.trace = w.trace ++ [Event.mkdirAll dir, Event.now,
          Event.writeFile (dir ++ ts ++ "_cvtbef.amr") decoded] ++ c ++ s ++ r ++ a ∧
        Event.exec ("ffmpeg -y -i " ++ (dir ++ ts ++ "_cvtbef.amr") ++
          " -acodec amr_wb -ac 1 -ar 16000 -ab 23850 " ++ (dir ++ ts ++ ".amr")) ∈ c ∧
        w4.files.read (dir ++ ts ++ ".amr") = some converted ∧
        Event.httpPost ("http://vop.baidu.com/server_api?lan=zh&cuid=" ++ "TranslateChat" ++
          "&token=" ++ w.token) "audio/amr;rate=16000" converted ∈ s ∧
        Event.httpGet ("http://api.fanyi.baidu.com/api/trans/vip/translate?q=" ++
          env.queryEscape text ++ "&from=" ++ msg.FromLang ++ "&to=" ++ msg.ToLang ++
          "&appid=" ++ "20170714000064493" ++ "&salt=" ++ formatInt (env.now w5) ++ "&sign=" ++
          env.md5hex ("20170714000064493" ++ text ++ formatInt (env.now w5) ++
            "1F0H8Oh1YZX2U9pqdIMP")) ∈ r ∧
        Event.httpGet ("http://tsn.baidu.com/text2audio?tex=" ++ env.queryEscape t ++
          "&lan=zh&cuid=" ++ "TranslateChat" ++ "&ctp=1&tok=" ++ w.token) ∈ a := by
  subst hdir hts
  have hne : ¬ msg.Catalog = "text" := by
    rw [hcat]
    decide
  refine ⟨?_, ?_⟩
  · unfold translate
    rw [if_neg hne]
    simp only [hmk, hb64]
    simp only [timeNowUnix] at hwr ⊢
    simp only [hwr, hcv, hstt, htr, htts]
  · have c1 := osMkdirAll_calls hmk
    have c2 := timeNowUnix_calls env w1
    have c3 := ioutilWriteFile_calls hwr
    obtain ⟨c, c4, hc⟩ := convertAudioFile_calls env
      ("../tcpBoltDB/" ++ "upload/" ++ msg.FromUser ++ "/" ++ msg.ToUser ++ "/" ++
        formatInt (env.now w1) ++ "_cvtbef.amr")
      ("../tcpBoltDB/" ++ "upload/" ++ msg.FromUser ++ "/" ++ msg.ToUser ++ "/" ++
        formatInt (env.now w1) ++ ".amr") w3
    rw [hcv] at c4
    obtain ⟨s, converted, c5, hfile, hs⟩ := audio2text_ok_calls hstt
    obtain ⟨r, c6, hr⟩ := translateText_calls env msg.FromLang msg.ToLang text w5
    rw [htr] at c6
    obtain ⟨a, c7, ha⟩ := text2audio_calls env t
      ("../tcpBoltDB/" ++ "upload/" ++ msg.FromUser ++ "/" ++ msg.ToUser ++ "/" ++
        formatInt (env.now w1) ++ "_result.mp3")
      ("../tcpBoltDB/" ++ "upload/" ++ msg.FromUser ++ "/" ++ msg.ToUser ++ "/" ++
        formatInt (env.now w1) ++ "_result.amr") w6
    rw [htts] at c7
    have k4 : w4.token = w.token := by rw [c4.2.1, c3.2.1, c2.2.1, c1.2.1]
    have k6 : w6.token = w.token := by rw [c6.2.1, c5.2.1, k4]
    refine ⟨c, s, r, a, converted, ?_, hc, hfile, ?_, hr, ?_⟩
    · have ht := ((((((c1.trans c2).trans c3).trans c4).trans c5).trans c6).trans c7).1
      simp only [List.append_assoc, List.singleton_append] at ht ⊢
      exact ht
    · rw [k4] at hs
      exact hs
    · rw [k6] at ha
      exact ha

/-- Witness of C3: an audio envelope from user 1 to user 2 with every
collaborator healthy and the clock at 1500000000. -/
theorem translate_audio_success_witness :
    (translate Double.healthy Double.audioMsg Double.start).1 = Outcome.ret none ∧
      (translate Double.healthy Double.audioMsg Double.start).2.1 =
        { Double.audioMsg with
          FromText := "你好"
          ToText := "Hello"
          ToAudioUrl := "download/1/2/1500000000_result.amr"
          FromAudio := "" } :=
  have h := (translate_audio_success Double.healthy Double.audioMsg Double.start _ _ _ _ _ _
    "../tcpBoltDB/upload/1/2/" "1500000000" "你好" "Hello" Double.amrBytes
    rfl rfl rfl rfl rfl rfl rfl rfl rfl rfl).1
  ⟨congrArg Prod.fst h, congrArg (fun x => x.2.1) h⟩

end NsqTranslate

/-! ## What a nil return of `translate` guarantees -/

/-- A string that begins with `download/` is not empty. -/
theorem download_ne_empty (rest : String) : "download/" ++ rest ≠ "" := by
  intro h
  have hl := congrArg String.length h
  rw [String.length_append] at hl
  have h9 : "download/".length = 9 := by decide
  have h0 : "".length = 0 := by decide
  omega

namespace NsqTranslate

/-- The function `translate` only appends calls to the trace, none of them a Publish. -/
theorem translate_calls (env : Env) (msg : ChatMsgJson) (w : World) :
    ∃ evs, Calls w (translate env msg w).2.2 evs := by
  unfold translate
  split
  · simp only []
    generalize h1 : osMkdirAll env _ w = p1
    obtain ⟨r1, w1⟩ := p1
    have c1 := osMkdirAll_calls h1
    cases r1 with
    | some err => exact ⟨_, c1⟩
    | none =>
      simp only []
      obtain ⟨r, c2, -⟩ := translateText_calls env msg.FromLang msg.ToLang msg.FromText w1
      generalize translateText env _ _ _ w1 = p2 at c2 ⊢
      obtain ⟨r2, w2⟩ := p2
      have c2 := c1.trans c2
      rcases r2 with ⟨t, _ | err⟩ | p
      · simp only []
        have c3 := c2.trans (timeNowUnix_calls env w2)
        generalize h4 : text2audio env _ _ _ (timeNowUnix env w2).2 = p4
        obtain ⟨r4, w4⟩ := p4
        obtain ⟨a, c4, -⟩ := text2audio_calls env _ _ _ (timeNowUnix env w2).2
        rw [h4] at c4
        cases r4 <;> exact ⟨_, c3.trans c4⟩
      · exact ⟨_, c2⟩
      · exact ⟨_, c2⟩
  · simp only []
    generalize h1 : osMkdirAll env _ w = p1
    obtain ⟨r1, w1⟩ := p1
    have c1 := osMkdirAll_calls h1
    cases r1 with
    | some err => exact ⟨_, c1⟩
    | none =>
      simp only []
      cases env.base64Decode msg.FromAudio with
      | error err => exact ⟨_, c1⟩
      | ok decoded =>
        simp only []
        have c2 := c1.trans (timeNowUnix_calls env w1)
        generalize h3 : ioutilWriteFile env _ decoded (timeNowUnix env w1).2 = p3
        obtain ⟨r3, w3⟩ := p3
        have c3 := c2.trans (ioutilWriteFile_calls h3)
        cases r3 with
        | some err => exact ⟨_, c3⟩
        | none =>
          simp only []
          obtain ⟨c, c4, -⟩ := convertAudioFile_calls env
            ("../tcpBoltDB/" ++ "upload/" ++ msg.FromUser ++ "/" ++ msg.ToUser ++ "/" ++
              formatInt (timeNowUnix env w1).1 ++ "_cvtbef.amr")
            ("../tcpBoltDB/" ++ "upload/" ++ msg.FromUser ++ "/" ++ msg.ToUser ++ "/" ++
              formatInt (timeNowUnix env w1).1 ++ ".amr") w3
          generalize convertAudioFile env _ _ w3 = p4 at c4 ⊢
          obtain ⟨r4, w4⟩ := p4
          have c4 := c3.trans c4
          cases r4 with
          | some err => exact ⟨_, c4⟩
          | none =>
            simp only []
            obtain ⟨s, c5⟩ := audio2text_calls env
              ("../tcpBoltDB/" ++ "upload/" ++ msg.FromUser ++ "/" ++ msg.ToUser ++ "/" ++
                formatInt (timeNowUnix env w1).1 ++ ".amr") w4
            generalize audio2text env _ w4 = p5 at c5 ⊢
            obtain ⟨r5, w5⟩ := p5
            have c5 := c4.trans c5
            rcases r5 with ⟨text, _ | err⟩ | p
            · simp only []
              obtain ⟨r, c6, -⟩ := translateText_calls env msg.FromLang msg.ToLang text w5
              generalize translateText env _ _ _ w5 = p6 at c6 ⊢
              obtain ⟨r6, w6⟩ := p6
              have c6 := c5.trans c6
              rcases r6 with ⟨t, _ | err⟩ | p
              · simp only []
                obtain ⟨a, c7, -⟩ := text2audio_calls env t
                  ("../tcpBoltDB/" ++ "upload/" ++ msg.FromUser ++ "/" ++ msg.ToUser ++ "/" ++
                    formatInt (timeNowUnix env w1).1 ++ "_result.mp3")
                  ("../tcpBoltDB/" ++ "upload/" ++ msg.FromUser ++ "/" ++ msg.ToUser ++ "/" ++
                    formatInt (timeNowUnix env w1).1 ++ "_result.amr") w6
                generalize text2audio env _ _ _ w6 = p7 at c7 ⊢
                obtain ⟨r7, w7⟩ := p7
                cases r7 <;> exact ⟨_, c6.trans c7⟩
              · exact ⟨_, c6⟩
              · exact ⟨_, c6⟩
            · exact ⟨_, c5⟩
            · exact ⟨_, c5⟩

/-- The envelope `translate` leaves when it returns nil: `ToText` and
`ToAudioUrl` are set, the audio branch also sets `FromText` and clears
`FromAudio`, the text branch leaves both alone. -/
theorem translate_nil_inv {env : Env} {msg m2 : ChatMsgJson} {w w2 : World}
    (h : translate env msg w = (Outcome.ret none, m2, w2)) :
    ∃ text t ts, m2 =
      { msg with
        FromText := if msg.Catalog = "text" then msg.FromText else text
        ToText := t
        ToAudioUrl := "download/" ++ msg.FromUser ++ "/" ++ msg.ToUser ++ "/" ++ ts ++
          "_result.amr"
        FromAudio := if msg.Catalog = "text" then msg.FromAudio else "" } := by
  unfold translate at h
  split at h
  · rename_i hcat
    simp only [] at h
    split at h
    · simp at h
    · split at h
      · simp at h
      · simp at h
      · split at h
        · simp at h
        · simp only [Prod.mk.injEq, true_and] at h
          rw [← h.1]
          simp only [if_pos hcat]
          exact ⟨"", _, _, rfl⟩
  · rename_i hcat
    simp only [] at h
    split at h
    · simp at h
    · split at h
      · simp at h
      · split at h
        · simp at h
        · split at h
          · simp at h
          · split at h
            · simp at h
            · simp at h
            · split at h
              · simp at h
              · simp at h
              · split at h
                · simp at h
                · simp only [Prod.mk.injEq, true_and] at h
                  rw [← h.1]
                  simp only [if_neg hcat]
                  exact ⟨_, _, _, rfl⟩

/-- What `translateText` returns without error is the empty string or the
`dst` of the first segment of the answer it fetched and decoded. -/
theorem translateText_ret_inv {env : Env} {FromLang ToLang FromText t : String} {w w2 : World}
    (h : translateText env FromLang ToLang FromText w = (Outcome.ret (t, none), w2)) :
    t = "" ∨ ∃ res body resp seg rest,
      env.httpGet (timeNowUnix env w).2
        ("http://api.fanyi.baidu.com/api/trans/vip/translate?q=" ++
        env.queryEscape FromText ++ "&from=" ++ FromLang ++ "&to=" ++ ToLang ++ "&appid=" ++
        "20170714000064493" ++ "&salt=" ++ formatInt (env.now w) ++ "&sign=" ++
        env.md5hex ("20170714000064493" ++ FromText ++ formatInt (env.now w) ++
          "1F0H8Oh1YZX2U9pqdIMP")) = Except.ok res ∧
      res.body = Except.ok body ∧ env.unmarshalTransResp body = (resp, none) ∧
      resp.TransResult = seg :: rest ∧ t = seg.Dst := by
  unfold translateText at h
  simp only [timeNowUnix, httpGet] at h ⊢
  split at h
  · simp only [Prod.mk.injEq, Outcome.ret.injEq, and_true] at h
    exact Or.inl h.1.symm
  · rename_i res w3 hget
    simp only [Prod.mk.injEq] at hget
    split at h
    · simp only [Prod.mk.injEq, Outcome.ret.injEq, and_true] at h
      exact Or.inl h.1.symm
    · rename_i body hbody
      split at h
      · simp only [Prod.mk.injEq, Outcome.ret.injEq, and_true] at h
        exact Or.inl h.1.symm
      · rename_i resp hresp
        split at h
        · simp at h
        · rename_i seg rest hseg
          simp only [Prod.mk.injEq, Outcome.ret.injEq, and_true] at h
          exact Or.inr ⟨res, body, resp, seg, rest, hget.1, hbody, hresp, hseg, h.1.symm⟩

/-- C4, amended. For a text envelope whose `FromAudio` is empty, whatever the
collaborators do: when `translate` returns nil, the envelope it leaves has a
non-empty `ToAudioUrl`, `FromAudio` is still empty, and `ToText` is the text
`translateText` returned for `(FromLang, ToLang, FromText)`; that text is the
`dst` of the first segment of the decoded translation answer when it is not
empty. -/
theorem translate_text_nil (env : Env) (msg m2 : ChatMsgJson) (w w2 : World)
    (hcat : msg.Catalog = "text") (hfa : msg.FromAudio = "")
    (h : translate env msg w = (Outcome.ret none, m2, w2)) :
    m2.ToAudioUrl ≠ "" ∧ m2.FromAudio = "" ∧
      (∃ w1 w3, translateText env msg.FromLang msg.ToLang msg.FromText w1 =
        (Outcome.ret (m2.ToText, none), w3)) ∧
      (m2.ToText ≠ "" → ∃ body resp seg rest, env.unmarshalTransResp body = (resp, none) ∧
        resp.TransResult = seg :: rest ∧ m2.ToText = seg.Dst) := by
  have hex : ∃ w1 w3, translateText env msg.FromLang msg.ToLang msg.FromText w1 =
      (Outcome.ret (m2.ToText, none), w3) := by
    unfold translate at h
    rw [if_pos hcat] at h
    simp only [] at h
    split at h
    · simp at h
    · split at h
      · simp at h
      · simp at h
      · rename_i htr
        split at h
        · simp at h
        · simp only [Prod.mk.injEq, true_and] at h
          rw [← h.1]
          exact ⟨_, _, htr⟩
  obtain ⟨text, t, ts, hm⟩ := translate_nil_inv h
  refine ⟨?_, ?_, hex, ?_⟩
  · rw [hm]
    simp only [String.append_assoc]
    exact download_ne_empty _
  · rw [hm]
    simp only [if_pos hcat]
    exact hfa
  · intro hne
    obtain ⟨w1, w3, htr⟩ := hex
    rcases translateText_ret_inv htr with h0 | ⟨res, body, resp, seg, rest, -, -, h3, h4, h5⟩
    · exact absurd h0 hne
    · exact ⟨body, resp, seg, rest, h3, h4, h5⟩

/-- Witness of C4 (amended) -/
theorem translate_text_nil_witness :
    (translate Double.healthy Double.textMsg Double.start).2.1.ToAudioUrl ≠ "" ∧
      (translate Double.healthy Double.textMsg Double.start).2.1.FromAudio = "" :=
  have h := translate_text_nil Double.healthy Double.textMsg
    (translate Double.healthy Double.textMsg Double.start).2.1 Double.start
    (translate Double.healthy Double.textMsg Double.start).2.2 rfl rfl (by decide)
  ⟨h.1, h.2.1⟩

/-- C4, as stated, fails -/
theorem translate_text_blank_translation :
    Double.textMsg.Catalog = "text" ∧ Double.textMsg.FromAudio = "" ∧
      (translate Double.translatorBlank Double.textMsg Double.start).1 = Outcome.ret none ∧
      (translate Double.translatorBlank Double.textMsg Double.start).2.1.ToText = "" := by
  decide

end NsqTranslate

/-! ## The relay handler: what it publishes -/

namespace NsqTranslate

/-- C5, amended. Whatever the inbound envelope and the collaborators: every
Publish call the handler adds to the trace is on the topic `translateAfter`
and carries the encoding of the inbound PUBLISH packet with its payload
replaced by the JSON of the envelope `translate` left on a nil return. That
envelope has a non-empty `ToAudioUrl`; its `FromAudio` is empty when the
inbound `Catalog` is not `text`, and is the inbound `FromAudio`, untouched,
when the `Catalog` is `text`. -/
theorem hand_published_envelope (env : Env) (body : Bytes) (w w2 : World)
    (out : Outcome (Option Err)) (evs : List Event) (topic : String) (buff : Bytes)
    (h : hand env body w = (out, w2)) (htr : w2.trace = w.trace ++ evs)
    (hpub : Event.publish topic buff ∈ evs) :
    ∃ pubPkt chatMsg chatMsg1 w3 data,
      env.packetDecode body = Except.ok (Packet.publish pubPkt) ∧
      jsonUnmarshalChatMsg env pubPkt.payload {} = (chatMsg, none) ∧
      translate env chatMsg (w.log (Event.jsonUnmarshal pubPkt.payload)) =
        (Outcome.ret none, chatMsg1, w3) ∧
      env.jsonMarshal chatMsg1 = Except.ok data ∧
      env.packetEncode (pubPkt.SetPayload data) = Except.ok buff ∧
      topic = "translateAfter" ∧
      chatMsg1.ToAudioUrl ≠ "" ∧
      (chatMsg.Catalog ≠ "text" → chatMsg1.FromAudio = "") ∧
      (chatMsg.Catalog = "text" → chatMsg1.FromAudio = chatMsg.FromAudio) := by
  have hno : ∀ {w1 : World} {l : List Event}, Calls w w1 l → w2 = w1 → False := by
    intro w1 l c heq
    subst heq
    have h1 := c.1
    rw [htr] at h1
    have h2 := List.append_cancel_left h1
    subst h2
    have h3 := c.2.2 _ hpub
    simp [Event.isPublish] at h3
  unfold hand at h
  split at h
  · simp only [Prod.mk.injEq] at h
    exact (hno (Calls.refl w) h.2.symm).elim
  · split at h
    · simp only [Prod.mk.injEq] at h
      exact (hno (Calls.refl w) h.2.symm).elim
    · rename_i pubPkt hdec
      have c0 := Calls.log w (Event.jsonUnmarshal pubPkt.payload) rfl
      simp only [] at h
      split at h
      · simp only [Prod.mk.injEq] at h
        exact (hno c0 h.2.symm).elim
      · rename_i chatMsg hun
        obtain ⟨l, c1⟩ :=
          translate_calls env chatMsg (w.log (Event.jsonUnmarshal pubPkt.payload))
        split at h <;> rename_i htl <;> rw [htl] at c1 <;> have c1 := c0.trans c1
        · simp only [Prod.mk.injEq] at h
          exact (hno c1 h.2.symm).elim
        · simp only [Prod.mk.injEq] at h
          exact (hno c1 h.2.symm).elim
        · rename_i chatMsg1 w3 _
          split at h
          · simp only [Prod.mk.injEq] at h
            exact (hno c1 h.2.symm).elim
          · rename_i data hmar
            split at h
            · simp only [Prod.mk.injEq] at h
              exact (hno c1 h.2.symm).elim
            · rename_i buff1 henc
              have hw2 : w2 = w3.log (Event.publish "translateAfter" buff1) := by
                simp only [nsqPublish] at h
                split at h <;> rename_i hp <;> simp only [Prod.mk.injEq] at hp h <;>
                  rw [← h.2, ← hp.2]
              have ht : w3.trace = w.trace ++ ([Event.jsonUnmarshal pubPkt.payload] ++ l) := c1.1
              have h1 : w2.trace = w.trace ++ (([Event.jsonUnmarshal pubPkt.payload] ++ l) ++
                  [Event.publish "translateAfter" buff1]) := by
                rw [hw2]
                simp only [World.log, ht, List.append_assoc]
              rw [htr] at h1
              have h2 := List.append_cancel_left h1
              subst h2
              rcases List.mem_append.mp hpub with hin | hin
              · have h3 := c1.2.2 _ hin
                simp [Event.isPublish] at h3
              · simp only [List.mem_singleton, Event.publish.injEq] at hin
                obtain ⟨text, t, ts, hm⟩ := translate_nil_inv htl
                refine ⟨pubPkt, chatMsg, chatMsg1, w3, data, hdec, hun, htl, hmar, ?_, hin.1,
                  ?_, ?_, ?_⟩
                · rw [hin.2]
                  exact henc
                · rw [hm]
                  simp only [String.append_assoc]
                  exact download_ne_empty _
                · intro hc
                  rw [hm]
                  simp only [if_neg hc]
                · intro hc
                  rw [hm]
                  simp only [if_pos hc]

/-- Witness of C5 (amended): the audio envelope, every collaborator healthy. -/
theorem hand_published_envelope_witness :
    ∃ chatMsg1 data,
      Double.healthy.jsonMarshal chatMsg1 = Except.ok data ∧
      Double.healthy.packetEncode
        (Publish.SetPayload { topic := "chat", payload := Double.marshal Double.audioMsg } data) =
        Except.ok (Double.inbound (Double.marshal
          { Double.audioMsg with
            FromText := "你好"
            ToText := "Hello"
            ToAudioUrl := "download/1/2/1500000000_result.amr"
            FromAudio := "" })) ∧
      chatMsg1.ToAudioUrl ≠ "" ∧ chatMsg1.FromAudio = "" := by
  obtain ⟨pubPkt, chatMsg, chatMsg1, w3, data, h1, h2, h3, h4, h5, h6, h7, h8, h9⟩ :=
    hand_published_envelope Double.healthy (Double.inbound (Double.marshal Double.audioMsg))
      Double.start (hand Double.healthy (Double.inbound (Double.marshal Double.audioMsg))
        Double.start).2
      (hand Double.healthy (Double.inbound (Double.marshal Double.audioMsg)) Double.start).1
      ((hand Double.healthy (Double.inbound (Double.marshal Double.audioMsg))
        Double.start).2.trace)
      "translateAfter"
      (Double.inbound (Double.marshal
          { Double.audioMsg with
            FromText := "你好"
            ToText := "Hello"
            ToAudioUrl := "download/1/2/1500000000_result.amr"
            FromAudio := "" }))
      rfl (by decide) (by decide)
  have hp : pubPkt = { topic := "chat", payload := Double.marshal Double.audioMsg } := by
    have hd : Double.healthy.packetDecode (Double.inbound (Double.marshal Double.audioMsg)) =
        Except.ok (Packet.publish { topic := "chat", payload := Double.marshal Double.audioMsg }) :=
      rfl
    rw [hd] at h1
    simp only [Except.ok.injEq, Packet.publish.injEq] at h1
    exact h1.symm
  subst hp
  have hc : chatMsg = Double.audioMsg := by
    have hd : jsonUnmarshalChatMsg Double.healthy (Double.marshal Double.audioMsg) {} =
        (Double.audioMsg, none) := by decide
    rw [hd] at h2
    simp only [Prod.mk.injEq, and_true] at h2
    exact h2.symm
  subst hc
  exact ⟨chatMsg1, data, h4, h5, h7, h8 (by decide)⟩

/-- C5, as stated, fails: a text envelope that carries audio is published with
its `FromAudio` intact. -/
theorem hand_echoes_audio_of_text_envelope :
    (hand Double.healthy (Double.inbound (Double.marshal Double.textMsgWithAudio))
        Double.start).1 = Outcome.ret none ∧
      (hand Double.healthy (Double.inbound (Double.marshal Double.textMsgWithAudio))
        Double.start).2.trace.getLast? =
        some (Event.publish "translateAfter" (Double.inbound (Double.marshal
          { Double.textMsgWithAudio with
            ToText := "Hello"
            ToAudioUrl := "download/1/2/1500000000_result.amr" }))) ∧
      ({ Double.textMsgWithAudio with
          ToText := "Hello"
          ToAudioUrl := "download/1/2/1500000000_result.amr" } : ChatMsgJson).FromAudio =
        "IyFBTVI=" := by
  decide

end NsqTranslate

/-! ## The relay handler: rejection of what is not a PUBLISH packet -/

namespace NsqTranslate

/-- C9. When `packet.Decode` fails on the message body, or decodes it into a
packet that is not a PUBLISH packet (whatever that packet contains), the
handler returns `ErrUnexpectedObjectType` and leaves the world as it found it:
the trace gains no call, so no payload was unmarshalled, `translate` (whose
first act is a call of `os.MkdirAll`) was not entered, no collaborator was
called and nothing was published. -/
theorem hand_rejects_non_publish (env : Env) (body : Bytes) (w : World)
    (h : (∃ err, env.packetDecode body = Except.error err) ∨
      (∃ kind content, env.packetDecode body = Except.ok (Packet.other kind content))) :
    hand env body w = (Outcome.ret (some Err.ErrUnexpectedObjectType), w) := by
  rcases h with ⟨err, h⟩ | ⟨kind, content, h⟩
  · simp [hand, h]
  · simp [hand, h]

/-- Witness of C9: a truncated body (no byte at all) on which decoding fails,
and a CONNECT packet that carries the text of a well-formed envelope. -/
theorem hand_rejects_non_publish_witness :
    hand Double.healthy [] Double.start =
        (Outcome.ret (some Err.ErrUnexpectedObjectType), Double.start) ∧
      hand Double.healthy (0x10 :: Double.marshal Double.textMsg) Double.start =
        (Outcome.ret (some Err.ErrUnexpectedObjectType), Double.start) :=
  ⟨hand_rejects_non_publish Double.healthy [] Double.start (Or.inl ⟨_, rfl⟩),
   hand_rejects_non_publish Double.healthy (0x10 :: Double.marshal Double.textMsg) Double.start
     (Or.inr ⟨1, Double.marshal Double.textMsg, rfl⟩)⟩

end NsqTranslate

/-! ## The relay handler: rejection of a payload that is not an envelope -/

namespace NsqTranslate

/-- One member more: the decoder holds an error afterwards exactly when it
held one before or the member is named like a field and is not storable. -/
theorem decodeMember_error (st : ChatMsgJson × Option Err) (kv : String × Json) :
    (decodeMember st kv).2.isSome =
      (st.2.isSome || (isEnvelopeField kv.1 && !storable kv.2)) := by
  obtain ⟨m, e⟩ := st
  obtain ⟨k, v⟩ := kv
  unfold decodeMember
  cases hk : isEnvelopeField k <;> cases v <;> cases e <;> simp [storable]

theorem foldl_decodeMember_error (members : List (String × Json))
    (st : ChatMsgJson × Option Err) :
    (members.foldl decodeMember st).2.isSome =
      (st.2.isSome || members.any (fun kv => isEnvelopeField kv.1 && !storable kv.2)) := by
  induction members generalizing st with
  | nil => simp
  | cons kv rest ih =>
    rw [List.foldl_cons, ih, decodeMember_error, List.any_cons, Bool.or_assoc]

/-- The decoder reports an error exactly on the refused values. -/
theorem decodeChatMsg_error (v : Json) (m : ChatMsgJson) :
    (decodeChatMsg v m).2.isSome = refused v := by
  cases v <;> simp [decodeChatMsg, refused, foldl_decodeMember_error]

/-- C10, amended. For a decoded PUBLISH packet whose payload is not valid
JSON, or is a JSON array, string, number or boolean, or is an object in which
a member named like an envelope field holds a value that is neither a string
nor `null`, the handler returns a non-nil error, and the only thing it did was
the call of `json.Unmarshal`: `translate` was not entered and nothing was
published. -/
theorem hand_rejects_payload (env : Env) (body : Bytes) (w : World) (pubPkt : Publish)
    (hdec : env.packetDecode body = Except.ok (Packet.publish pubPkt))
    (hbad : env.jsonParse pubPkt.payload = none ∨
      ∃ v, env.jsonParse pubPkt.payload = some v ∧ refused v = true) :
    ∃ err, hand env body w =
      (Outcome.ret (some err), w.log (Event.jsonUnmarshal pubPkt.payload)) := by
  have herr : ∃ m err, jsonUnmarshalChatMsg env pubPkt.payload {} = (m, some err) := by
    unfold jsonUnmarshalChatMsg
    rcases hbad with hp | ⟨v, hp, hr⟩
    · rw [hp]
      exact ⟨_, _, rfl⟩
    · rw [hp]
      simp only []
      have h := decodeChatMsg_error v {}
      rw [hr] at h
      rcases hd : decodeChatMsg v {} with ⟨m, e⟩
      rw [hd] at h
      cases e with
      | none => simp at h
      | some err => exact ⟨m, err, rfl⟩
  obtain ⟨m, err, hu⟩ := herr
  refine ⟨err, ?_⟩
  unfold hand
  simp only [hdec, hu]

/-- Witness of C10 (amended): an empty array, an object whose `Catalog` is a
number, and a payload that is not JSON. -/
theorem hand_rejects_payload_witness :
    (∃ err, hand Double.healthy (Double.inbound (bytesOf "[]")) Double.start =
      (Outcome.ret (some err), Double.start.log (Event.jsonUnmarshal (bytesOf "[]")))) ∧
    (∃ err, hand Double.healthy (Double.inbound (bytesOf "\x7b\"Catalog\":7\x7d")) Double.start =
      (Outcome.ret (some err),
        Double.start.log (Event.jsonUnmarshal (bytesOf "\x7b\"Catalog\":7\x7d")))) ∧
    (∃ err, hand Double.healthy (Double.inbound (bytesOf "<html>")) Double.start =
      (Outcome.ret (some err), Double.start.log (Event.jsonUnmarshal (bytesOf "<html>")))) :=
  ⟨hand_rejects_payload Double.healthy (Double.inbound (bytesOf "[]")) Double.start
      { topic := "chat", payload := bytesOf "[]" } rfl
      (Or.inr ⟨Json.array [], rfl, rfl⟩),
   hand_rejects_payload Double.healthy (Double.inbound (bytesOf "\x7b\"Catalog\":7\x7d"))
      Double.start { topic := "chat", payload := bytesOf "\x7b\"Catalog\":7\x7d" } rfl
      (Or.inr ⟨Json.object [("Catalog", Json.number "7")], rfl, rfl⟩),
   hand_rejects_payload Double.healthy (Double.inbound (bytesOf "<html>")) Double.start
      { topic := "chat", payload := bytesOf "<html>" } rfl (Or.inl rfl)⟩

/-- C10, as stated, fails: the payload `null` is not an object, yet
`json.Unmarshal` accepts it and leaves the envelope at its zero value; the
handler enters `translate` (the conversation directory is created) and, with
every collaborator healthy, publishes the result. -/
theorem hand_accepts_null_payload :
    (Double.healthy.jsonParse (bytesOf "null")).map jsonKind = some "null" ∧
      jsonUnmarshalChatMsg Double.healthy (bytesOf "null") {} = ({}, none) ∧
      (hand Double.healthy (Double.inbound (bytesOf "null")) Double.start).1 =
        Outcome.ret none ∧
      Event.mkdirAll "../tcpBoltDB/upload///" ∈
        (hand Double.healthy (Double.inbound (bytesOf "null")) Double.start).2.trace ∧
      (hand Double.healthy (Double.inbound (bytesOf "null")) Double.start).2.trace.getLast? =
        some (Event.publish "translateAfter" (Double.inbound (Double.marshal
          { FromText := "你好", ToText := "Hello",
            ToAudioUrl := "download///1500000000_result.amr" }))) := by
  decide

/-! ## Failures that the relay does not report -/

/-- The `translateText` of the relay has no path that returns an error:
whatever the collaborators do, a returned error is nil. -/
theorem translateText_error_nil {env : Env} {FromLang ToLang FromText t : String}
    {e : Option Err} {w w2 : World}
    (h : translateText env FromLang ToLang FromText w = (Outcome.ret (t, e), w2)) :
    e = none := by
  unfold translateText at h
  simp only [] at h
  split at h
  · simp only [Prod.mk.injEq, Outcome.ret.injEq] at h
    exact h.1.2.symm
  · split at h
    · simp only [Prod.mk.injEq, Outcome.ret.injEq] at h
      exact h.1.2.symm
    · split at h
      · simp only [Prod.mk.injEq, Outcome.ret.injEq] at h
        exact h.1.2.symm
      · split at h
        · simp at h
        · simp only [Prod.mk.injEq, Outcome.ret.injEq] at h
          exact h.1.2.symm

/-- On an answer that could be read and is not `audio/mp3`, `text2audio`
returns nil after the request alone, whatever the collaborators do. -/
theorem text2audio_non_audio {env : Env} {text mp3File saveAudioFile : String} {w : World}
    {res : HttpResponse} {body : Bytes}
    (hget : env.httpGet w ("http://tsn.baidu.com/text2audio?tex=" ++ env.queryEscape text ++
      "&lan=zh&cuid=" ++ "TranslateChat" ++ "&ctp=1&tok=" ++ w.token) = Except.ok res)
    (hbody : res.body = Except.ok body) (hct : res.contentType ≠ "audio/mp3") :
    text2audio env text mp3File saveAudioFile w =
      (none, w.log (Event.httpGet ("http://tsn.baidu.com/text2audio?tex=" ++
        env.queryEscape text ++ "&lan=zh&cuid=" ++ "TranslateChat" ++ "&ctp=1&tok=" ++
        w.token))) := by
  unfold text2audio
  simp only [httpGet, hget, hbody, hct, ne_eq, not_false_eq_true, if_true]

/-- C7 fails on the code: when `http.Get` fails, when the body cannot be read
and when the body is not JSON, `translateText` returns the empty string
together with a nil error, in the relay and in the HTTP server alike. -/
theorem translateText_swallows_errors :
    (translateText Double.translatorDown "zh" "en" "你好" Double.start).1 =
        Outcome.ret ("", none) ∧
      (translateText Double.translatorCut "zh" "en" "你好" Double.start).1 =
        Outcome.ret ("", none) ∧
      (translateText Double.translatorGarbled "zh" "en" "你好" Double.start).1 =
        Outcome.ret ("", none) ∧
      (TcpBoltDB.translateText Double.translatorDown "zh" "en" "你好" Double.start).1 =
        Outcome.ret ("", none) ∧
      (TcpBoltDB.translateText Double.translatorCut "zh" "en" "你好" Double.start).1 =
        Outcome.ret ("", none) ∧
      (TcpBoltDB.translateText Double.translatorGarbled "zh" "en" "你好" Double.start).1 =
        Outcome.ret ("", none) := by
  decide

/-- C6 fails on the code: on a translation answer without segments the
`translateText` of the relay indexes the empty list and panics, so `translate`
and the handler panic with it; the `translateText` of the HTTP server checks
the length and returns an error. -/
theorem translateText_panics_on_empty_result :
    Double.unmarshalTransResp Double.emptyBody =
        ({ From := "zh", To := "en", TransResult := [] }, none) ∧
      (translateText Double.translatorEmpty "zh" "en" "你好" Double.start).1 =
        Outcome.panic "index out of range [0] with length 0" ∧
      (translate Double.translatorEmpty Double.textMsg Double.start).1 =
        Outcome.panic "index out of range [0] with length 0" ∧
      (hand Double.translatorEmpty (Double.inbound (Double.marshal Double.textMsg))
        Double.start).1 = Outcome.panic "index out of range [0] with length 0" ∧
      (TcpBoltDB.translateText Double.translatorEmpty "zh" "en" "你好" Double.start).1 =
        Outcome.ret ("", some (Err.errorf "no result from translate server!")) := by
  decide

/-- C8 fails on the code: on an answer of the text-to-speech service that is
not `audio/mp3`, `text2audio` writes no file and runs no tool (the only call
is the request) but returns nil, and `translate` goes on to set `ToAudioUrl`
to the path of a file that does not exist. -/
theorem text2audio_nil_on_non_audio :
    text2audio Double.speechRefused "Hello" "../tcpBoltDB/upload/1/2/1500000000_result.mp3"
        "../tcpBoltDB/upload/1/2/1500000000_result.amr" Double.start =
        (none, Double.start.log (Event.httpGet
          "http://tsn.baidu.com/text2audio?tex=Hello&lan=zh&cuid=TranslateChat&ctp=1&tok=24.tok")) ∧
      (translate Double.speechRefused Double.textMsg Double.start).1 = Outcome.ret none ∧
      (translate Double.speechRefused Double.textMsg Double.start).2.1.ToAudioUrl =
        "download/1/2/1500000000_result.amr" ∧
      (translate Double.speechRefused Double.textMsg Double.start).2.2.files = [] := by
  decide

/-- C1 fails on the code: with the translation service unreachable the
handler returns nil and publishes the envelope with an empty `ToText`; with a
text-to-speech answer that is not audio the handler returns nil and publishes
an envelope whose `ToAudioUrl` names a file that was never written. -/
theorem hand_publishes_after_failed_step :
    (hand Double.translatorDown (Double.inbound (Double.marshal Double.textMsg))
        Double.start).1 = Outcome.ret none ∧
      (hand Double.translatorDown (Double.inbound (Double.marshal Double.textMsg))
        Double.start).2.trace.getLast? =
        some (Event.publish "translateAfter" (Double.inbound (Double.marshal
          { Double.textMsg with
            ToText := ""
            ToAudioUrl := "download/1/2/1500000000_result.amr" }))) ∧
      (hand Double.speechRefused (Double.inbound (Double.marshal Double.textMsg))
        Double.start).1 = Outcome.ret none ∧
      (hand Double.speechRefused (Double.inbound (Double.marshal Double.textMsg))
        Double.start).2.trace.getLast? =
        some (Event.publish "translateAfter" (Double.inbound (Double.marshal
          { Double.textMsg with
            ToText := "Hello"
            ToAudioUrl := "download/1/2/1500000000_result.amr" }))) ∧
      (hand Double.speechRefused (Double.inbound (Double.marshal Double.textMsg))
        Double.start).2.files = [] := by
  decide

end NsqTranslate

/-! ## The relay handler: when it returns nil -/

namespace NsqTranslate

/-- C11. The handler returns nil exactly when `packet.Decode` yields a PUBLISH
packet, `json.Unmarshal` of its payload, `translate`, `json.Marshal`,
`packet.Encode` and `Publish` all succeed; the world it leaves is then the one
`translate` left plus one Publish call, on the topic `translateAfter`,
carrying the encoding of the inbound packet with its payload replaced by the
JSON of the envelope `translate` left. Whenever the steps up to
`packet.Encode` succeed, nothing before that Publish call was a Publish, and
the handler returns what `Publish` returns: a Publish failure is handed back
as it is. -/
theorem hand_nil_iff (env : Env) (body : Bytes) (w w2 : World) :
    (hand env body w = (Outcome.ret none, w2) ↔
      ∃ pubPkt chatMsg chatMsg1 w3 data buff,
        env.packetDecode body = Except.ok (Packet.publish pubPkt) ∧
        jsonUnmarshalChatMsg env pubPkt.payload {} = (chatMsg, none) ∧
        translate env chatMsg (w.log (Event.jsonUnmarshal pubPkt.payload)) =
          (Outcome.ret none, chatMsg1, w3) ∧
        env.jsonMarshal chatMsg1 = Except.ok data ∧
        env.packetEncode (pubPkt.SetPayload data) = Except.ok buff ∧
        env.publish w3 "translateAfter" buff = none ∧
        w2 = w3.log (Event.publish "translateAfter" buff)) ∧
      ∀ pubPkt chatMsg chatMsg1 w3 data buff,
        env.packetDecode body = Except.ok (Packet.publish pubPkt) →
        jsonUnmarshalChatMsg env pubPkt.payload {} = (chatMsg, none) →
        translate env chatMsg (w.log (Event.jsonUnmarshal pubPkt.payload)) =
          (Outcome.ret none, chatMsg1, w3) →
        env.jsonMarshal chatMsg1 = Except.ok data →
        env.packetEncode (pubPkt.SetPayload data) = Except.ok buff →
        hand env body w = (Outcome.ret (env.publish w3 "translateAfter" buff),
          w3.log (Event.publish "translateAfter" buff)) ∧
        ∃ l, w3.trace = w.trace ++ Event.jsonUnmarshal pubPkt.payload :: l ∧
          ∀ e ∈ l, e.isPublish = false := by
  have key : ∀ pubPkt chatMsg chatMsg1 w3 data buff,
      env.packetDecode body = Except.ok (Packet.publish pubPkt) →
      jsonUnmarshalChatMsg env pubPkt.payload {} = (chatMsg, none) →
      translate env chatMsg (w.log (Event.jsonUnmarshal pubPkt.payload)) =
        (Outcome.ret none, chatMsg1, w3) →
      env.jsonMarshal chatMsg1 = Except.ok data →
      env.packetEncode (pubPkt.SetPayload data) = Except.ok buff →
      hand env body w = (Outcome.ret (env.publish w3 "translateAfter" buff),
        w3.log (Event.publish "translateAfter" buff)) := by
    intro pubPkt chatMsg chatMsg1 w3 data buff h1 h2 h3 h4 h5
    unfold hand
    simp only [h1, h2, h3, h4, h5, nsqPublish]
    cases env.publish w3 "translateAfter" buff <;> rfl
  refine ⟨⟨?_, ?_⟩, ?_⟩
  · intro h
    unfold hand at h
    split at h
    · simp at h
    · split at h
      · simp at h
      · rename_i pubPkt hdec
        simp only [] at h
        split at h
        · simp at h
        · rename_i chatMsg hun
          split at h
          · simp at h
          · simp at h
          · rename_i chatMsg1 w3 htl
            split at h
            · simp at h
            · rename_i data hmar
              split at h
              · simp at h
              · rename_i buff henc
                simp only [nsqPublish] at h
                split at h
                · simp at h
                · rename_i hp
                  simp only [Prod.mk.injEq, true_and] at hp h
                  refine ⟨pubPkt, chatMsg, chatMsg1, w3, data, buff, hdec, hun, htl, hmar,
                    henc, hp.1, ?_⟩
                  rw [← h, ← hp.2]
  · rintro ⟨pubPkt, chatMsg, chatMsg1, w3, data, buff, h1, h2, h3, h4, h5, h6, h7⟩
    rw [key pubPkt chatMsg chatMsg1 w3 data buff h1 h2 h3 h4 h5, h6, h7]
  · intro pubPkt chatMsg chatMsg1 w3 data buff h1 h2 h3 h4 h5
    refine ⟨key pubPkt chatMsg chatMsg1 w3 data buff h1 h2 h3 h4 h5, ?_⟩
    obtain ⟨l, c⟩ := translate_calls env chatMsg (w.log (Event.jsonUnmarshal pubPkt.payload))
    rw [h3] at c
    refine ⟨l, ?_, c.2.2⟩
    have ht : w3.trace = (w.log (Event.jsonUnmarshal pubPkt.payload)).trace ++ l := c.1
    rw [ht]
    simp [World.log]

/-- C13. When the handler has processed a message successfully, the packet it
encoded and published is the decoded inbound PUBLISH packet with another
payload: topic, dup flag, QoS, retain flag and packet identifier are those of
the inbound packet. -/
theorem hand_republished_frame (env : Env) (body : Bytes) (w w2 : World)
    (h : hand env body w = (Outcome.ret none, w2)) :
    ∃ pubPkt pubPkt1 buff,
      env.packetDecode body = Except.ok (Packet.publish pubPkt) ∧
      env.packetEncode pubPkt1 = Except.ok buff ∧
      w2.trace.getLast? = some (Event.publish "translateAfter" buff) ∧
      pubPkt1.topic = pubPkt.topic ∧ pubPkt1.dup = pubPkt.dup ∧ pubPkt1.qos = pubPkt.qos ∧
      pubPkt1.retain = pubPkt.retain ∧ pubPkt1.packetId = pubPkt.packetId ∧
      ∃ data, pubPkt1 = { pubPkt with payload := data } := by
  unfold hand at h
  split at h
  · simp at h
  · split at h
    · simp at h
    · rename_i pubPkt hdec
      simp only [] at h
      split at h
      · simp at h
      · split at h
        · simp at h
        · simp at h
        · split at h
          · simp at h
          · rename_i data hmar
            split at h
            · simp at h
            · rename_i buff henc
              simp only [nsqPublish] at h
              split at h
              · simp at h
              · rename_i hp
                simp only [Prod.mk.injEq, true_and] at hp h
                refine ⟨pubPkt, pubPkt.SetPayload data, buff, hdec, henc, ?_, rfl, rfl, rfl, rfl,
                  rfl, data, rfl⟩
                rw [← h, ← hp.2]
                simp [World.log]

/-- Witness of C13: the text envelope in a PUBLISH packet on topic `chat`,
every collaborator healthy. -/
theorem hand_republished_frame_witness :
    ∃ pubPkt1 buff,
      Double.healthy.packetEncode pubPkt1 = Except.ok buff ∧
      (hand Double.healthy (Double.inbound (Double.marshal Double.textMsg))
        Double.start).2.trace.getLast? = some (Event.publish "translateAfter" buff) ∧
      pubPkt1.topic = "chat" ∧ pubPkt1.qos = 0 := by
  obtain ⟨pubPkt, pubPkt1, buff, h1, h2, h3, h4, h5, h6, h7, h8, h9⟩ :=
    hand_republished_frame Double.healthy (Double.inbound (Double.marshal Double.textMsg))
      Double.start
      (hand Double.healthy (Double.inbound (Double.marshal Double.textMsg)) Double.start).2
      (by decide)
  have hd : Double.healthy.packetDecode (Double.inbound (Double.marshal Double.textMsg)) =
      Except.ok (Packet.publish { topic := "chat", payload := Double.marshal Double.textMsg }) :=
    rfl
  rw [hd] at h1
  simp only [Except.ok.injEq, Packet.publish.injEq] at h1
  subst h1
  exact ⟨pubPkt1, buff, h2, h3, h4, h6⟩

end NsqTranslate

/-! ## Speech-to-text errors and the codec bridge -/

/-- A file that has been unlinked is not there. -/
theorem Files.read_delete (fs : Files) (path : String) : (fs.delete path).read path = none := by
  unfold Files.delete Files.read
  induction fs with
  | nil => rfl
  | cons f rest ih =>
    obtain ⟨p, d⟩ := f
    by_cases hp : p = path
    · simp [List.filter_cons, hp, ih]
    · have hne : (path == p) = false := by
        simp only [beq_eq_false_iff_ne, ne_eq]
        exact fun h => hp h.symm
      simp [List.filter_cons, hp, List.lookup_cons, hne, ih]

namespace NsqTranslate

/-- C14, amended. When the file can be opened, the request succeeds, and the
answer decodes without error into a result whose `err_no` is not zero,
`audio2text` returns the empty string and the error
`Audio2Text failed, ` followed by `err_msg`. The error is built from `err_msg`
alone. -/
theorem audio2text_upstream_error (env : Env) (audioAmrFile : String) (w : World)
    (file body : Bytes) (resp : HttpResponse) (a2tRet : Audio2TextResult)
    (hfile : w.files.read audioAmrFile = some file)
    (hopen : env.openFile w audioAmrFile = none)
    (hpost : env.httpPost (w.log (Event.openFile audioAmrFile))
      ("http://vop.baidu.com/server_api?lan=zh&cuid=" ++ "TranslateChat" ++ "&token=" ++ w.token)
      "audio/amr;rate=16000" file = Except.ok resp)
    (hbody : resp.body = Except.ok body)
    (hdec : env.unmarshalAudio2Text body = (a2tRet, none))
    (hno : a2tRet.ErrNo ≠ 0) :
    (audio2text env audioAmrFile w).1 =
      Outcome.ret ("", some (Err.errorf ("Audio2Text failed, " ++ a2tRet.ErrMsg))) := by
  unfold audio2text
  simp only [osOpen, hfile, hopen, httpPost, World.log]
  simp only [World.log] at hpost
  simp only [hpost, hbody, hdec, hno, ne_eq, not_false_eq_true, if_true]

/-- Witness of C14 (amended): the speech service reports error 3301. -/
theorem audio2text_upstream_error_witness :
    (audio2text (Double.speechError 3301) "in.amr" Double.staged).1 =
      Outcome.ret ("", some (Err.errorf "Audio2Text failed, speech quality error.")) :=
  audio2text_upstream_error (Double.speechError 3301) "in.amr" Double.staged Double.amrBytes
    (Double.qualityBody 3301)
    { contentType := "application/json", body := Except.ok (Double.qualityBody 3301) }
    { ErrNo := 3301, ErrMsg := "speech quality error.", Result := [] }
    rfl rfl rfl rfl (by decide) (by decide)

/-- C14, as stated, fails: two answers that differ in `err_no` (3301 and 3302)
and agree in `err_msg` give the same error, so the error does not carry the
code. -/
theorem audio2text_error_without_code :
    ((Double.speechError 3301).unmarshalAudio2Text (Double.qualityBody 3301)).1.ErrNo = 3301 ∧
      ((Double.speechError 3302).unmarshalAudio2Text (Double.qualityBody 3302)).1.ErrNo = 3302 ∧
      (audio2text (Double.speechError 3301) "in.amr" Double.staged).1 =
        Outcome.ret ("", some (Err.errorf "Audio2Text failed, speech quality error.")) ∧
      (audio2text (Double.speechError 3302) "in.amr" Double.staged).1 =
        (audio2text (Double.speechError 3301) "in.amr" Double.staged).1 := by
  decide

/-- C15. Let `cmd` be the `ffmpeg` command line and `w1` the world the tool
leaves. If the tool fails, `convertAudioFile` returns its error and does
nothing more: the file system is as the tool left it, the input file
included. If the tool succeeds, `convertAudioFile` calls `os.Remove` on the
input file and returns what that call returns, so it returns nil exactly when
the tool and the removal both succeeded, and then the input file is gone. -/
theorem convertAudioFile_contract (env : Env) (beforeFile afterAmrFile cmd : String)
    (w w1 : World)
    (hcmd : cmd = "ffmpeg -y -i " ++ beforeFile ++
      " -acodec amr_wb -ac 1 -ar 16000 -ab 23850 " ++ afterAmrFile)
    (hw1 : w1 = { w.log (Event.exec cmd) with files := (env.exec w cmd).2 }) :
    (∀ err, (env.exec w cmd).1 = some err →
        convertAudioFile env beforeFile afterAmrFile w = (some err, w1)) ∧
      ((env.exec w cmd).1 = none →
        convertAudioFile env beforeFile afterAmrFile w = osRemove env beforeFile w1 ∧
        (convertAudioFile env beforeFile afterAmrFile w).2.trace =
          w.trace ++ [Event.exec cmd, Event.remove beforeFile]) ∧
      ((convertAudioFile env beforeFile afterAmrFile w).1 = none ↔
        (env.exec w cmd).1 = none ∧ (osRemove env beforeFile w1).1 = none) ∧
      ((convertAudioFile env beforeFile afterAmrFile w).1 = none →
        (convertAudioFile env beforeFile afterAmrFile w).2.files.read beforeFile = none) := by
  subst hcmd hw1
  have hrm : ∀ w0 : World, (osRemove env beforeFile w0).2.trace =
      w0.trace ++ [Event.remove beforeFile] := fun w0 => (osRemove_calls rfl).1
  have hgone : ∀ w0 : World, (osRemove env beforeFile w0).1 = none →
      (osRemove env beforeFile w0).2.files.read beforeFile = none := by
    intro w0 h
    unfold osRemove at h ⊢
    split at h
    · simp at h
    · split at h
      · simp at h
      · rename_i h2 _ h3
        simp only [h2, h3]
        exact Files.read_delete _ _
  unfold convertAudioFile
  simp only [execBash]
  cases hx : (env.exec w ("ffmpeg -y -i " ++ beforeFile ++
      " -acodec amr_wb -ac 1 -ar 16000 -ab 23850 " ++ afterAmrFile)).1 with
  | some err => simp
  | none =>
    simp only []
    generalize hr : osRemove env beforeFile _ = p
    obtain ⟨r, w2⟩ := p
    have h1 := hrm { w.log (Event.exec ("ffmpeg -y -i " ++ beforeFile ++
      " -acodec amr_wb -ac 1 -ar 16000 -ab 23850 " ++ afterAmrFile)) with
      files := (env.exec w ("ffmpeg -y -i " ++ beforeFile ++
      " -acodec amr_wb -ac 1 -ar 16000 -ab 23850 " ++ afterAmrFile)).2 }
    have h2 := hgone { w.log (Event.exec ("ffmpeg -y -i " ++ beforeFile ++
      " -acodec amr_wb -ac 1 -ar 16000 -ab 23850 " ++ afterAmrFile)) with
      files := (env.exec w ("ffmpeg -y -i " ++ beforeFile ++
      " -acodec amr_wb -ac 1 -ar 16000 -ab 23850 " ++ afterAmrFile)).2 }
    rw [hr] at h1 h2
    simp only [World.log] at h1
    cases r with
    | some err => simp [h1, World.log]
    | none => simpa [h1, World.log] using h2

/-- Witness of C15: on the staged file `in.amr`, a tool that fails leaves the
file in place; a tool that succeeds has it removed. -/
theorem convertAudioFile_contract_witness :
    (convertAudioFile Double.toolBroken "in.amr" "out.amr" Double.staged).1 =
        some (Err.upstream "exit status 1") ∧
      (convertAudioFile Double.toolBroken "in.amr" "out.amr" Double.staged).2.files.read
        "in.amr" = some Double.amrBytes ∧
      (convertAudioFile Double.healthy "in.amr" "out.amr" Double.staged).2.files.read
        "in.amr" = none :=
  ⟨congrArg Prod.fst ((convertAudioFile_contract Double.toolBroken "in.amr" "out.amr" _
      Double.staged _ rfl rfl).1 (Err.upstream "exit status 1") rfl),
   by decide,
   (convertAudioFile_contract Double.healthy "in.amr" "out.amr" _ Double.staged _ rfl rfl).2.2.2
     (by decide)⟩

end NsqTranslate

/-! ## The credential refresh loop -/

namespace NsqTranslate

/-- The function `getToken` makes one request, decodes at most one body, and
touches neither the file system nor the token. -/
theorem getToken_frame (env : AuthEnv) (w : World) :
    (getToken env w).2.files = w.files ∧ (getToken env w).2.token = w.token ∧
      ∃ evs, (getToken env w).2.trace = w.trace ++
        Event.httpGet
          ("https://openapi.baidu.com/oauth/2.0/token?grant_type=client_credentials&client_id=" ++
            "WHdlotz6Il2bnGPtHvtDw3Wa" ++ "&client_secret=" ++
            "LwjawyMjWD15oHgKCgcWhH4kI6PCHXxe") :: evs ∧
        ∀ e ∈ evs, ∃ body, e = Event.jsonUnmarshal body := by
  unfold getToken
  simp only [httpGet]
  split <;> rename_i h <;> simp only [Prod.mk.injEq] at h <;> obtain ⟨-, rfl⟩ := h
  · exact ⟨rfl, rfl, [], by simp [World.log], by simp⟩
  · split
    · exact ⟨rfl, rfl, [], by simp [World.log], by simp⟩
    · rename_i body _
      split <;> exact ⟨rfl, rfl, [Event.jsonUnmarshal body], by simp [World.log], by simp⟩

/-- C17. A pass of the `UpdateToken` loop in which `getToken` returns an
error, or in which the credential file cannot be written, ends the process
through `log.Fatal`: however many passes the loop is followed for, it has
exited with that error in the world that pass left, so nothing is retried. On
a fetch error that world has the token and the file system of before the
pass, and the trace gained the one request (and at most the decoding of its
answer). -/
theorem updateTokenPass_failure_fatal (env : AuthEnv) (w w1 : World) (err : Err)
    (h : (∃ t, getToken env w = ((t, some err), w1)) ∨
      ∃ t w0, getToken env w = ((t, none), w0) ∧
        ioutilWriteFile env.toEnv "/tmp/translatechat/token" (bytesOf t)
          { w0 with token := t } = (some err, w1)) :
    updateTokenPass env "/tmp/translatechat/" w = Pass.fatal err w1 ∧
      (∀ n, updateTokenLoop env "/tmp/translatechat/" (n + 1) w = Loop.exited err w1) ∧
      ((∃ t, getToken env w = ((t, some err), w1)) →
        w1.token = w.token ∧ w1.files = w.files ∧
        ∃ evs, w1.trace = w.trace ++
          Event.httpGet
            ("https://openapi.baidu.com/oauth/2.0/token?grant_type=client_credentials&client_id=" ++
              "WHdlotz6Il2bnGPtHvtDw3Wa" ++ "&client_secret=" ++
              "LwjawyMjWD15oHgKCgcWhH4kI6PCHXxe") :: evs ∧
          ∀ e ∈ evs, ∃ body, e = Event.jsonUnmarshal body) := by
  have hpath : "/tmp/translatechat/" ++ "token" = "/tmp/translatechat/token" := by decide
  have hpass : updateTokenPass env "/tmp/translatechat/" w = Pass.fatal err w1 := by
    unfold updateTokenPass
    rcases h with ⟨t, hg⟩ | ⟨t, w0, hg, hw⟩
    · simp only [hg]
    · simp only [hg, hpath, hw]
  refine ⟨hpass, ?_, ?_⟩
  · intro n
    unfold updateTokenLoop
    simp only [hpass]
  · rintro ⟨t, hg⟩
    have hf := getToken_frame env w
    rw [hg] at hf
    exact ⟨hf.2.1, hf.1, hf.2.2⟩

/-- Witness of C17: the credential endpoint cannot be reached; and the token
is fetched but the file system is read-only. -/
theorem updateTokenPass_failure_fatal_witness :
    (∀ n, UpdateToken Double.authorityDown (n + 1) Double.start =
        Loop.exited (Err.upstream "dial tcp: i/o timeout")
          ((Double.start.log (Event.mkdirAll "/tmp/translatechat/")).log (Event.httpGet
            ("https://openapi.baidu.com/oauth/2.0/token?grant_type=client_credentials&client_id=" ++
              "WHdlotz6Il2bnGPtHvtDw3Wa" ++ "&client_secret=" ++
              "LwjawyMjWD15oHgKCgcWhH4kI6PCHXxe")))) ∧
      ∃ w1, ∀ n, updateTokenLoop Double.authorityReadOnly "/tmp/translatechat/" (n + 1)
        Double.start = Loop.exited (Err.upstream "read-only file system") w1 :=
  ⟨fun n => (updateTokenPass_failure_fatal Double.authorityDown
      (Double.start.log (Event.mkdirAll "/tmp/translatechat/")) _ _
      (Or.inl ⟨"", rfl⟩)).2.1 n,
   ⟨_, fun n => (updateTokenPass_failure_fatal Double.authorityReadOnly Double.start _ _
      (Or.inr ⟨"24.fresh", _, rfl, rfl⟩)).2.1 n⟩⟩

end NsqTranslate

/-! ## The HTTP server: the end-to-end example -/

namespace TcpBoltDB

/-- C20, amended. Text message in the HTTP server. If the directory
`upload/translate/` can be created, the translation service answers the
request for `(FromLang, ToLang, FromText)` with a body that decodes without
error into a result whose first segment has `dst = d`, and `text2audio`,
called on `d` with the result files named after the decimal clock reading
`ts`, returns nil, then `translate` returns nil, `ToText` is `d`, `ToAudioUrl`
is `download/translate/` followed by `ts` and `_result.amr`, and no other
field changes. -/
theorem server_translate_text_example (env : ServerEnv) (msg : TransMsgJson)
    (w w1 w2 w4 : World) (url d ts : String) (res : HttpResponse) (body : Bytes)
    (resp : TransResp) (seg : TransSegment) (rest : List TransSegment)
    (hcat : msg.Catalog = "text")
    (hmk : osMkdirAll env.toEnv "upload/translate/" w = (none, w1))
    (hurl : url = "http://api.fanyi.baidu.com/api/trans/vip/translate?q=" ++
      env.queryEscape msg.FromText ++ "&from=" ++ msg.FromLang ++ "&to=" ++ msg.ToLang ++
      "&appid=" ++ "20170714000064493" ++ "&salt=" ++ formatInt (env.now w1) ++ "&sign=" ++
      env.md5hex ("20170714000064493" ++ msg.FromText ++ formatInt (env.now w1) ++
        "1F0H8Oh1YZX2U9pqdIMP"))
    (hget : env.httpGet (w1.log Event.now) url = Except.ok res)
    (hbody : res.body = Except.ok body)
    (hdec : env.unmarshalTransResp body = (resp, none))
    (hseg : resp.TransResult = seg :: rest) (hd : seg.Dst = d)
    (hw2 : w2 = ((w1.log Event.now).log (Event.httpGet url)).log (Event.jsonUnmarshal body))
    (hts : ts = formatInt (env.now w2))
    (htts : text2audio env d ("upload/translate/" ++ ts ++ "_result.mp3")
      ("upload/translate/" ++ ts ++ "_result.amr") (w2.log Event.now) = (Run.ret none, w4)) :
    translate env msg w =
      (Run.ret none,
        { msg with
          ToText := d
          ToAudioUrl := "download/translate/" ++ ts ++ "_result.amr" },
        w4) := by
  subst hw2 hts hd
  have htr : translateText env.toEnv msg.FromLang msg.ToLang msg.FromText w1 =
      (Outcome.ret (seg.Dst, none),
        ((w1.log Event.now).log (Event.httpGet url)).log (Event.jsonUnmarshal body)) := by
    unfold translateText
    simp only [timeNowUnix, httpGet, ← hurl, hget, hbody, hdec, hseg, List.length_cons]
    simp
  unfold translate
  rw [if_pos hcat]
  simp only [hmk, htr]
  simp only [timeNowUnix] at htts ⊢
  simp only [htts]

/-- Witness of C20 (amended): the message of the example, `你好` from `zh` to
`en`, with a translation service that answers `dst = "Hello"` and the clock at
1500000000. -/
theorem server_translate_text_example_witness :
    (translate Double.server Double.exampleMsg Double.serving).1 = Run.ret none ∧
      (translate Double.server Double.exampleMsg Double.serving).2.1 =
        { Double.exampleMsg with
          ToText := "Hello"
          ToAudioUrl := "download/translate/1500000000_result.amr" } :=
  have h := server_translate_text_example Double.server Double.exampleMsg Double.serving
    _ _ _ _ "Hello" "1500000000"
    { contentType := "application/json", body := Except.ok Double.helloBody }
    Double.helloBody
    { From := "zh", To := "en", TransResult := [{ Src := "你好", Dst := "Hello" }] }
    { Src := "你好", Dst := "Hello" } [] rfl rfl rfl rfl rfl (by decide) rfl rfl rfl rfl rfl
  ⟨congrArg Prod.fst h, congrArg (fun x => x.2.1) h⟩

/-- C20, as stated, fails: the translation service answers `dst = "Hello"` and
text-to-speech succeeds, but the directory `upload/translate/` cannot be
created, and `translate` returns that error with `ToText` and `ToAudioUrl`
still empty. -/
theorem server_translate_without_directory :
    (translateText Double.serverNoDir.toEnv "zh" "en" "你好" Double.serving).1 =
        Outcome.ret ("Hello", none) ∧
      (text2audio Double.serverNoDir "Hello" "upload/translate/1500000000_result.mp3"
        "upload/translate/1500000000_result.amr" Double.serving).1 = Run.ret none ∧
      (translate Double.serverNoDir Double.exampleMsg Double.serving).1 =
        Run.ret (some (Err.upstream "permission denied")) ∧
      (translate Double.serverNoDir Double.exampleMsg Double.serving).2.1 =
        Double.exampleMsg := by
  decide

end TcpBoltDB

/-! ## The translation request -/

namespace NsqTranslate

/-- C19 fails on the code: `FromLang` and `ToLang` are put into the URL as
they are. For the languages `zh` and `en` the query parses to the six
parameters `q`, `from`, `to`, `appid`, `salt`, `sign` with the expected
values; for `FromLang = "zh&to=fr"` it parses to seven parameters, with
`from = zh` and two values of `to`. -/
theorem translateText_url_languages_unescaped :
    (translateText Double.healthy "zh" "en" "你好" Double.start).2.trace.get? 1 =
        some (Event.httpGet ("http://api.fanyi.baidu.com/api/trans/vip/translate" ++
          "?q=%E4%BD%A0%E5%A5%BD&from=zh&to=en&appid=20170714000064493" ++
          "&salt=1500000000&sign=d41d8cd98f00b204e9800998ecf8427e")) ∧
      parseQuery (rawQuery ("http://api.fanyi.baidu.com/api/trans/vip/translate" ++
          "?q=%E4%BD%A0%E5%A5%BD&from=zh&to=en&appid=20170714000064493" ++
          "&salt=1500000000&sign=d41d8cd98f00b204e9800998ecf8427e")) =
        [(bytesOf "q", bytesOf "你好"), (bytesOf "from", bytesOf "zh"),
          (bytesOf "to", bytesOf "en"), (bytesOf "appid", bytesOf "20170714000064493"),
          (bytesOf "salt", bytesOf "1500000000"),
          (bytesOf "sign", bytesOf "d41d8cd98f00b204e9800998ecf8427e")] ∧
      (translateText Double.healthy "zh&to=fr" "en" "你好" Double.start).2.trace.get? 1 =
        some (Event.httpGet ("http://api.fanyi.baidu.com/api/trans/vip/translate" ++
          "?q=%E4%BD%A0%E5%A5%BD&from=zh&to=fr&to=en&appid=20170714000064493" ++
          "&salt=1500000000&sign=d41d8cd98f00b204e9800998ecf8427e")) ∧
      parseQuery (rawQuery ("http://api.fanyi.baidu.com/api/trans/vip/translate" ++
          "?q=%E4%BD%A0%E5%A5%BD&from=zh&to=fr&to=en&appid=20170714000064493" ++
          "&salt=1500000000&sign=d41d8cd98f00b204e9800998ecf8427e")) =
        [(bytesOf "q", bytesOf "你好"), (bytesOf "from", bytesOf "zh"),
          (bytesOf "to", bytesOf "fr"), (bytesOf "to", bytesOf "en"),
          (bytesOf "appid", bytesOf "20170714000064493"),
          (bytesOf "salt", bytesOf "1500000000"),
          (bytesOf "sign", bytesOf "d41d8cd98f00b204e9800998ecf8427e")] := by
  decide

end NsqTranslate

/-! ## The envelope round trip -/

/-- One character of a string literal: the scanner reads back what
`json.Marshal` wrote, in one step. -/
theorem scanString_escapeRune (c : Char) (hc : 0x20 ≤ c.toNat) (n : Nat)
    (rest acc : List Char) :
    scanString (n + 1) (escapeRune c ++ rest) acc = scanString n rest (acc ++ [c]) := by
  by_cases h1 : c = '"'
  · subst h1
    rfl
  by_cases h2 : c = '\\'
  · subst h2
    rfl
  by_cases h3 : c = '<'
  · subst h3
    rfl
  by_cases h4 : c = '>'
  · subst h4
    rfl
  by_cases h5 : c = '&'
  · subst h5
    rfl
  by_cases h6 : c.toNat = 0x2028
  · have : c = Char.ofNat 0x2028 := by
      rw [← h6, Char.ofNat_toNat]
    subst this
    rfl
  by_cases h7 : c.toNat = 0x2029
  · have : c = Char.ofNat 0x2029 := by
      rw [← h7, Char.ofNat_toNat]
    subst this
    rfl
  have hn : c ≠ '\n' := by
    intro h
    subst h
    simp at hc
  have hr : c ≠ '\r' := by
    intro h
    subst h
    simp at hc
  have ht : c ≠ '\t' := by
    intro h
    subst h
    simp at hc
  have hlt : ¬ c.toNat < 0x20 := by omega
  have hesc : escapeRune c = [c] := by
    unfold escapeRune
    simp [h1, h2, h3, h4, h5, h6, h7, hn, hr, ht, hlt]
  rw [hesc]
  simp [scanString, h1, h2, hlt]

/-- A whole string literal: the scanner reads back the string. -/
theorem scanString_flatMap (s : List Char) (hs : ∀ c ∈ s, 0x20 ≤ c.toNat) (n : Nat)
    (hn : s.length + 1 ≤ n) (rest acc : List Char) :
    scanString n (s.flatMap escapeRune ++ '"' :: rest) acc = some (String.mk (acc ++ s), rest) := by
  induction s generalizing n acc with
  | nil =>
    obtain ⟨k, rfl⟩ : ∃ k, n = k + 1 := ⟨n - 1, by simp at hn; omega⟩
    simp [scanString]
  | cons c s ih =>
    obtain ⟨k, rfl⟩ : ∃ k, n = k + 1 := ⟨n - 1, by simp at hn; omega⟩
    rw [List.flatMap_cons, List.append_assoc,
      scanString_escapeRune c (hs c (List.mem_cons_self c s)),
      ih (fun x hx => hs x (List.mem_cons_of_mem c hx)) k (by simp at hn; omega)]
    simp

/-- Escaping never shortens a string. -/
theorem length_le_flatMap_escapeRune (s : List Char) :
    s.length ≤ (s.flatMap escapeRune).length := by
  induction s with
  | nil => simp
  | cons c s ih =>
    have hc : 1 ≤ (escapeRune c).length := by
      unfold escapeRune
      repeat' split
      all_goals simp
    rw [List.flatMap_cons, List.length_append, List.length_cons]
    omega

/-- A quoted string at the head of a text is read back as the string. -/
theorem scanString_quoteText (s : String) (hs : ∀ c ∈ s.data, 0x20 ≤ c.toNat)
    (rest : List Char) :
    scanString ((s.data.flatMap escapeRune ++ '"' :: rest).length + 1)
      (s.data.flatMap escapeRune ++ '"' :: rest) [] = some (s, rest) := by
  rw [scanString_flatMap s.data hs _ _ rest []]
  · simp
  · have h := length_le_flatMap_escapeRune s.data
    rw [List.length_append]
    omega

/-- A quoted string begins with a quote. -/
theorem quoteText_append (s : String) (rest : List Char) :
    quoteText s ++ rest = '"' :: (s.data.flatMap escapeRune ++ '"' :: rest) := by
  simp [quoteText]

/-- A string value at the head of a text. -/
theorem parseValue_quoteText (n : Nat) (s : String) (hs : ∀ c ∈ s.data, 0x20 ≤ c.toNat)
    (rest : List Char) :
    parseValue (n + 1) (quoteText s ++ rest) = some (Json.str s, rest) := by
  have hsk : ∀ X : List Char, skipSpace ('"' :: X) = '"' :: X := fun _ => rfl
  rw [parseValue, quoteText_append, hsk]
  simp only [↓reduceIte, scanString_quoteText s hs rest]

/-- A member of an object: key, colon and string value are read, and the text
goes on with what follows the value. -/
theorem parseMembers_step (n : Nat) (key val : String)
    (hk : ∀ c ∈ key.data, 0x20 ≤ c.toNat) (hv : ∀ c ∈ val.data, 0x20 ≤ c.toNat)
    (d : Char) (rest : List Char) (acc : List (String × Json)) (hd : isSpace d = false) :
    parseMembers (n + 2) (quoteText key ++ ':' :: (quoteText val ++ d :: rest)) acc =
      if d = ',' then parseMembers (n + 1) rest (acc ++ [(key, Json.str val)])
      else if d = '}' then some (Json.object (acc ++ [(key, Json.str val)]), rest)
      else none := by
  have hsk : ∀ X : List Char, skipSpace ('"' :: X) = '"' :: X := fun _ => rfl
  have hsc : ∀ X : List Char, skipSpace (':' :: X) = ':' :: X := fun _ => rfl
  have hsd : skipSpace (d :: rest) = d :: rest := by
    simp [skipSpace, hd]
  rw [parseMembers, quoteText_append, hsk]
  simp only [↓reduceIte, scanString_quoteText key hk, hsc,
    parseValue_quoteText n val hv (d :: rest), hsd]

/-- A member of an object that is followed by another member. -/
theorem parseMembers_member (n : Nat) (key val : String)
    (hk : ∀ c ∈ key.data, 0x20 ≤ c.toNat) (hv : ∀ c ∈ val.data, 0x20 ≤ c.toNat)
    (rest : List Char) (acc : List (String × Json)) :
    parseMembers (n + 2) (quoteText key ++ ':' :: (quoteText val ++ ',' :: rest)) acc =
      parseMembers (n + 1) rest (acc ++ [(key, Json.str val)]) := by
  rw [parseMembers_step n key val hk hv ',' rest acc rfl]
  rfl

/-- The last member of an object. -/
theorem parseMembers_last (n : Nat) (key val : String)
    (hk : ∀ c ∈ key.data, 0x20 ≤ c.toNat) (hv : ∀ c ∈ val.data, 0x20 ≤ c.toNat)
    (rest : List Char) (acc : List (String × Json)) :
    parseMembers (n + 2) (quoteText key ++ ':' :: (quoteText val ++ '}' :: rest)) acc =
      some (Json.object (acc ++ [(key, Json.str val)]), rest) := by
  rw [parseMembers_step n key val hk hv '}' rest acc rfl]
  rfl

/-- Without control characters: every character is U+0020 or above. -/
theorem plainText_noControl {s : String} (h : plainText s = true) :
    ∀ c ∈ s.data, 0x20 ≤ c.toNat := by
  intro c hc
  have h1 := List.all_eq_true.mp h c hc
  simp only [plainRune, decide_eq_true_eq] at h1
  omega

/-- The scanner reads the text `json.Marshal` wrote for an envelope back as
the value of the envelope, when no field holds a control character. -/
theorem parseText_marshalText (m : ChatMsgJson)
    (h1 : ∀ c ∈ m.Catalog.data, 0x20 ≤ c.toNat) (h2 : ∀ c ∈ m.Time.data, 0x20 ≤ c.toNat)
    (h3 : ∀ c ∈ m.FromUser.data, 0x20 ≤ c.toNat) (h4 : ∀ c ∈ m.ToUser.data, 0x20 ≤ c.toNat)
    (h5 : ∀ c ∈ m.FromLang.data, 0x20 ≤ c.toNat) (h6 : ∀ c ∈ m.ToLang.data, 0x20 ≤ c.toNat)
    (h7 : ∀ c ∈ m.FromText.data, 0x20 ≤ c.toNat) (h8 : ∀ c ∈ m.FromAudio.data, 0x20 ≤ c.toNat)
    (h9 : ∀ c ∈ m.ToText.data, 0x20 ≤ c.toNat)
    (h10 : ∀ c ∈ m.ToAudioUrl.data, 0x20 ≤ c.toNat) :
    parseText (marshalText m) = some (jsonOfChatMsg m) := by
  have hlen : ∃ k, (marshalText m).length + 1 = k + 12 := by
    refine ⟨(marshalText m).length + 1 - 12, ?_⟩
    have : 11 ≤ (marshalText m).length := by
      simp only [marshalText, quoteText, List.length_cons, List.length_append]
      omega
    omega
  obtain ⟨k, hk⟩ := hlen
  have hsb : ∀ X : List Char, skipSpace ('{' :: X) = '{' :: X := fun _ => rfl
  have hsq : ∀ X : List Char, skipSpace ('"' :: X) = '"' :: X := fun _ => rfl
  have hval : parseValue (k + 12) (marshalText m) = some (jsonOfChatMsg m, []) := by
    rw [parseValue, marshalText, hsb]
    have hb1 : ¬ ('{' : Char) = '"' := by decide
    simp only [if_neg hb1, ↓reduceIte]
    rw [quoteText_append, hsq]
    simp only []
    rw [← quoteText_append]
    rw [parseMembers_member (k + 9) "Catalog" m.Catalog (by decide) h1,
      parseMembers_member (k + 8) "Time" m.Time (by decide) h2,
      parseMembers_member (k + 7) "FromUser" m.FromUser (by decide) h3,
      parseMembers_member (k + 6) "ToUser" m.ToUser (by decide) h4,
      parseMembers_member (k + 5) "FromLang" m.FromLang (by decide) h5,
      parseMembers_member (k + 4) "ToLang" m.ToLang (by decide) h6,
      parseMembers_member (k + 3) "FromText" m.FromText (by decide) h7,
      parseMembers_member (k + 2) "FromAudio" m.FromAudio (by decide) h8,
      parseMembers_member (k + 1) "ToText" m.ToText (by decide) h9,
      parseMembers_last k "ToAudioUrl" m.ToAudioUrl (by decide) h10]
    rfl
  unfold parseText
  rw [hk, hval]
  rfl

/-- Decoding the value of an envelope into a zero `ChatMsgJson` gives the
envelope back, without error. -/
theorem decodeChatMsg_jsonOfChatMsg (m : ChatMsgJson) :
    NsqTranslate.decodeChatMsg (jsonOfChatMsg m) {} = (m, none) := by
  cases m
  rfl

/-! ## UTF-8: decoding what was encoded -/

theorem byte_tail (x : UInt8) : (x &&& 63 ||| 128).toNat = 128 + x.toNat % 64 := by
  rcases x with ⟨⟨k⟩⟩
  revert k
  decide

theorem byte_head2 (x : UInt8) : (x &&& 31 ||| 192).toNat = 192 + x.toNat % 32 := by
  rcases x with ⟨⟨k⟩⟩
  revert k
  decide

theorem byte_head3 (x : UInt8) : (x &&& 15 ||| 224).toNat = 224 + x.toNat % 16 := by
  rcases x with ⟨⟨k⟩⟩
  revert k
  decide

theorem byte_head4 (x : UInt8) : (x &&& 7 ||| 240).toNat = 240 + x.toNat % 8 := by
  rcases x with ⟨⟨k⟩⟩
  revert k
  decide

theorem toNat_shiftRight (v k : UInt32) (n : Nat) (hk : (UInt32.mod k 32).toBitVec.toNat = n) :
    (v >>> k).toNat = v.toNat / 2 ^ n := by
  show (v.toBitVec >>> (k.mod 32).toBitVec).toNat = _
  simp only [BitVec.ushiftRight_eq', BitVec.toNat_ushiftRight, Nat.shiftRight_eq_div_pow, hk]
  rfl

theorem toNat_toUInt8 (v : UInt32) : v.toUInt8.toNat = v.toNat % 256 := by
  show (UInt8.ofNat v.toNat).toNat = _
  simp [UInt8.ofNat, UInt8.toNat]

/-- Decoding the UTF-8 bytes of a character gives the character back. -/
theorem utf8Head_encodeChar (c : Char) (rest : List UInt8) :
    utf8Head (String.utf8EncodeChar c ++ rest) = some (c, rest) := by
  have hc : Char.ofNat c.val.toNat = c := Char.ofNat_toNat c
  have hv : c.val.toNat < 1114112 := by
    rcases c.valid with h | h <;> omega
  have s6 := toNat_shiftRight c.val 6 6 (by decide)
  have s12 := toNat_shiftRight c.val 12 12 (by decide)
  have s18 := toNat_shiftRight c.val 18 18 (by decide)
  unfold String.utf8EncodeChar
  simp only []
  by_cases h1 : c.val ≤ 127
  · have h1n : c.val.toNat ≤ 127 := h1
    rw [if_pos h1]
    simp only [List.singleton_append, utf8Head, toNat_toUInt8]
    rw [if_pos (by omega), show c.val.toNat % 256 = c.val.toNat from by omega, hc]
  · have h1n : ¬ c.val.toNat ≤ 127 := h1
    rw [if_neg h1]
    by_cases h2 : c.val ≤ 2047
    · have h2n : c.val.toNat ≤ 2047 := h2
      rw [if_pos h2]
      simp only [List.cons_append, List.nil_append, utf8Head, byte_tail, byte_head2,
        toNat_toUInt8, s6]
      rw [if_neg (by omega), if_pos (by omega)]
      rw [show (192 + c.val.toNat / 2 ^ 6 % 256 % 32 - 192) * 64 +
        (128 + c.val.toNat % 256 % 64 - 128) = c.val.toNat from by omega, hc]
    · have h2n : ¬ c.val.toNat ≤ 2047 := h2
      rw [if_neg h2]
      by_cases h3 : c.val ≤ 65535
      · have h3n : c.val.toNat ≤ 65535 := h3
        rw [if_pos h3]
        simp only [List.cons_append, List.nil_append, utf8Head, byte_tail, byte_head3,
          toNat_toUInt8, s6, s12]
        rw [if_neg (by omega), if_neg (by omega), if_pos (by omega)]
        rw [show ((224 + c.val.toNat / 2 ^ 12 % 256 % 16 - 224) * 64 +
          (128 + c.val.toNat / 2 ^ 6 % 256 % 64 - 128)) * 64 +
          (128 + c.val.toNat % 256 % 64 - 128) = c.val.toNat from by omega, hc]
      · have h3n : ¬ c.val.toNat ≤ 65535 := h3
        rw [if_neg h3]
        simp only [List.cons_append, List.nil_append, utf8Head, byte_tail, byte_head4,
          toNat_toUInt8, s6, s12, s18]
        rw [if_neg (by omega), if_neg (by omega), if_neg (by omega)]
        rw [show (((240 + c.val.toNat / 2 ^ 18 % 256 % 8 - 240) * 64 +
          (128 + c.val.toNat / 2 ^ 12 % 256 % 64 - 128)) * 64 +
          (128 + c.val.toNat / 2 ^ 6 % 256 % 64 - 128)) * 64 +
          (128 + c.val.toNat % 256 % 64 - 128) = c.val.toNat from by omega, hc]

theorem length_utf8EncodeChar_pos (c : Char) : 0 < (String.utf8EncodeChar c).length := by
  unfold String.utf8EncodeChar
  simp only []
  split
  · simp
  · split
    · simp
    · split <;> simp

theorem utf8CharsUpTo_flatMap (l : List Char) :
    ∀ n, l.length ≤ n → utf8CharsUpTo n (l.flatMap String.utf8EncodeChar) = l := by
  induction l with
  | nil =>
    intro n _
    cases n <;> rfl
  | cons c rest ih =>
    intro n hn
    cases n with
    | zero => simp at hn
    | succ n =>
      rw [List.flatMap_cons, utf8CharsUpTo, utf8Head_encodeChar]
      simp only []
      rw [ih n (by simpa using hn)]

theorem length_le_flatMap_utf8EncodeChar (l : List Char) :
    l.length ≤ (l.flatMap String.utf8EncodeChar).length := by
  induction l with
  | nil => simp
  | cons c rest ih =>
    rw [List.flatMap_cons, List.length_append, List.length_cons]
    have := length_utf8EncodeChar_pos c
    omega

/-- Decoding the UTF-8 bytes of a string gives the string back. -/
theorem utf8String_bytesOf (s : String) : utf8String (bytesOf s) = s := by
  unfold utf8String utf8Chars bytesOf
  rw [utf8CharsUpTo_flatMap _ _ (length_le_flatMap_utf8EncodeChar _)]

/-! ## The packet codec: decoding what was encoded -/

theorem toNat_ofNat8 (k : Nat) : (UInt8.ofNat k).toNat = k % 256 := by
  simp [UInt8.ofNat, UInt8.toNat]

theorem decodeLength_encodeLength (n : Nat) (hn : n ≤ 268435455) (rest : Bytes) :
    decodeLength (encodeLength n ++ rest) = some (n, rest) := by
  unfold encodeLength
  by_cases h1 : n < 128
  · rw [if_pos h1]
    simp only [List.singleton_append, decodeLength, toNat_ofNat8]
    rw [if_pos (by omega), show n % 256 = n from by omega]
  · rw [if_neg h1]
    by_cases h2 : n < 16384
    · rw [if_pos h2]
      simp only [List.cons_append, List.nil_append, decodeLength, toNat_ofNat8]
      rw [if_neg (by omega), if_pos (by omega)]
      rw [show (n % 128 + 128) % 256 - 128 + 128 * (n / 128 % 256) = n from by omega]
    · rw [if_neg h2]
      by_cases h3 : n < 2097152
      · rw [if_pos h3]
        simp only [List.cons_append, List.nil_append, decodeLength, toNat_ofNat8]
        rw [if_neg (by omega), if_neg (by omega), if_pos (by omega)]
        rw [show (n % 128 + 128) % 256 - 128 + 128 * ((n / 128 % 128 + 128) % 256 - 128) +
          16384 * (n / 16384 % 256) = n from by omega]
      · rw [if_neg h3]
        simp only [List.cons_append, List.nil_append, decodeLength, toNat_ofNat8]
        rw [if_neg (by omega), if_neg (by omega), if_neg (by omega), if_pos (by omega)]
        rw [show (n % 128 + 128) % 256 - 128 + 128 * ((n / 128 % 128 + 128) % 256 - 128) +
          16384 * ((n / 16384 % 128 + 128) % 256 - 128) + 2097152 * (n / 2097152 % 256) = n
          from by omega]

theorem be16_value (n : Nat) (hn : n ≤ 65535) :
    256 * (UInt8.ofNat (n / 256)).toNat + (UInt8.ofNat (n % 256)).toNat = n := by
  rw [toNat_ofNat8, toNat_ofNat8]
  omega

theorem take_append_length {α : Type} (a b : List α) : (a ++ b).take a.length = a := by
  simp

theorem drop_append_length {α : Type} (a b : List α) : (a ++ b).drop a.length = b := by
  simp

/-- The flags of the first byte of an encoded PUBLISH packet, read back. -/
theorem publish_flags (dup retain : Bool) (qos : Nat) (hq : qos ≤ 2) :
    (UInt8.ofNat (48 + 8 * dup.toNat + 2 * qos + retain.toNat)).toNat / 16 = 3 ∧
      decide ((UInt8.ofNat (48 + 8 * dup.toNat + 2 * qos + retain.toNat)).toNat % 16 / 8 % 2 = 1) =
        dup ∧
      (UInt8.ofNat (48 + 8 * dup.toNat + 2 * qos + retain.toNat)).toNat % 16 / 2 % 4 = qos ∧
      decide ((UInt8.ofNat (48 + 8 * dup.toNat + 2 * qos + retain.toNat)).toNat % 16 % 2 = 1) =
        retain := by
  rw [toNat_ofNat8]
  cases dup <;> cases retain <;> simp only [Bool.toNat_true, Bool.toNat_false] <;>
    refine ⟨by omega, ?_, by omega, ?_⟩ <;> simp <;> omega

/-- Decoding the bytes of an encoded PUBLISH packet gives a PUBLISH packet
with the same topic, payload and flags, and with the same packet identifier
when the QoS is not 0. -/
theorem Packet.Decode_Encode (p : Publish) (buff : Bytes) (h : Packet.Encode p = Except.ok buff) :
    ∃ q, Packet.Decode buff = Except.ok (Packet.publish q) ∧ q.topic = p.topic ∧
      q.payload = p.payload ∧ q.dup = p.dup ∧ q.qos = p.qos ∧ q.retain = p.retain ∧
      (p.qos ≠ 0 → q.packetId = p.packetId) := by
  unfold Packet.Encode at h
  simp only [] at h
  split_ifs at h with c1 c2 c3 c4 c5
  · -- QoS 0
    simp only [Bool.or_eq_true, Bool.not_eq_true', decide_eq_true_eq, not_or,
      Bool.not_eq_false, not_lt, Bool.and_eq_true, not_and] at c1 c2 c5
    obtain ⟨hvalid, htl⟩ := c1
    obtain ⟨hq2, hq0⟩ := c2
    obtain ⟨f1, f2, f3, f4⟩ := publish_flags p.dup p.retain p.qos hq2
    simp only [Except.ok.injEq] at h
    rw [← h]
    unfold Packet.Decode
    simp only [decodeLength_encodeLength _ c5, lt_irrefl, if_false, f1, if_true,
      List.take_length]
    unfold decodePublish
    simp only [f2, f3, f4, be16, List.cons_append, List.nil_append, be16_value _ htl,
      take_append_length, drop_append_length, utf8String_bytesOf, List.length_append]
    have g1 : ¬ (decide (2 < p.qos) || decide (p.qos = 0) && p.dup) = true := by
      simp only [Bool.or_eq_true, decide_eq_true_eq, Bool.and_eq_true, not_or, not_lt, not_and]
      exact ⟨hq2, hq0⟩
    have g2 : ¬ (bytesOf p.topic).length + p.payload.length < (bytesOf p.topic).length := by
      omega
    have g3 : ¬ (decide (bytesOf p.topic ≠ bytesOf p.topic) || !validTopic p.topic) = true := by
      simp [hvalid]
    rw [if_neg g1, if_neg g2, if_neg g3, if_pos c4]
    exact ⟨_, rfl, rfl, rfl, rfl, rfl, rfl, fun hne => absurd c4 hne⟩
  · -- QoS 1 or 2
    rename_i c5
    simp only [Bool.or_eq_true, Bool.not_eq_true', decide_eq_true_eq, not_or,
      Bool.not_eq_false, not_lt, Bool.and_eq_true, not_and] at c1 c2 c3 c5
    obtain ⟨hvalid, htl⟩ := c1
    obtain ⟨hq2, hq0⟩ := c2
    have hpos : 0 < p.qos := Nat.pos_of_ne_zero c4
    obtain ⟨hid0, hid1⟩ := c3 hpos
    obtain ⟨f1, f2, f3, f4⟩ := publish_flags p.dup p.retain p.qos hq2
    simp only [Except.ok.injEq] at h
    rw [← h]
    unfold Packet.Decode
    simp only [decodeLength_encodeLength _ c5, lt_irrefl, if_false, f1, if_true,
      List.take_length]
    unfold decodePublish
    simp only [f2, f3, f4, be16, List.cons_append, List.nil_append, be16_value _ htl,
      be16_value _ hid1, take_append_length, drop_append_length, utf8String_bytesOf,
      List.length_append, List.length_cons]
    have g1 : ¬ (decide (2 < p.qos) || decide (p.qos = 0) && p.dup) = true := by
      simp only [Bool.or_eq_true, decide_eq_true_eq, Bool.and_eq_true, not_or, not_lt, not_and]
      exact ⟨hq2, hq0⟩
    have g2 : ¬ (bytesOf p.topic).length + (p.payload.length + 1 + 1) <
        (bytesOf p.topic).length := by
      omega
    have g3 : ¬ (decide (bytesOf p.topic ≠ bytesOf p.topic) || !validTopic p.topic) = true := by
      simp [hvalid]
    rw [if_neg g1, if_neg g2, if_neg g3, if_neg c4, if_neg hid0]
    exact ⟨_, rfl, rfl, rfl, rfl, rfl, rfl, fun _ => rfl⟩

/-- Every PUBLISH packet the format can carry is encoded: a valid topic of at
most 65535 bytes, QoS 0 without the duplicate flag or QoS 1 or 2 with a packet
identifier between 1 and 65535, and a content within the largest remaining
length. -/
theorem Packet.Encode_valid (p : Publish) (ht : validTopic p.topic = true)
    (hl : (bytesOf p.topic).length ≤ 65535)
    (hq : p.qos = 0 ∧ p.dup = false ∨
      (p.qos = 1 ∨ p.qos = 2) ∧ 0 < p.packetId ∧ p.packetId ≤ 65535)
    (hs : (bytesOf p.topic).length + p.payload.length + 4 ≤ 268435455) :
    ∃ buff, Packet.Encode p = Except.ok buff := by
  unfold Packet.Encode
  simp only [ht, Bool.not_true, Bool.false_or, decide_eq_true_eq]
  rw [if_neg (by omega)]
  have h2 : ((decide (2 < p.qos) || (decide (p.qos = 0) && p.dup)) = true) = False := by
    rcases hq with ⟨h, hd⟩ | ⟨h | h, -⟩ <;> simp [h, *]
  have h3 : ((decide (0 < p.qos) && (decide (p.packetId = 0) || decide (65535 < p.packetId)))
      = true) = False := by
    rcases hq with ⟨h, hd⟩ | ⟨h, h1, h2⟩
    · simp [h]
    · simp only [eq_iff_iff, iff_false, Bool.and_eq_true, Bool.or_eq_true, decide_eq_true_eq]
      omega
  simp only [h2, h3, if_false]
  rw [if_neg]
  · exact ⟨_, rfl⟩
  · have : (if p.qos = 0 then [] else be16 p.packetId).length ≤ 2 := by
      split <;> simp [be16]
    simp only [List.length_append]
    have hb : (be16 (bytesOf p.topic).length).length = 2 := rfl
    omega

/-- What `decodePublish` returns is a packet the format can carry. -/
theorem decodePublish_valid (flags : Nat) (body : Bytes) (q : Publish)
    (h : decodePublish flags body = Except.ok (Packet.publish q)) :
    validTopic q.topic = true ∧ (bytesOf q.topic).length ≤ 65535 ∧
      (q.qos = 0 ∧ q.dup = false ∨
        (q.qos = 1 ∨ q.qos = 2) ∧ 0 < q.packetId ∧ q.packetId ≤ 65535) := by
  unfold decodePublish at h
  simp only [] at h
  by_cases c1 : (decide (2 < flags / 2 % 4) ||
      decide (flags / 2 % 4 = 0) && decide (flags / 8 % 2 = 1)) = true
  · rw [if_pos c1] at h
    simp at h
  rw [if_neg c1] at h
  simp only [Bool.or_eq_true, decide_eq_true_eq, Bool.and_eq_true, not_or, not_lt, not_and] at c1
  obtain ⟨cq, cd⟩ := c1
  split at h
  · rename_i l1 l2 rest
    have hl1 := l1.toNat_lt
    have hl2 := l2.toNat_lt
    by_cases c2 : rest.length < 256 * l1.toNat + l2.toNat
    · rw [if_pos c2] at h
      simp at h
    rw [if_neg c2] at h
    split_ifs at h with c3 c4
    · simp only [Except.ok.injEq, Packet.publish.injEq] at h
      subst h
      simp only [Bool.or_eq_true, decide_eq_true_eq, Bool.not_eq_true', not_or, ne_eq,
        not_not, Bool.not_eq_false] at c3
      refine ⟨c3.2, ?_, Or.inl ⟨c4, ?_⟩⟩
      · simp only []
        rw [c3.1, List.length_take]
        omega
      · simpa using cd c4
    · split at h
      · rename_i i1 i2 payload hd
        have hi1 := i1.toNat_lt
        have hi2 := i2.toNat_lt
        split_ifs at h with c5
        simp only [Except.ok.injEq, Packet.publish.injEq] at h
        subst h
        simp only [Bool.or_eq_true, decide_eq_true_eq, Bool.not_eq_true', not_or, ne_eq,
          not_not, Bool.not_eq_false] at c3
        refine ⟨c3.2, ?_, Or.inr ⟨?_, ?_, ?_⟩⟩
        · simp only []
          rw [c3.1, List.length_take]
          omega
        · simp only []
          omega
        · simp only []
          omega
        · simp only []
          omega
      · simp at h
  · simp at h

/-- A PUBLISH packet that `Packet.Decode` returns is one the format can carry:
its topic is valid and of at most 65535 bytes, and its QoS, duplicate flag and
packet identifier agree. -/
theorem Packet.Decode_valid (buf : Bytes) (q : Publish)
    (h : Packet.Decode buf = Except.ok (Packet.publish q)) :
    validTopic q.topic = true ∧ (bytesOf q.topic).length ≤ 65535 ∧
      (q.qos = 0 ∧ q.dup = false ∨
        (q.qos = 1 ∨ q.qos = 2) ∧ 0 < q.packetId ∧ q.packetId ≤ 65535) := by
  unfold Packet.Decode at h
  split at h
  · simp at h
  · split at h
    · simp at h
    · split_ifs at h with c1 c2 c3
      · exact decodePublish_valid _ _ _ h
      · simp at h

namespace NsqTranslate

/-- C12. Take the library functions of the handler as modelled: `json.Marshal`
by `jsonMarshalChatMsg`, the JSON scanner by `jsonParseBytes` on UTF-8, and
the packet codec by `Packet.Encode` and `Packet.Decode`. For every PUBLISH
packet, whatever its topic, and every envelope whose fields hold only
printable-ASCII and CJK characters: when encoding the envelope as the payload
of the packet produces bytes, decoding these bytes gives the topic of the
packet and the envelope back, field by field. And encoding does produce bytes
for every packet the format can carry: a valid topic of at most 65535 bytes,
QoS 0 without the duplicate flag or QoS 1 or 2 with a packet identifier, and a
size within the largest remaining length. -/
theorem envelope_round_trip (env : Env) (pubPkt : Publish) (chatMsg : ChatMsgJson)
    (hplain : plainEnvelope chatMsg = true)
    (hmarshal : env.jsonMarshal = fun m => Except.ok (jsonMarshalChatMsg m))
    (hparse : env.jsonParse = jsonParseBytes utf8String)
    (hencode : env.packetEncode = Packet.Encode)
    (hdecode : env.packetDecode = Packet.Decode) :
    (∀ buff, encodeEnvelope env pubPkt chatMsg = Except.ok buff →
      decodeEnvelope env buff = Except.ok (pubPkt.topic, chatMsg)) ∧
    (validTopic pubPkt.topic = true → (bytesOf pubPkt.topic).length ≤ 65535 →
      (pubPkt.qos = 0 ∧ pubPkt.dup = false ∨
        (pubPkt.qos = 1 ∨ pubPkt.qos = 2) ∧ 0 < pubPkt.packetId ∧ pubPkt.packetId ≤ 65535) →
      (bytesOf pubPkt.topic).length + (jsonMarshalChatMsg chatMsg).length + 4 ≤ 268435455 →
      ∃ buff, encodeEnvelope env pubPkt chatMsg = Except.ok buff) := by
  simp only [plainEnvelope, Bool.and_eq_true] at hplain
  obtain ⟨⟨⟨⟨⟨⟨⟨⟨⟨p1, p2⟩, p3⟩, p4⟩, p5⟩, p6⟩, p7⟩, p8⟩, p9⟩, p10⟩ := hplain
  have hjson : jsonUnmarshalChatMsg env (jsonMarshalChatMsg chatMsg) {} = (chatMsg, none) := by
    unfold jsonUnmarshalChatMsg
    rw [hparse]
    unfold jsonParseBytes jsonMarshalChatMsg
    rw [utf8String_bytesOf, parseText_marshalText chatMsg (plainText_noControl p1)
      (plainText_noControl p2) (plainText_noControl p3) (plainText_noControl p4)
      (plainText_noControl p5) (plainText_noControl p6) (plainText_noControl p7)
      (plainText_noControl p8) (plainText_noControl p9) (plainText_noControl p10)]
    exact decodeChatMsg_jsonOfChatMsg chatMsg
  constructor
  · intro buff henc
    unfold encodeEnvelope at henc
    rw [hmarshal, hencode] at henc
    simp only [] at henc
    obtain ⟨q, hq, htopic, hpayload, -⟩ := Packet.Decode_Encode _ _ henc
    unfold decodeEnvelope
    rw [hdecode, hq]
    simp only [hpayload, Publish.SetPayload, hjson, htopic]
  · intro ht hl hq hs
    unfold encodeEnvelope
    rw [hmarshal, hencode]
    exact Packet.Encode_valid (pubPkt.SetPayload (jsonMarshalChatMsg chatMsg)) ht hl hq hs

/-- Witness of C12: an envelope with Chinese and Japanese text, markup, quotes
and a backslash, in a PUBLISH packet at QoS 1 on the topic
`chat/甲/8613800000000`. The bytes begin with the fixed header `0x32`, the
remaining length 248 in two bytes, and the length 22 of the topic. -/
theorem envelope_round_trip_witness :
    ∃ buff, encodeEnvelope Double.gopher Double.chatPkt Double.markupMsg = Except.ok buff ∧
      buff.take 5 = [0x32, 0xf8, 0x01, 0x00, 0x16] ∧
      decodeEnvelope Double.gopher buff =
        Except.ok ("chat/甲/8613800000000", Double.markupMsg) :=
  have h : encodeEnvelope Double.gopher Double.chatPkt Double.markupMsg = Except.ok
      (match encodeEnvelope Double.gopher Double.chatPkt Double.markupMsg with
        | Except.ok b => b
        | Except.error _ => []) := by rfl
  ⟨_, h, by decide,
    (envelope_round_trip Double.gopher Double.chatPkt Double.markupMsg (by decide) rfl rfl rfl
      rfl).1 _ h⟩

end NsqTranslate

/-! ## The calls of the relay pipeline, one by one -/

theorem Made.none (P : Event → Prop) (w : World) : Made P w w :=
  ⟨[], by simp, rfl, by simp⟩

theorem Made.seq {P : Event → Prop} {w w1 w2 : World} (h1 : Made P w w1)
    (h2 : Made P w1 w2) : Made P w w2 := by
  obtain ⟨a, t1, k1, p1⟩ := h1
  obtain ⟨b, t2, k2, p2⟩ := h2
  refine ⟨a ++ b, by rw [t2, t1, List.append_assoc], by rw [k2, k1], ?_⟩
  intro e he
  rcases List.mem_append.mp he with h | h
  · exact p1 e h
  · exact p2 e h

/-- A world that differs from `w.log e` in its files only is `w` after the call `e`. -/
theorem Made.step {P : Event → Prop} {w w2 : World} {e : Event} (he : P e)
    (ht : w2.trace = w.trace ++ [e]) (hk : w2.token = w.token) : Made P w w2 :=
  ⟨[e], ht, hk, by simpa using he⟩

theorem Made.one {P : Event → Prop} (w : World) (e : Event) (he : P e) : Made P w (w.log e) :=
  Made.step he rfl rfl

theorem timeNowUnix_made {P : Event → Prop} (env : Env) (w : World) (h : P Event.now) :
    Made P w (timeNowUnix env w).2 :=
  Made.step h rfl rfl

theorem osMkdirAll_made {P : Event → Prop} {env : Env} {dir : String} {w w2 : World}
    {r : Option Err} (h : osMkdirAll env dir w = (r, w2)) (hp : P (Event.mkdirAll dir)) :
    Made P w w2 := by
  have c : Made P w (osMkdirAll env dir w).2 := Made.step hp rfl rfl
  rwa [h] at c

theorem httpGet_made {P : Event → Prop} {env : Env} {url : String} {w w2 : World}
    {r : Except Err HttpResponse} (h : httpGet env url w = (r, w2))
    (hp : P (Event.httpGet url)) : Made P w w2 := by
  have c : Made P w (httpGet env url w).2 := Made.step hp rfl rfl
  rwa [h] at c

theorem httpPost_made {P : Event → Prop} {env : Env} {url contentType : String} {body : Bytes}
    {w w2 : World} {r : Except Err HttpResponse}
    (h : httpPost env url contentType body w = (r, w2))
    (hp : P (Event.httpPost url contentType body)) : Made P w w2 := by
  have c : Made P w (httpPost env url contentType body w).2 := Made.step hp rfl rfl
  rwa [h] at c

theorem execBash_made {P : Event → Prop} {env : Env} {cmd : String} {w w2 : World}
    {r : Option Err} (h : execBash env cmd w = (r, w2)) (hp : P (Event.exec cmd)) :
    Made P w w2 := by
  have c : Made P w (execBash env cmd w).2 := Made.step hp rfl rfl
  rwa [h] at c

theorem ioutilWriteFile_made {P : Event → Prop} {env : Env} {path : String} {data : Bytes}
    {w w2 : World} {r : Option Err} (h : ioutilWriteFile env path data w = (r, w2))
    (hp : P (Event.writeFile path data)) : Made P w w2 := by
  have c : Made P w (ioutilWriteFile env path data w).2 := by
    unfold ioutilWriteFile
    split <;> exact Made.step hp rfl rfl
  rwa [h] at c

theorem osRemove_made {P : Event → Prop} {env : Env} {path : String} {w w2 : World}
    {r : Option Err} (h : osRemove env path w = (r, w2)) (hp : P (Event.remove path)) :
    Made P w w2 := by
  have c : Made P w (osRemove env path w).2 := by
    unfold osRemove
    split
    · exact Made.step hp rfl rfl
    · split <;> exact Made.step hp rfl rfl
  rwa [h] at c

theorem osOpen_made {P : Event → Prop} {env : Env} {path : String} {w w2 : World}
    {r : Except Err Bytes} (h : osOpen env path w = (r, w2)) (hp : P (Event.openFile path)) :
    Made P w w2 := by
  have c : Made P w (osOpen env path w).2 := by
    unfold osOpen
    split
    · exact Made.step hp rfl rfl
    · split <;> exact Made.step hp rfl rfl
  rwa [h] at c

theorem Made.token {P : Event → Prop} {w w2 : World} (h : Made P w w2) : w2.token = w.token := by
  obtain ⟨_, _, k, _⟩ := h
  exact k

namespace NsqTranslate

theorem translateText_made {P : Event → Prop} (env : Env) (FromLang ToLang FromText : String)
    (w : World) (hnow : P Event.now)
    (hget : P (Event.httpGet ("http://api.fanyi.baidu.com/api/trans/vip/translate?q=" ++
      env.queryEscape FromText ++ "&from=" ++ FromLang ++ "&to=" ++ ToLang ++ "&appid=" ++
      "20170714000064493" ++ "&salt=" ++ formatInt (env.now w) ++ "&sign=" ++
      env.md5hex ("20170714000064493" ++ FromText ++ formatInt (env.now w) ++
        "1F0H8Oh1YZX2U9pqdIMP"))))
    (hjson : ∀ body, P (Event.jsonUnmarshal body)) :
    Made P w (translateText env FromLang ToLang FromText w).2 := by
  have c0 := timeNowUnix_made env w hnow
  unfold translateText
  simp only []
  split <;> rename_i h <;> have c1 := c0.seq (httpGet_made h hget)
  · exact c1
  · split
    · exact c1
    · have c2 := c1.seq (Made.one _ (Event.jsonUnmarshal ‹Bytes›) (hjson _))
      split
      · exact c2
      · split <;> exact c2

theorem convertAudioFile_made {P : Event → Prop} (env : Env) (beforeFile afterAmrFile : String)
    (w : World)
    (hexec : P (Event.exec ("ffmpeg -y -i " ++ beforeFile ++
      " -acodec amr_wb -ac 1 -ar 16000 -ab 23850 " ++ afterAmrFile)))
    (hrm : P (Event.remove beforeFile)) :
    Made P w (convertAudioFile env beforeFile afterAmrFile w).2 := by
  unfold convertAudioFile
  simp only []
  split <;> rename_i h <;> have c0 := execBash_made h hexec
  · exact c0
  · split <;> rename_i h2 <;> exact c0.seq (osRemove_made h2 hrm)

theorem audio2text_made {P : Event → Prop} (env : Env) (audioAmrFile : String) (w : World)
    (hopen : P (Event.openFile audioAmrFile))
    (hpost : ∀ body, P (Event.httpPost ("http://vop.baidu.com/server_api?lan=zh&cuid=" ++
      "TranslateChat" ++ "&token=" ++ w.token) "audio/amr;rate=16000" body))
    (hjson : ∀ body, P (Event.jsonUnmarshal body)) :
    Made P w (audio2text env audioAmrFile w).2 := by
  unfold audio2text
  simp only []
  split <;> rename_i h <;> have c0 := osOpen_made h hopen
  · exact c0
  · rename_i file w1
    have hk : w1.token = w.token := c0.token
    split <;> rename_i h2 <;>
      have c1 := c0.seq (httpPost_made h2 (by rw [hk]; exact hpost file))
    · exact c1
    · split
      · exact c1
      · have c2 := c1.seq (Made.one _ (Event.jsonUnmarshal ‹Bytes›) (hjson _))
        split
        · exact c2
        · split
          · exact c2
          · split <;> exact c2

theorem text2audio_made {P : Event → Prop} (env : Env) (text mp3File saveAudioFile : String)
    (w : World)
    (hget : P (Event.httpGet ("http://tsn.baidu.com/text2audio?tex=" ++ env.queryEscape text ++
      "&lan=zh&cuid=" ++ "TranslateChat" ++ "&ctp=1&tok=" ++ w.token)))
    (hwrite : ∀ body, P (Event.writeFile mp3File body))
    (hexec : P (Event.exec ("lame " ++ mp3File ++ " " ++ saveAudioFile)))
    (hrm : P (Event.remove mp3File)) :
    Made P w (text2audio env text mp3File saveAudioFile w).2 := by
  unfold text2audio
  simp only []
  split <;> rename_i h <;> have c0 := httpGet_made h hget
  · exact c0
  · split
    · exact c0
    · split
      · exact c0
      · split <;> rename_i h2 <;> have c1 := c0.seq (ioutilWriteFile_made h2 (hwrite _))
        · exact c1
        · split <;> rename_i h3 <;> have c2 := c1.seq (execBash_made h3 hexec)
          · exact c2
          · exact c2.seq (osRemove_made (Prod.mk.eta).symm hrm)

end NsqTranslate

namespace NsqTranslate

/-- Every call `translate` makes is a call of the pipeline for the envelope:
there is one reading `ts` of the clock after which every staged file is named,
the text handed to text-to-speech is the `ToText` the call leaves, and on a
nil return `ToAudioUrl` is the download path named after `ts`. -/
theorem translate_pipeline (env : Env) (msg : ChatMsgJson) (w : World) :
    ∃ ts, (∃ w0, ts = formatInt (env.now w0)) ∧
      Made (pipelineCall env msg w.token ts (translate env msg w).2.1.ToText) w
        (translate env msg w).2.2 ∧
      ((translate env msg w).1 = Outcome.ret none →
        (translate env msg w).2.1.ToAudioUrl =
          "download/" ++ msg.FromUser ++ "/" ++ msg.ToUser ++ "/" ++ ts ++ "_result.amr") := by
  unfold translate
  by_cases hcat : msg.Catalog = "text"
  · simp only [if_pos hcat]
    generalize h1 : osMkdirAll env _ w = p1
    obtain ⟨r1, w1⟩ := p1
    have c1 : ∀ ts text, Made (pipelineCall env msg w.token ts text) w w1 :=
      fun _ _ => osMkdirAll_made h1 rfl
    cases r1 with
    | some err => exact ⟨formatInt (env.now w), ⟨w, rfl⟩, c1 _ _, by intro h; simp at h⟩
    | none =>
      simp only []
      have c2 : ∀ ts text, Made (pipelineCall env msg w.token ts text) w
          (translateText env msg.FromLang msg.ToLang msg.FromText w1).2 :=
        fun ts text => (c1 ts text).seq
          (translateText_made env _ _ _ w1 trivial (Or.inl ⟨_, _, rfl⟩) (fun _ => trivial))
      generalize translateText env _ _ _ w1 = p2 at c2 ⊢
      obtain ⟨r2, w2⟩ := p2
      rcases r2 with ⟨t, _ | err⟩ | p
      · simp only []
        have hk : (timeNowUnix env w2).2.token = w.token := (c2 "" "").token
        have c3 : ∀ ts text, Made (pipelineCall env msg w.token ts text) w
            (timeNowUnix env w2).2 :=
          fun ts text => (c2 ts text).seq (timeNowUnix_made env w2 trivial)
        have c4 := (c3 (formatInt (env.now w2)) t).seq
          (text2audio_made env t
            ("../tcpBoltDB/" ++ "upload/" ++ msg.FromUser ++ "/" ++ msg.ToUser ++ "/" ++
              formatInt (timeNowUnix env w2).1 ++ "_result.mp3")
            ("../tcpBoltDB/" ++ "upload/" ++ msg.FromUser ++ "/" ++ msg.ToUser ++ "/" ++
              formatInt (timeNowUnix env w2).1 ++ "_result.amr") (timeNowUnix env w2).2
            (Or.inr (by rw [hk])) (fun _ => Or.inr rfl) (Or.inr rfl) (Or.inr rfl))
        generalize text2audio env _ _ _ (timeNowUnix env w2).2 = p4 at c4 ⊢
        obtain ⟨r4, w4⟩ := p4
        cases r4 with
        | some err => exact ⟨formatInt (env.now w2), ⟨w2, rfl⟩, c4, by intro h; simp at h⟩
        | none => exact ⟨formatInt (env.now w2), ⟨w2, rfl⟩, c4, fun _ => rfl⟩
      · exact ⟨formatInt (env.now w), ⟨w, rfl⟩, c2 _ _, by intro h; simp at h⟩
      · exact ⟨formatInt (env.now w), ⟨w, rfl⟩, c2 _ _, by intro h; simp at h⟩
  · simp only [if_neg hcat]
    generalize h1 : osMkdirAll env _ w = p1
    obtain ⟨r1, w1⟩ := p1
    have c1 : ∀ ts text, Made (pipelineCall env msg w.token ts text) w w1 :=
      fun _ _ => osMkdirAll_made h1 rfl
    cases r1 with
    | some err => exact ⟨formatInt (env.now w), ⟨w, rfl⟩, c1 _ _, by intro h; simp at h⟩
    | none =>
      simp only []
      cases env.base64Decode msg.FromAudio with
      | error err => exact ⟨formatInt (env.now w), ⟨w, rfl⟩, c1 _ _, by intro h; simp at h⟩
      | ok decoded =>
        simp only []
        refine ⟨formatInt (env.now w1), ⟨w1, rfl⟩, ?_⟩
        have c2 : ∀ text, Made (pipelineCall env msg w.token (formatInt (env.now w1)) text) w
            (timeNowUnix env w1).2 :=
          fun text => (c1 _ text).seq (timeNowUnix_made env w1 trivial)
        generalize h3 : ioutilWriteFile env _ decoded (timeNowUnix env w1).2 = p3
        obtain ⟨r3, w3⟩ := p3
        have c3 : ∀ text, Made (pipelineCall env msg w.token (formatInt (env.now w1)) text) w w3 :=
          fun text => (c2 text).seq (ioutilWriteFile_made h3 (Or.inl rfl))
        cases r3 with
        | some err => exact ⟨c3 _, by intro h; simp at h⟩
        | none =>
          simp only []
          have c4 : ∀ text, Made (pipelineCall env msg w.token (formatInt (env.now w1)) text) w
              (convertAudioFile env
                ("../tcpBoltDB/" ++ "upload/" ++ msg.FromUser ++ "/" ++ msg.ToUser ++ "/" ++
                  formatInt (timeNowUnix env w1).1 ++ "_cvtbef.amr")
                ("../tcpBoltDB/" ++ "upload/" ++ msg.FromUser ++ "/" ++ msg.ToUser ++ "/" ++
                  formatInt (timeNowUnix env w1).1 ++ ".amr") w3).2 :=
            fun text => (c3 text).seq
              (convertAudioFile_made env _ _ w3 (Or.inl rfl) (Or.inl rfl))
          generalize convertAudioFile env _ _ w3 = p4 at c4 ⊢
          obtain ⟨r4, w4⟩ := p4
          cases r4 with
          | some err => exact ⟨c4 _, by intro h; simp at h⟩
          | none =>
            simp only []
            have hk4 : w4.token = w.token := (c4 "").token
            have c5 : ∀ text,
                Made (pipelineCall env msg w.token (formatInt (env.now w1)) text) w
                  (audio2text env
                    ("../tcpBoltDB/" ++ "upload/" ++ msg.FromUser ++ "/" ++ msg.ToUser ++ "/" ++
                      formatInt (timeNowUnix env w1).1 ++ ".amr") w4).2 :=
              fun text => (c4 text).seq
                (audio2text_made env _ w4 rfl (fun _ => ⟨by rw [hk4], rfl⟩) (fun _ => trivial))
            generalize audio2text env _ w4 = p5 at c5 ⊢
            obtain ⟨r5, w5⟩ := p5
            rcases r5 with ⟨text, _ | err⟩ | p
            · simp only []
              have c6 : ∀ text2,
                  Made (pipelineCall env msg w.token (formatInt (env.now w1)) text2) w
                    (translateText env msg.FromLang msg.ToLang text w5).2 :=
                fun text2 => (c5 text2).seq
                  (translateText_made env _ _ _ w5 trivial (Or.inl ⟨_, _, rfl⟩)
                    (fun _ => trivial))
              generalize translateText env _ _ _ w5 = p6 at c6 ⊢
              obtain ⟨r6, w6⟩ := p6
              rcases r6 with ⟨t, _ | err⟩ | p
              · simp only []
                have hk6 : w6.token = w.token := (c6 "").token
                have c7 := (c6 t).seq
                  (text2audio_made env t
                    ("../tcpBoltDB/" ++ "upload/" ++ msg.FromUser ++ "/" ++ msg.ToUser ++ "/" ++
                      formatInt (timeNowUnix env w1).1 ++ "_result.mp3")
                    ("../tcpBoltDB/" ++ "upload/" ++ msg.FromUser ++ "/" ++ msg.ToUser ++ "/" ++
                      formatInt (timeNowUnix env w1).1 ++ "_result.amr") w6
                    (Or.inr (by rw [hk6])) (fun _ => Or.inr rfl) (Or.inr rfl) (Or.inr rfl))
                generalize text2audio env _ _ _ w6 = p7 at c7 ⊢
                obtain ⟨r7, w7⟩ := p7
                cases r7 with
                | some err => exact ⟨c7, by intro h; simp at h⟩
                | none => exact ⟨c7, fun _ => rfl⟩
              · exact ⟨c6 _, by intro h; simp at h⟩
              · exact ⟨c6 _, by intro h; simp at h⟩
            · exact ⟨c5 _, by intro h; simp at h⟩
            · exact ⟨c5 _, by intro h; simp at h⟩

end NsqTranslate

/-! ## The staging directory -/

namespace NsqTranslate

/-- The layout of the staging directory. For every envelope there is one
reading `ts` of the clock, in decimal, such that with
`rest = FromUser/ToUser/ts` every file `translate`
writes, removes or opens is `../tcpBoltDB/upload/` followed by `rest`, a
suffix (`_cvtbef`, none, `_result`) and an extension (`.amr`, `.mp3`); the
tools are run on such files, and `lame` is told to produce
`../tcpBoltDB/upload/rest_result.amr`; on a nil return `ToAudioUrl` is
`download/rest_result.amr`: the path of that file with `../tcpBoltDB/upload/`
replaced by `download/`. -/
theorem translate_staging_layout (env : Env) (msg : ChatMsgJson) (w : World) :
    ∃ ts rest evs, (∃ w0, ts = formatInt (env.now w0)) ∧
      rest = msg.FromUser ++ "/" ++ msg.ToUser ++ "/" ++ ts ∧
      (translate env msg w).2.2.trace = w.trace ++ evs ∧
      (∀ path data, Event.writeFile path data ∈ evs →
        path = "../tcpBoltDB/" ++ "upload/" ++ rest ++ "_cvtbef" ++ ".amr" ∨
          path = "../tcpBoltDB/" ++ "upload/" ++ rest ++ "_result" ++ ".mp3") ∧
      (∀ path, Event.remove path ∈ evs →
        path = "../tcpBoltDB/" ++ "upload/" ++ rest ++ "_cvtbef" ++ ".amr" ∨
          path = "../tcpBoltDB/" ++ "upload/" ++ rest ++ "_result" ++ ".mp3") ∧
      (∀ path, Event.openFile path ∈ evs →
        path = "../tcpBoltDB/" ++ "upload/" ++ rest ++ "" ++ ".amr") ∧
      (∀ cmd, Event.exec cmd ∈ evs →
        cmd = "ffmpeg -y -i " ++ ("../tcpBoltDB/" ++ "upload/" ++ rest ++ "_cvtbef" ++ ".amr") ++
            " -acodec amr_wb -ac 1 -ar 16000 -ab 23850 " ++
            ("../tcpBoltDB/" ++ "upload/" ++ rest ++ "" ++ ".amr") ∨
          cmd = "lame " ++ ("../tcpBoltDB/" ++ "upload/" ++ rest ++ "_result" ++ ".mp3") ++ " " ++
            ("../tcpBoltDB/" ++ "upload/" ++ rest ++ "_result" ++ ".amr")) ∧
      ((translate env msg w).1 = Outcome.ret none →
        (translate env msg w).2.1.ToAudioUrl = "download/" ++ rest ++ "_result" ++ ".amr") := by
  obtain ⟨ts, hts, ⟨evs, htr, -, hp⟩, hurl⟩ := translate_pipeline env msg w
  have e1 : "_cvtbef" ++ ".amr" = "_cvtbef.amr" := by decide
  have e2 : "_result" ++ ".mp3" = "_result.mp3" := by decide
  have e3 : "_result" ++ ".amr" = "_result.amr" := by decide
  have e4 : "" ++ ".amr" = ".amr" := by decide
  refine ⟨ts, _, evs, hts, rfl, htr, ?_, ?_, ?_, ?_, ?_⟩
  · intro path data he
    have h := hp _ he
    simp only [pipelineCall] at h
    simpa only [String.append_assoc, e1, e2] using h
  · intro path he
    have h := hp _ he
    simp only [pipelineCall] at h
    simpa only [String.append_assoc, e1, e2] using h
  · intro path he
    have h := hp _ he
    simp only [pipelineCall] at h
    simpa only [String.append_assoc, e4] using h
  · intro cmd he
    have h := hp _ he
    simp only [pipelineCall] at h
    simpa only [String.append_assoc, e1, e2, e3, e4] using h
  · intro hnil
    have h := hurl hnil
    simpa only [String.append_assoc, e3] using h

/-! ## The files a successful audio run leaves behind -/

/-- C23 fails on the code: after the audio envelope has been processed
successfully, the converted file `<ts>.amr` is still there beside the result
`<ts>_result.amr`; only `<ts>_cvtbef.amr` and `<ts>_result.mp3` are gone.
Whatever the envelope and the collaborators, the only files `translate` ever
removes are `<ts>_cvtbef.amr` and `<ts>_result.mp3`: `audio2text` opens
`<ts>.amr` and no step deletes it. -/
theorem translate_leaves_converted_audio :
    (translate Double.healthy Double.audioMsg Double.start).1 = Outcome.ret none ∧
      (translate Double.healthy Double.audioMsg Double.start).2.2.files =
        [("../tcpBoltDB/upload/1/2/1500000000_result.amr", Double.amrBytes),
          ("../tcpBoltDB/upload/1/2/1500000000.amr", Double.amrBytes)] ∧
      Event.openFile "../tcpBoltDB/upload/1/2/1500000000.amr" ∈
        (translate Double.healthy Double.audioMsg Double.start).2.2.trace ∧
      ∀ (env : Env) (msg : ChatMsgJson) (w : World), ∃ ts evs,
        (translate env msg w).2.2.trace = w.trace ++ evs ∧
        ∀ path, Event.remove path ∈ evs →
          path = "../tcpBoltDB/" ++ "upload/" ++ msg.FromUser ++ "/" ++ msg.ToUser ++ "/" ++ ts ++
              "_cvtbef.amr" ∨
            path = "../tcpBoltDB/" ++ "upload/" ++ msg.FromUser ++ "/" ++ msg.ToUser ++ "/" ++
              ts ++ "_result.mp3" := by
  refine ⟨by decide, by decide, by decide, ?_⟩
  intro env msg w
  obtain ⟨ts, -, ⟨evs, htr, -, hp⟩, -⟩ := translate_pipeline env msg w
  exact ⟨ts, evs, htr, fun path he => hp _ he⟩

/-! ## Which branch `translate` takes -/

/-- C26. When `Catalog` is not `text` and `FromAudio` is not valid base64,
`translate` returns a non-nil error, the envelope is as it was, and the world
is the one before the call plus the one call of `os.MkdirAll` on the
conversation directory: no file is written, no tool is run, no service is
called. -/
theorem translate_rejects_invalid_audio (env : Env) (msg : ChatMsgJson) (w : World) (err : Err)
    (hcat : msg.Catalog ≠ "text")
    (hdec : env.base64Decode msg.FromAudio = Except.error err) :
    ∃ e, translate env msg w =
      (Outcome.ret (some e), msg,
        w.log (Event.mkdirAll ("../tcpBoltDB/" ++ "upload/" ++ msg.FromUser ++ "/" ++
          msg.ToUser ++ "/"))) := by
  unfold translate
  simp only [if_neg hcat, osMkdirAll, hdec]
  cases env.mkdirAll w ("../tcpBoltDB/" ++ "upload/" ++ msg.FromUser ++ "/" ++ msg.ToUser ++ "/")
    with
  | some e => exact ⟨e, rfl⟩
  | none => exact ⟨err, rfl⟩

/-- Witness of C26: an audio envelope whose `FromAudio` is `not base64!`. -/
theorem translate_rejects_invalid_audio_witness :
    ∃ e, translate Double.healthy Double.brokenAudioMsg Double.start =
      (Outcome.ret (some e), Double.brokenAudioMsg,
        Double.start.log (Event.mkdirAll ("../tcpBoltDB/" ++ "upload/" ++
          Double.brokenAudioMsg.FromUser ++ "/" ++ Double.brokenAudioMsg.ToUser ++ "/"))) :=
  translate_rejects_invalid_audio Double.healthy Double.brokenAudioMsg Double.start
    (Err.upstream "illegal base64 data") (by decide) rfl

/-! ## A speech-to-text answer without result -/

/-- C27 fails on the code: on a speech-to-text answer with `err_no = 0` and an
empty `result`, `audio2text` indexes the empty list and panics, in the relay
and in the HTTP server alike; `translate` and the handler of the relay panic
with it. -/
theorem audio2text_panics_on_empty_result :
    Double.speechSilent.unmarshalAudio2Text Double.silentBody =
        ({ ErrNo := 0, ErrMsg := "success.", Result := [] }, none) ∧
      (audio2text Double.speechSilent "in.amr" Double.staged).1 =
        Outcome.panic "index out of range [0] with length 0" ∧
      (translate Double.speechSilent Double.audioMsg Double.start).1 =
        Outcome.panic "index out of range [0] with length 0" ∧
      (hand Double.speechSilent (Double.inbound (Double.marshal Double.audioMsg))
        Double.start).1 = Outcome.panic "index out of range [0] with length 0" ∧
      (TcpBoltDB.audio2text Double.serverSilent "in.amr" Double.stagedServing).1 =
        Run.panic "index out of range [0] with length 0" := by
  decide

/-! ## The requests to the speech services -/

/-- C28. Take an envelope and the envelope that differs from it in `FromLang`
and `ToLang` only, and run `translate` on each, with the same token and with
the same text left in `ToText`. Every POST of the two runs goes to the one
speech-to-text URL, which holds `lan=zh` and the token and nothing of the
envelope; every GET of the two runs is a request to the translation service
or goes to the one text-to-speech URL, which holds the escaped text, `lan=zh`
and the token. -/
theorem speech_requests_ignore_languages (env : Env) (msg : ChatMsgJson)
    (fromLang toLang : String) (w w2 : World) (htok : w2.token = w.token)
    (htext : (translate env { msg with FromLang := fromLang, ToLang := toLang } w2).2.1.ToText =
      (translate env msg w).2.1.ToText) :
    ∃ evs evs2, (translate env msg w).2.2.trace = w.trace ++ evs ∧
      (translate env { msg with FromLang := fromLang, ToLang := toLang } w2).2.2.trace =
        w2.trace ++ evs2 ∧
      (∀ url contentType body, Event.httpPost url contentType body ∈ evs ++ evs2 →
        url = "http://vop.baidu.com/server_api?lan=zh&cuid=" ++ "TranslateChat" ++ "&token=" ++
          w.token) ∧
      (∀ url, Event.httpGet url ∈ evs ++ evs2 →
        (∃ q l1 l2 salt sign, url = "http://api.fanyi.baidu.com/api/trans/vip/translate?q=" ++
          q ++ "&from=" ++ l1 ++ "&to=" ++ l2 ++ "&appid=" ++ "20170714000064493" ++ "&salt=" ++
          salt ++ "&sign=" ++ sign) ∨
        url = "http://tsn.baidu.com/text2audio?tex=" ++
          env.queryEscape (translate env msg w).2.1.ToText ++ "&lan=zh&cuid=" ++
          "TranslateChat" ++ "&ctp=1&tok=" ++ w.token) := by
  obtain ⟨ts, -, ⟨evs, htr, -, hp⟩, -⟩ := translate_pipeline env msg w
  obtain ⟨ts2, -, ⟨evs2, htr2, -, hp2⟩, -⟩ :=
    translate_pipeline env { msg with FromLang := fromLang, ToLang := toLang } w2
  rw [htext, htok] at hp2
  refine ⟨evs, evs2, htr, htr2, ?_, ?_⟩
  · intro url contentType body he
    rcases List.mem_append.mp he with h | h
    · exact (hp _ h).1
    · exact (hp2 _ h).1
  · intro url he
    rcases List.mem_append.mp he with h | h
    · rcases hp _ h with ⟨q, salt, hq⟩ | hq
      · exact Or.inl ⟨_, _, _, _, _, hq⟩
      · exact Or.inr hq
    · rcases hp2 _ h with ⟨q, salt, hq⟩ | hq
      · exact Or.inl ⟨_, _, _, _, _, hq⟩
      · exact Or.inr hq

/-- Witness of C28: the text envelope, from `zh` to `en` and from `fr` to
`de`. -/
theorem speech_requests_ignore_languages_witness :
    ∃ evs evs2, (translate Double.healthy Double.textMsg Double.start).2.2.trace =
        Double.start.trace ++ evs ∧
      (translate Double.healthy { Double.textMsg with FromLang := "fr", ToLang := "de" }
        Double.start).2.2.trace = Double.start.trace ++ evs2 ∧
      (∀ url contentType body, Event.httpPost url contentType body ∈ evs ++ evs2 →
        url = "http://vop.baidu.com/server_api?lan=zh&cuid=" ++ "TranslateChat" ++ "&token=" ++
          Double.start.token) ∧
      (∀ url, Event.httpGet url ∈ evs ++ evs2 →
        (∃ q l1 l2 salt sign, url = "http://api.fanyi.baidu.com/api/trans/vip/translate?q=" ++
          q ++ "&from=" ++ l1 ++ "&to=" ++ l2 ++ "&appid=" ++ "20170714000064493" ++ "&salt=" ++
          salt ++ "&sign=" ++ sign) ∨
        url = "http://tsn.baidu.com/text2audio?tex=" ++
          Double.healthy.queryEscape
            (translate Double.healthy Double.textMsg Double.start).2.1.ToText ++
          "&lan=zh&cuid=" ++ "TranslateChat" ++ "&ctp=1&tok=" ++ Double.start.token) :=
  speech_requests_ignore_languages Double.healthy Double.textMsg "fr" "de" Double.start
    Double.start rfl (by decide)

/-- C24 fails on the code in its last clause. On an answer of the
text-to-speech service that is not `audio/mp3`, `translate` returns nil with
`ToAudioUrl` set to `download/1/2/1500000000_result.amr`, while the file this
URL stands for, `../tcpBoltDB/upload/1/2/1500000000_result.amr`, does not
exist and `lame`, which would produce it, has not been run: for a text
envelope and for an audio envelope alike. With the service answering audio,
the same envelope leaves that file in place. -/
theorem download_url_without_staged_result :
    (translate Double.speechRefused Double.textMsg Double.start).1 = Outcome.ret none ∧
      (translate Double.speechRefused Double.textMsg Double.start).2.1.ToAudioUrl =
        "download/" ++ "1/2/1500000000" ++ "_result.amr" ∧
      (translate Double.speechRefused Double.textMsg Double.start).2.2.files.read
        ("../tcpBoltDB/" ++ "upload/" ++ "1/2/1500000000" ++ "_result.amr") = none ∧
      Event.exec ("lame ../tcpBoltDB/upload/1/2/1500000000_result.mp3 " ++
          "../tcpBoltDB/upload/1/2/1500000000_result.amr") ∉
        (translate Double.speechRefused Double.textMsg Double.start).2.2.trace ∧
      (translate Double.speechRefused Double.audioMsg Double.start).1 = Outcome.ret none ∧
      (translate Double.speechRefused Double.audioMsg Double.start).2.1.ToAudioUrl =
        "download/" ++ "1/2/1500000000" ++ "_result.amr" ∧
      (translate Double.speechRefused Double.audioMsg Double.start).2.2.files.read
        ("../tcpBoltDB/" ++ "upload/" ++ "1/2/1500000000" ++ "_result.amr") = none ∧
      Event.exec ("lame ../tcpBoltDB/upload/1/2/1500000000_result.mp3 " ++
          "../tcpBoltDB/upload/1/2/1500000000_result.amr") ∉
        (translate Double.speechRefused Double.audioMsg Double.start).2.2.trace ∧
      (translate Double.healthy Double.textMsg Double.start).1 = Outcome.ret none ∧
      (translate Double.healthy Double.textMsg Double.start).2.1.ToAudioUrl =
        "download/" ++ "1/2/1500000000" ++ "_result.amr" ∧
      (translate Double.healthy Double.textMsg Double.start).2.2.files.read
        ("../tcpBoltDB/" ++ "upload/" ++ "1/2/1500000000" ++ "_result.amr") =
        some Double.amrBytes ∧
      Event.exec ("lame ../tcpBoltDB/upload/1/2/1500000000_result.mp3 " ++
          "../tcpBoltDB/upload/1/2/1500000000_result.amr") ∈
        (translate Double.healthy Double.textMsg Double.start).2.2.trace := by
  decide

end NsqTranslate

/-! ## The HTTP server: tokens and the `Auth` header -/

theorem splitOn_cons_eq (sep : Char) (rest : List Char) :
    splitOn sep (sep :: rest) = [] :: splitOn sep rest := by
  rw [splitOn, if_pos rfl]

theorem splitOn_cons_ne (sep c : Char) (rest : List Char) (h : c ≠ sep) :
    splitOn sep (c :: rest) =
      match splitOn sep rest with
      | [] => [[c]]
      | s :: ss => (c :: s) :: ss := by
  rw [splitOn, if_neg h]

theorem splitOn_ne_nil (sep : Char) (l : List Char) : splitOn sep l ≠ [] := by
  cases l with
  | nil => simp [splitOn]
  | cons c rest =>
    by_cases hc : c = sep
    · subst hc
      rw [splitOn_cons_eq]
      simp
    · rw [splitOn_cons_ne sep c rest hc]
      split <;> simp

theorem splitOn_of_not_mem (sep : Char) (l : List Char) (h : sep ∉ l) : splitOn sep l = [l] := by
  induction l with
  | nil => rfl
  | cons c rest ih =>
    have hc : c ≠ sep := fun e => h (by simp [e])
    have hr : sep ∉ rest := fun e => h (by simp [e])
    rw [splitOn_cons_ne sep c rest hc, ih hr]

theorem splitOn_append (sep : Char) (a b : List Char) (h : sep ∉ a) :
    splitOn sep (a ++ sep :: b) = a :: splitOn sep b := by
  induction a with
  | nil => exact splitOn_cons_eq sep b
  | cons c rest ih =>
    have hc : c ≠ sep := fun e => h (by simp [e])
    have hr : sep ∉ rest := fun e => h (by simp [e])
    show splitOn sep (c :: (rest ++ sep :: b)) = _
    rw [splitOn_cons_ne sep c _ hc, ih hr]

theorem length_splitOn (sep : Char) (l : List Char) :
    (splitOn sep l).length = l.count sep + 1 := by
  induction l with
  | nil => rfl
  | cons c rest ih =>
    by_cases hc : c = sep
    · subst hc
      rw [splitOn_cons_eq]
      simp [ih]
    · rw [splitOn_cons_ne sep c rest hc, List.count_cons_of_ne (Ne.symm hc), ← ih]
      cases h : splitOn sep rest with
      | nil => exact absurd h (splitOn_ne_nil sep rest)
      | cons s ss => rfl

namespace TcpBoltDB

/-- The loop of `getRandomString` never indexes out of range: it returns `n`
more characters, each one of `bytes`. -/
theorem randomLoop_ret (r : Nat → Nat) (bytes : List Char) (hb : 0 < bytes.length) (n : Nat) :
    ∀ (i : Nat) (result : List Char), ∃ l, randomLoop r bytes n i result = Outcome.ret (result ++ l) ∧
      l.length = n ∧ ∀ c ∈ l, c ∈ bytes := by
  induction n with
  | zero => exact fun i result => ⟨[], by simp [randomLoop], rfl, by simp⟩
  | succ n ih =>
    intro i result
    have hlt : randIntn r i bytes.length < bytes.length := Nat.mod_lt _ hb
    obtain ⟨l, hl, hn, hm⟩ := ih (i + 1) (result ++ [bytes.get ⟨_, hlt⟩])
    refine ⟨bytes.get ⟨_, hlt⟩ :: l, ?_, by simp [hn], ?_⟩
    · unfold randomLoop
      rw [List.get?_eq_get hlt]
      simp only []
      rw [hl]
      simp
    · intro c hc
      rcases List.mem_cons.mp hc with h | h
      · rw [h]
        exact List.get_mem _ _ _
      · exact hm c h

theorem getRandomString_ret (env : SiteEnv) (length : Int) (s : Site) :
    ∃ str, (getRandomString env length s).1 = Outcome.ret str ∧ str.length = length.toNat ∧
      ∀ c ∈ str.data, c.isAlphanum = true := by
  obtain ⟨l, hl, hn, hm⟩ := randomLoop_ret (env.randSource (timeNow env s).1)
    "0123456789abcdefghijklmnopqrstuvwxyzABCDEFGHIJKLMNOPQRSTUVWXYZ".data (by decide)
    length.toNat 0 []
  refine ⟨String.mk l, ?_, hn, ?_⟩
  · unfold getRandomString
    simp only []
    rw [hl]
    rfl
  · intro c hc
    have hall : ∀ c ∈ "0123456789abcdefghijklmnopqrstuvwxyzABCDEFGHIJKLMNOPQRSTUVWXYZ".data,
        c.isAlphanum = true := by decide
    exact hall c (hm c hc)

theorem getAuthFromReq_of_length_ne (r : Request) (h : (splitOn '_' r.auth.data).length ≠ 3) :
    getAuthFromReq r = ("", "", "", none) := by
  unfold getAuthFromReq
  simp only []
  rcases hs : splitOn '_' r.auth.data with _ | ⟨a, _ | ⟨b, _ | ⟨c, _ | ⟨d, rest⟩⟩⟩⟩
  · rfl
  · rfl
  · rfl
  · rw [hs] at h
    exact absurd rfl h
  · rfl

/-- C29. For every length and every random source `getRandomString` returns a
string of `length` characters (none for a negative length), all of them
letters or digits. So for every `phoneNo` and `imei` without `_` and the token
`getToken` returns, `getAuthFromReq` on the header
`phoneNo ++ "_" ++ token ++ "_" ++ imei` returns `(phoneNo, token, imei)` and
a nil error; and on a header that does not hold exactly two `_` it returns
three empty strings and a nil error. -/
theorem auth_header_round_trip :
    (∀ (env : SiteEnv) (length : Int) (s : Site), 0 ≤ length →
      ∃ str, (getRandomString env length s).1 = Outcome.ret str ∧
        (str.length : Int) = length ∧ ∀ c ∈ str.data, c.isAlphanum = true) ∧
    (∀ (env : SiteEnv) (phoneNo imei : String) (s : Site),
      '_' ∉ phoneNo.data → '_' ∉ imei.data →
      ∃ token, (getToken env phoneNo imei s).1 = Outcome.ret token ∧ token.length = 15 ∧
        getAuthFromReq { auth := phoneNo ++ "_" ++ token ++ "_" ++ imei } =
          (phoneNo, token, imei, none)) ∧
    (∀ r : Request, r.auth.data.count '_' ≠ 2 → getAuthFromReq r = ("", "", "", none)) := by
  refine ⟨?_, ?_, ?_⟩
  · intro env length s hlen
    obtain ⟨str, h1, h2, h3⟩ := getRandomString_ret env length s
    exact ⟨str, h1, by rw [h2]; exact Int.toNat_of_nonneg hlen, h3⟩
  · intro env phoneNo imei s hp hi
    obtain ⟨token, h1, h2, h3⟩ := getRandomString_ret env 15 s
    have ht : '_' ∉ token.data := fun hmem => by
      have := h3 _ hmem
      exact absurd this (by decide)
    refine ⟨token, h1, h2, ?_⟩
    unfold getAuthFromReq
    have hd : (phoneNo ++ "_" ++ token ++ "_" ++ imei).data =
        phoneNo.data ++ '_' :: (token.data ++ '_' :: imei.data) := by
      simp [String.data_append]
    simp only [hd, splitOn_append '_' _ _ hp, splitOn_append '_' _ _ ht,
      splitOn_of_not_mem '_' _ hi, List.map]
  · intro r hr
    apply getAuthFromReq_of_length_ne
    rw [length_splitOn]
    omega

/-! ## The HTTP server: expiry of a token -/

/-- C22. With `now` the reading of the clock at the call: `isExpired` returns
true on every string that does not parse in the layout
`2006-01-02 15:04:05`; on a string that parses it returns true exactly when
the parsed instant is before `now`; and `checkAuth` returns false for every
user whose stored `token_expire_time` does not parse, whatever the token. -/
theorem isExpired_malformed_or_past (env : SiteEnv) :
    (∀ (t : String) (s : Site), env.parseTime t = none → (isExpired env t s).1 = true) ∧
    (∀ (t : String) (expire : Instant) (s : Site), env.parseTime t = some expire →
      ((isExpired env t s).1 = true ↔ expire < env.now s.ticks)) ∧
    (∀ (phoneNo token : String) (s : Site) (row : AuthRow),
      s.db.user_auth.find? (fun r => r.phoneno = phoneNo) = some row →
      env.parseTime row.token_expire_time = none →
      (checkAuth env phoneNo token s).1 = false) := by
  refine ⟨?_, ?_, ?_⟩
  · intro t s h
    unfold isExpired
    rw [h]
  · intro t expire s h
    unfold isExpired
    rw [h]
    simp only [timeNow]
    by_cases hlt : expire < env.now s.ticks
    · simp [hlt]
    · simp [hlt]
  · intro phoneNo token s row hrow hparse
    unfold checkAuth selectAuth
    cases env.queryErr s "SELECT token, token_expire_time FROM user_auth WHERE phoneno=?"
      [phoneNo] with
    | some err => rfl
    | none =>
      simp only [hrow]
      unfold isExpired
      rw [hparse]

end TcpBoltDB

/-! ## The HTTP server: friendships -/

theorem Db.friends_insertFriend (db : Db) (a b now : String) :
    (db.run (Stmt.insertFriend a b now)).friends = db.friends ++ [(a, b)] := by
  simp [Db.run, Db.friends]

theorem Db.mem_friends_deleteFriend (db : Db) (a b : String) (p : String × String) :
    p ∈ (db.run (Stmt.deleteFriend a b)).friends ↔ p ∈ db.friends ∧ p ≠ (a, b) := by
  obtain ⟨x, y⟩ := p
  simp only [Db.run, Db.friends, List.mem_map, List.mem_filter, Prod.mk.injEq, ne_eq]
  constructor
  · rintro ⟨row, ⟨hmem, hne⟩, h1, h2⟩
    refine ⟨⟨row, hmem, h1, h2⟩, ?_⟩
    subst h1 h2
    simp at hne ⊢
    tauto
  · rintro ⟨⟨row, hmem, h1, h2⟩, hne⟩
    refine ⟨row, ⟨hmem, ?_⟩, h1, h2⟩
    subst h1 h2
    simp at hne ⊢
    tauto

namespace TcpBoltDB

theorem checkAuth_db (env : SiteEnv) (phoneNo token : String) (s : Site) :
    (checkAuth env phoneNo token s).2.db = s.db := by
  unfold checkAuth
  split
  · rfl
  · rfl
  · unfold isExpired
    split
    · rename_i h
      split at h
      · simp only [Prod.mk.injEq] at h
        rw [← h.2]
      · simp only [timeNow] at h
        split at h <;> simp only [Prod.mk.injEq] at h <;> rw [← h.2]
    · rename_i h
      have hdb : ∀ (b : Bool) (s1 : Site),
          (match env.parseTime ‹String› with
            | none => (true, s)
            | some expire =>
              match timeNow env s with
              | (now, s1) => if expire < now then (true, s1) else (false, s1)) = (b, s1) →
          s1.db = s.db := by
        intro b s1 hb
        split at hb
        · simp only [Prod.mk.injEq] at hb
          rw [← hb.2]
        · simp only [timeNow] at hb
          split at hb <;> simp only [Prod.mk.injEq] at hb <;> rw [← hb.2]
      split <;> exact hdb _ _ h

theorem Db.symmetric_add (db : Db) (a b now : String) (h : db.symmetric) :
    ((db.run (Stmt.insertFriend a b now)).run (Stmt.insertFriend b a now)).symmetric := by
  intro x y hxy
  rw [Db.friends_insertFriend, Db.friends_insertFriend] at hxy ⊢
  simp only [List.append_assoc, List.singleton_append, List.mem_append, List.mem_cons,
    Prod.mk.injEq, List.mem_singleton, List.not_mem_nil, or_false] at hxy ⊢
  rcases hxy with h1 | ⟨h1, h2⟩ | ⟨h1, h2⟩
  · exact Or.inl (h x y h1)
  · exact Or.inr (Or.inr ⟨h2, h1⟩)
  · exact Or.inr (Or.inl ⟨h2, h1⟩)

theorem Db.symmetric_delete (db : Db) (a b : String) (h : db.symmetric) :
    ((db.run (Stmt.deleteFriend a b)).run (Stmt.deleteFriend b a)).symmetric := by
  intro x y hxy
  rw [Db.mem_friends_deleteFriend, Db.mem_friends_deleteFriend] at hxy ⊢
  obtain ⟨⟨hm, h1⟩, h2⟩ := hxy
  refine ⟨⟨h x y hm, ?_⟩, ?_⟩
  · intro e
    simp only [Prod.mk.injEq] at e
    exact h2 (by rw [e.1, e.2])
  · intro e
    simp only [Prod.mk.injEq] at e
    exact h1 (by rw [e.1, e.2])

/-- The database `doAddFriend` leaves: the one it found, or that one with the
two rows inserted; the latter whenever it returns nil. -/
theorem doAddFriend_db (env : SiteEnv) (r : Request) (s : Site) :
    ((doAddFriend env r s).2.db = s.db ∨
      ∃ now, (doAddFriend env r s).2.db =
        (s.db.run (Stmt.insertFriend (getAuthFromReq r).1 r.phoneNo now)).run
          (Stmt.insertFriend r.phoneNo (getAuthFromReq r).1 now)) ∧
    ((doAddFriend env r s).1 = none →
      ∃ now, (doAddFriend env r s).2.db =
        (s.db.run (Stmt.insertFriend (getAuthFromReq r).1 r.phoneNo now)).run
          (Stmt.insertFriend r.phoneNo (getAuthFromReq r).1 now)) := by
  unfold doAddFriend
  rcases hq : getAuthFromReq r with ⟨a, t, i, e⟩
  simp only []
  generalize hc : checkAuth env a t s = c
  obtain ⟨ok, s1⟩ := c
  have hdb1 : s1.db = s.db := by
    have := checkAuth_db env a t s
    rw [hc] at this
    exact this
  cases ok with
  | false => exact ⟨Or.inl hdb1, by intro h; simp at h⟩
  | true =>
    simp only []
    cases selectFriend env a r.phoneNo s1 with
    | failed err => exact ⟨Or.inl hdb1, by intro h; simp at h⟩
    | row x => exact ⟨Or.inl hdb1, by intro h; simp at h⟩
    | noRows =>
      simp only [timeNow, Transact, txExec, pubAddFriendSysInfo]
      cases env.begin _ with
      | some err => exact ⟨Or.inl hdb1, by intro h; simp at h⟩
      | none =>
        simp only []
        cases env.execErr _ _ (Stmt.insertFriend a r.phoneNo _) with
        | some err => exact ⟨Or.inl hdb1, by intro h; simp at h⟩
        | none =>
          simp only []
          cases env.execErr _ _ (Stmt.insertFriend r.phoneNo a _) with
          | some err => exact ⟨Or.inl hdb1, by intro h; simp at h⟩
          | none =>
            simp only []
            cases env.commit _ _ with
            | some err => exact ⟨Or.inl hdb1, by intro h; simp at h⟩
            | none =>
              simp only []
              cases env.marshalSysMsg _ with
              | error err => exact ⟨Or.inr ⟨_, by rw [hdb1]⟩, by intro h; simp at h⟩
              | ok buff => exact ⟨Or.inr ⟨_, by rw [hdb1]⟩, fun _ => ⟨_, by rw [hdb1]⟩⟩

/-- The database `doDelFriend` leaves: the one it found, or that one with the
two rows deleted; the latter whenever it returns nil. -/
theorem doDelFriend_db (env : SiteEnv) (r : Request) (s : Site) :
    ((doDelFriend env r s).2.db = s.db ∨
      (doDelFriend env r s).2.db =
        (s.db.run (Stmt.deleteFriend (getAuthFromReq r).1 r.phoneNo)).run
          (Stmt.deleteFriend r.phoneNo (getAuthFromReq r).1)) ∧
    ((doDelFriend env r s).1 = none →
      (doDelFriend env r s).2.db =
        (s.db.run (Stmt.deleteFriend (getAuthFromReq r).1 r.phoneNo)).run
          (Stmt.deleteFriend r.phoneNo (getAuthFromReq r).1)) := by
  unfold doDelFriend
  rcases hq : getAuthFromReq r with ⟨a, t, i, e⟩
  simp only []
  generalize hc : checkAuth env a t s = c
  obtain ⟨ok, s1⟩ := c
  have hdb1 : s1.db = s.db := by
    have := checkAuth_db env a t s
    rw [hc] at this
    exact this
  cases ok with
  | false => exact ⟨Or.inl hdb1, by intro h; simp at h⟩
  | true =>
    simp only []
    cases selectFriend env a r.phoneNo s1 with
    | failed err => exact ⟨Or.inl hdb1, by intro h; simp at h⟩
    | noRows => exact ⟨Or.inl hdb1, by intro h; simp at h⟩
    | row x =>
      simp only [Transact, txExec]
      cases env.begin _ with
      | some err => exact ⟨Or.inl hdb1, by intro h; simp at h⟩
      | none =>
        simp only []
        cases env.execErr _ _ (Stmt.deleteFriend a r.phoneNo) with
        | some err => exact ⟨Or.inl hdb1, by intro h; simp at h⟩
        | none =>
          simp only []
          cases env.execErr _ _ (Stmt.deleteFriend r.phoneNo a) with
          | some err => exact ⟨Or.inl hdb1, by intro h; simp at h⟩
          | none =>
            simp only []
            cases env.commit _ _ with
            | some err => exact ⟨Or.inl hdb1, by intro h; simp at h⟩
            | none => exact ⟨Or.inr (by rw [hdb1]), fun _ => by rw [hdb1]⟩

/-- C30. Take the friendship table as the set of its pairs
`(phoneno_a, phoneno_b)` and `Transact` as atomic. If the table is symmetric
before a call of `doAddFriend` or `doDelFriend`, it is symmetric after the
call, whether the call returns nil or an error. When `doAddFriend` returns
nil for the user `a` of the header and the `phoneNo` `b` of the query, the
table has gained exactly `(a, b)` and `(b, a)`; when `doDelFriend` returns nil
it has lost exactly these two. -/
theorem friendship_stays_symmetric (env : SiteEnv) (r : Request) (s : Site)
    (hsym : s.db.symmetric) :
    (doAddFriend env r s).2.db.symmetric ∧ (doDelFriend env r s).2.db.symmetric ∧
    ((doAddFriend env r s).1 = none → ∀ p, p ∈ (doAddFriend env r s).2.db.friends ↔
      p ∈ s.db.friends ∨ p = ((getAuthFromReq r).1, r.phoneNo) ∨
        p = (r.phoneNo, (getAuthFromReq r).1)) ∧
    ((doDelFriend env r s).1 = none → ∀ p, p ∈ (doDelFriend env r s).2.db.friends ↔
      p ∈ s.db.friends ∧ p ≠ ((getAuthFromReq r).1, r.phoneNo) ∧
        p ≠ (r.phoneNo, (getAuthFromReq r).1)) := by
  obtain ⟨ha, ha2⟩ := doAddFriend_db env r s
  obtain ⟨hd, hd2⟩ := doDelFriend_db env r s
  refine ⟨?_, ?_, ?_, ?_⟩
  · rcases ha with h | ⟨now, h⟩
    · rw [h]
      exact hsym
    · rw [h]
      exact Db.symmetric_add _ _ _ _ hsym
  · rcases hd with h | h
    · rw [h]
      exact hsym
    · rw [h]
      exact Db.symmetric_delete _ _ _ hsym
  · intro hnil p
    obtain ⟨now, h⟩ := ha2 hnil
    rw [h, Db.friends_insertFriend, Db.friends_insertFriend]
    simp only [List.append_assoc, List.singleton_append, List.mem_append, List.mem_cons,
      List.mem_singleton, List.not_mem_nil, or_false]
  · intro hnil p
    rw [hd2 hnil, Db.mem_friends_deleteFriend, Db.mem_friends_deleteFriend]
    tauto

/-- Witness of C30: in a table that holds the pair of `8613800000000` and
`8613800000002` both ways, the account `8613800000000` adds `8613800000003`:
the call returns nil and the table has gained both rows; and it deletes
`8613800000002`: the call returns nil and the table has lost both rows. The
table is symmetric before and after each call. -/
theorem friendship_stays_symmetric_witness :
    Double.opened.db.symmetric ∧
      (doAddFriend Double.office (Double.friendRequest "8613800000003") Double.opened).1 = none ∧
      (doAddFriend Double.office (Double.friendRequest "8613800000003")
        Double.opened).2.db.symmetric ∧
      ("8613800000000", "8613800000003") ∉ Double.opened.db.friends ∧
      ("8613800000000", "8613800000003") ∈
        (doAddFriend Double.office (Double.friendRequest "8613800000003")
          Double.opened).2.db.friends ∧
      ("8613800000003", "8613800000000") ∈
        (doAddFriend Double.office (Double.friendRequest "8613800000003")
          Double.opened).2.db.friends ∧
      (doDelFriend Double.office (Double.friendRequest "8613800000002") Double.opened).1 = none ∧
      (doDelFriend Double.office (Double.friendRequest "8613800000002")
        Double.opened).2.db.symmetric ∧
      ("8613800000000", "8613800000002") ∈ Double.opened.db.friends ∧
      ("8613800000000", "8613800000002") ∉
        (doDelFriend Double.office (Double.friendRequest "8613800000002")
          Double.opened).2.db.friends ∧
      ("8613800000002", "8613800000000") ∉
        (doDelFriend Double.office (Double.friendRequest "8613800000002")
          Double.opened).2.db.friends :=
  have hsym : Double.opened.db.symmetric := by
    intro a b h
    simp only [Db.friends, Double.opened, List.map, List.mem_cons, Prod.mk.injEq,
      List.not_mem_nil, or_false] at h ⊢
    rcases h with ⟨h1, h2⟩ | ⟨h1, h2⟩
    · exact Or.inr ⟨h2, h1⟩
    · exact Or.inl ⟨h2, h1⟩
  have hadd : (doAddFriend Double.office (Double.friendRequest "8613800000003")
      Double.opened).1 = none := rfl
  have hdel : (doDelFriend Double.office (Double.friendRequest "8613800000002")
      Double.opened).1 = none := rfl
  have hthm := friendship_stays_symmetric Double.office (Double.friendRequest "8613800000003")
    Double.opened hsym
  have hthm2 := friendship_stays_symmetric Double.office (Double.friendRequest "8613800000002")
    Double.opened hsym
  ⟨hsym, hadd, hthm.1, by decide,
    (hthm.2.2.1 hadd _).2 (Or.inr (Or.inl rfl)),
    (hthm.2.2.1 hadd _).2 (Or.inr (Or.inr rfl)),
    hdel, hthm2.2.1, by decide,
    fun h => ((hthm2.2.2.2 hdel _).1 h).2.1 rfl,
    fun h => ((hthm2.2.2.2 hdel _).1 h).2.2 rfl⟩

end TcpBoltDB

/-! ## The HTTP server: lifetime of a login token -/

namespace TcpBoltDB

/-- The expiry `doLogin` returns is the reading of the clock plus `expireAt`
hours, formatted. -/
theorem doLogin_expireTime (env : SiteEnv) (r : Request) (s : Site) (ret : LoginRet)
    (h : (doLogin env r s).1 = Outcome.ret (Except.ok ret)) :
    ∃ k, ret.ExpireTime = env.formatTime (env.now k + timeHour * expireAt) := by
  unfold doLogin at h
  simp only [timeNow] at h
  repeat' split at h
  all_goals first
    | (simp only [Outcome.ret.injEq, Except.ok.injEq, reduceCtorEq] at h; done)
    | (simp only [Outcome.ret.injEq, Except.ok.injEq] at h
       rw [← h]
       exact ⟨_, rfl⟩)

/-- The expiry `doUserRegister` returns is the reading of the clock plus
`expireAt` hours, formatted. -/
theorem doUserRegister_expireTime (env : SiteEnv) (r : Request) (s : Site) (ret : RegisterRet)
    (h : (doUserRegister env r s).1 = Outcome.ret (Except.ok ret)) :
    ∃ k, ret.ExpireTime = env.formatTime (env.now k + timeHour * expireAt) := by
  unfold doUserRegister at h
  simp only [timeNow] at h
  repeat' split at h
  all_goals first
    | (simp only [Outcome.ret.injEq, Except.ok.injEq, reduceCtorEq] at h; done)
    | (simp only [Outcome.ret.injEq, Except.ok.injEq] at h
       rw [← h]
       exact ⟨_, rfl⟩)

/-- C21 fails on the code: `expireAt` is `24 * 7`, that is 168 hours or 7
days, although the comment on its declaration says 10 days. The expiry that
`doLogin` and `doUserRegister` return and store is the reading of the clock
plus these 168 hours: at 2017-07-14 02:40:01 it is 2017-07-21 02:40:01, and
not 2017-07-24 02:40:01 as a lifetime of 10 days would give. -/
theorem default_lifetime_is_seven_days :
    expireAt = 168 ∧ timeHour * expireAt = 7 * (24 * timeHour) ∧
      Double.formatTime (Double.office.now 1) = "2017-07-14 02:40:01" ∧
      (doLogin Double.office { body := Except.ok Double.codeLoginBody } Double.opened).1 =
        Outcome.ret (Except.ok { PhoneNo := "8613800000000", Token := "ovCJQX4bipwDKRY",
                                 ExpireTime := "2017-07-21 02:40:01" }) ∧
      ((doLogin Double.office { body := Except.ok Double.codeLoginBody }
        Double.opened).2.db.user_auth.find? (fun row => row.phoneno = "8613800000000")).map
          (fun row => row.token_expire_time) = some "2017-07-21 02:40:01" ∧
      (doLogin Double.office { body := Except.ok Double.tokenLoginBody } Double.opened).1 =
        Outcome.ret (Except.ok { PhoneNo := "8613800000000", Token := "s3cr3tT0kenABCD",
                                 ExpireTime := "2017-07-21 02:40:01" }) ∧
      ((doLogin Double.office { body := Except.ok Double.tokenLoginBody }
        Double.opened).2.db.user_auth.find? (fun row => row.phoneno = "8613800000000")).map
          (fun row => row.token_expire_time) = some "2017-07-21 02:40:01" ∧
      ((doUserRegister Double.office { body := Except.ok Double.registerBody }
        Double.opened).1 = Outcome.ret (Except.ok
          { PhoneNo := "8613800000001", NickName := "方天宇", Token := "ovCJQX4bipwDKRY",
            ExpireTime := "2017-07-21 02:40:01",
            QrCodeUrl := "download/8613800000001/qrcode.png",
            AvatarUrl := "download/8613800000001/avatar.png" })) ∧
      ((doUserRegister Double.office { body := Except.ok Double.registerBody }
        Double.opened).2.db.user_auth.find? (fun row => row.phoneno = "8613800000001")).map
          (fun row => row.token_expire_time) = some "2017-07-21 02:40:01" ∧
      Double.formatTime (Double.office.now 1 + timeHour * 240) = "2017-07-24 02:40:01" ∧
      (∀ (env : SiteEnv) (r : Request) (s : Site) (ret : LoginRet),
        (doLogin env r s).1 = Outcome.ret (Except.ok ret) →
        ∃ k, ret.ExpireTime = env.formatTime (env.now k + timeHour * 168)) ∧
      ∀ (env : SiteEnv) (r : Request) (s : Site) (ret : RegisterRet),
        (doUserRegister env r s).1 = Outcome.ret (Except.ok ret) →
        ∃ k, ret.ExpireTime = env.formatTime (env.now k + timeHour * 168) := by
  refine ⟨by decide, by decide, by decide, rfl, by decide, rfl, by decide,
    rfl, by decide, by decide, ?_, ?_⟩
  · exact fun env r s ret h => doLogin_expireTime env r s ret h
  · exact fun env r s ret h => doUserRegister_expireTime env r s ret h

end TcpBoltDB

end TranslateChat
